import Mathlib

/-!
Manereja backend: cloud backup / sync engine

A shallow embedding of `src/routes/manereja/sync-routes.js` (the six sync
route handlers with their helpers `calculateBackupStats` and `mergeData`), of
the schema and the `pre('save')` hook of `src/models/manereja/user-backup.js`,
and of the access, usage, slug and rate-limit helpers of `service.js`,
`services.js` and `rate_limiter.js`.

Modelling conventions

* JavaScript values are the JSON values plus `undefined` (`JsValue`).  Numbers
  are integers; only their zero test is ever used by the code.
* An object is the list of its own enumerable properties in insertion order.
  A well formed object has pairwise distinct keys (`isBox`, `isSnapshot`).
  An assignment `o[k] = v` to a plain object writes an own property for every
  name but `__proto__`, which reaches the accessor inherited from
  `Object.prototype` (`objAssign`); object spread defines own properties for
  every name (`objSet`).
* A thrown error is an `Except.error` carrying a `Thrown`: a `TypeError` of the
  engine with its message, or an error of the database layer, whose message
  is not modelled.  The `catch` block of a handler turns it into the 500
  response.
* The `UserBackup` collection is a list of documents.  The schema declares
  `data` as fifteen `Map` paths (`schemaBoxNames`) and is strict: a write keeps
  only these names and casts each value to a map (`castMap`, `castData`); a
  path the database does not hold reads back as its default, the empty map
  (`UserBackup.box`).  A loaded document shows its `data` in three ways:
  serialised to JSON (`jsonData`), through `Object.entries`, `Object.keys` and
  object spread, which see the own properties of the `Map` instances and not
  their entries (`hydratedData`), and through `toObject()`, which yields
  native maps (`toObjectData`).
* `findOneAndUpdate` writes exactly the fields named in the update document
  and runs no `save` middleware; `save` validates the document, runs the
  `pre('save')` hook and then writes the document.
* Dates are milliseconds since the epoch and `new Date(timestamp)` is the
  identity on them.  `new Date()` and the fresh `ObjectId` of an inserted
  document are explicit arguments (`now`, `newId`).  What the handlers take
  from the runtime and from the Mongoose library is the argument `env`.
* The request field `version` is a string or absent (`none`); `boxNames` is
  absent, `null`, an array of strings, or a value without a `forEach` method.
-/

namespace Manereja

/-! ## JavaScript values -/

/-- JavaScript value as it can arrive in a parsed JSON request body, with
`undefined` for a field that is absent. -/
inductive JsValue where
  | undefined
  | null
  | bool (b : Bool)
  | num (n : Int)
  | str (s : String)
  | arr (xs : List JsValue)
  | obj (props : List (String × JsValue))

mutual
/-- Decidable equality of JavaScript values (structural). -/
def JsValue.decEq : (a b : JsValue) → Decidable (a = b)
  | .undefined, b => by
    cases b <;> first | exact isTrue rfl | exact isFalse (by intro h; cases h)
  | .null, b => by
    cases b <;> first | exact isTrue rfl | exact isFalse (by intro h; cases h)
  | .bool x, .bool y =>
    if h : x = y then isTrue (by rw [h]) else isFalse (by intro e; cases e; exact h rfl)
  | .num x, .num y =>
    if h : x = y then isTrue (by rw [h]) else isFalse (by intro e; cases e; exact h rfl)
  | .str x, .str y =>
    if h : x = y then isTrue (by rw [h]) else isFalse (by intro e; cases e; exact h rfl)
  | .arr x, .arr y =>
    match JsValue.decEqList x y with
    | isTrue h => isTrue (by rw [h])
    | isFalse h => isFalse (by intro e; cases e; exact h rfl)
  | .obj x, .obj y =>
    match JsValue.decEqProps x y with
    | isTrue h => isTrue (by rw [h])
    | isFalse h => isFalse (by intro e; cases e; exact h rfl)
  | .bool _, .undefined | .bool _, .null | .bool _, .num _ | .bool _, .str _
  | .bool _, .arr _ | .bool _, .obj _ => isFalse (by intro h; cases h)
  | .num _, .undefined | .num _, .null | .num _, .bool _ | .num _, .str _
  | .num _, .arr _ | .num _, .obj _ => isFalse (by intro h; cases h)
  | .str _, .undefined | .str _, .null | .str _, .bool _ | .str _, .num _
  | .str _, .arr _ | .str _, .obj _ => isFalse (by intro h; cases h)
  | .arr _, .undefined | .arr _, .null | .arr _, .bool _ | .arr _, .num _
  | .arr _, .str _ | .arr _, .obj _ => isFalse (by intro h; cases h)
  | .obj _, .undefined | .obj _, .null | .obj _, .bool _ | .obj _, .num _
  | .obj _, .str _ | .obj _, .arr _ => isFalse (by intro h; cases h)
/-- Decidable equality of arrays of JavaScript values. -/
def JsValue.decEqList : (a b : List JsValue) → Decidable (a = b)
  | [], [] => isTrue rfl
  | [], _ :: _ => isFalse (by intro h; cases h)
  | _ :: _, [] => isFalse (by intro h; cases h)
  | x :: xs, y :: ys =>
    match JsValue.decEq x y, JsValue.decEqList xs ys with
    | isTrue h, isTrue hs => isTrue (by rw [h, hs])
    | isFalse h, _ => isFalse (by intro e; cases e; exact h rfl)
    | _, isFalse hs => isFalse (by intro e; cases e; exact hs rfl)
/-- Decidable equality of property lists. -/
def JsValue.decEqProps : (a b : List (String × JsValue)) → Decidable (a = b)
  | [], [] => isTrue rfl
  | [], _ :: _ => isFalse (by intro h; cases h)
  | _ :: _, [] => isFalse (by intro h; cases h)
  | (k, x) :: xs, (l, y) :: ys =>
    if hk : k = l then
      match JsValue.decEq x y, JsValue.decEqProps xs ys with
      | isTrue h, isTrue hs => isTrue (by rw [hk, h, hs])
      | isFalse h, _ => isFalse (by intro e; cases e; exact h rfl)
      | _, isFalse hs => isFalse (by intro e; cases e; exact hs rfl)
    else isFalse (by intro e; cases e; exact hk rfl)
end

instance : DecidableEq JsValue := JsValue.decEq

/-- Property list of an object: own enumerable properties in order. -/
abbrev Props (α : Type) := List (String × α)

/-- Read of an own property: `o[k]`, `none` when `o` has no such key. -/
def objGet {α : Type} : Props α → String → Option α
  | [], _ => none
  | (k', v) :: rest, k => if k' = k then some v else objGet rest k

/-- Assignment `o[k] = v`: overwrite in place when the key exists, append a
new property otherwise. -/
def objSet {α : Type} : Props α → String → α → Props α
  | [], k, v => [(k, v)]
  | (k', v') :: rest, k, v =>
    if k' = k then (k', v) :: rest else (k', v') :: objSet rest k v

/-- Key list of a property list. -/
def objKeys {α : Type} (o : Props α) : List String := o.map Prod.fst

/-- JavaScript truthiness (`ToBoolean`). -/
def JsValue.truthy : JsValue → Bool
  | .undefined => false
  | .null => false
  | .bool b => b
  | .num n => n != 0
  | .str s => s != ""
  | .arr _ => true
  | .obj _ => true

/-- Index-keyed properties `"0", "1", ...` of an array-like value. -/
def indexedProps (xs : List JsValue) : Props JsValue :=
  xs.enum.map fun p => (toString p.1, p.2)

/-- Own enumerable string-keyed properties of `ToObject(v)`; a nullish value
has none (this is what object spread copies). -/
def JsValue.ownProps : JsValue → Props JsValue
  | .obj props => props
  | .arr xs => indexedProps xs
  | .str s => indexedProps (s.toList.map fun c => JsValue.str c.toString)
  | _ => []

/-- Assignment `o[k] = v` to a plain object whose prototype is
`Object.prototype`: the name `__proto__` reaches the inherited accessor, which
replaces the prototype (or ignores a value that is not an object) and writes
no own property; every other name is written as an own property. -/
def objAssign {α : Type} (o : Props α) (k : String) (v : α) : Props α :=
  if k = "__proto__" then o else objSet o k v

/-- Error thrown inside a handler: a `TypeError` of the engine with its
message, or an error raised by the database layer (a failed cast or a failed
validation), whose message is not modelled. -/
inductive Thrown where
  | typeError (message : String)
  | database
  deriving DecidableEq

/-- The `TypeError` raised by `Object.keys` / `Object.entries` on a nullish
argument. -/
def nullishToObjectError : Thrown :=
  .typeError "Cannot convert undefined or null to object"

/-- The `TypeError` raised by reading property `key` of `undefined` or of
`null` (`nullish` is the word the message uses for the value). -/
def nullishReadError (nullish key : String) : Thrown :=
  .typeError ("Cannot read properties of " ++ nullish ++ " (reading '" ++ key ++ "')")

/-- JavaScript `Object.entries(v)`: throws on `undefined` and `null`. -/
def objectEntries : JsValue → Except Thrown (Props JsValue)
  | .undefined => .error nullishToObjectError
  | .null => .error nullishToObjectError
  | v => .ok v.ownProps

/-- JavaScript `Object.keys(v)`: throws on `undefined` and `null`. -/
def objectKeys : JsValue → Except Thrown (List String)
  | .undefined => .error nullishToObjectError
  | .null => .error nullishToObjectError
  | v => .ok (objKeys v.ownProps)

/-- Property read `v[k]`: throws on a nullish `v`, yields the own property,
and `undefined` for a key that is absent; `length` of strings and arrays is
provided.  A property inherited from a prototype (a method, or the prototype
itself under `__proto__`) reads as `undefined` here: the handlers only spread
the value read, or assign it under a name outside the schema, and there an
inherited value and `undefined` have the same effect. -/
def JsValue.getProp : JsValue → String → Except Thrown JsValue
  | .undefined, k => .error (nullishReadError "undefined" k)
  | .null, k => .error (nullishReadError "null" k)
  | .str s, k =>
    if k = "length" then .ok (.num s.length)
    else .ok ((objGet (JsValue.str s).ownProps k).getD .undefined)
  | .arr xs, k =>
    if k = "length" then .ok (.num xs.length)
    else .ok ((objGet (JsValue.arr xs).ownProps k).getD .undefined)
  | v, k => .ok ((objGet v.ownProps k).getD .undefined)

/-- Object spread step: copy the own enumerable properties of `src` into
`target`, in order. -/
def spreadInto (target : Props JsValue) (src : JsValue) : Props JsValue :=
  src.ownProps.foldl (fun acc kv => objSet acc kv.1 kv.2) target

/-- Object literal with two spreads (first `a`, then `b`, later keys win). -/
def spread2 (a b : JsValue) : Props JsValue :=
  spreadInto (spreadInto [] a) b

/-- Expression `v || {}`. -/
def orEmptyObject (v : JsValue) : JsValue :=
  if v.truthy then v else .obj []

/-- Insertion into a JavaScript `Set` of strings (insertion ordered). -/
def jsSetAdd (s : List String) (k : String) : List String :=
  if k ∈ s then s else s ++ [k]

/-- JavaScript `new Set(xs)`: the distinct elements in first-insertion order. -/
def jsSet (xs : List String) : List String :=
  xs.foldl jsSetAdd []

/-! ## Helper functions of `sync-routes.js` -/

/-- Record `stats` built by `calculateBackupStats`. -/
structure Stats where
  totalBoxes : Nat
  totalItems : Nat
  boxDetails : Props Nat
  deriving DecidableEq

/-- Loop `for (const [boxName, boxData] of Object.entries(data))` of
`calculateBackupStats`. -/
def calculateBackupStatsLoop : Props JsValue → Stats → Except Thrown Stats
  | [], stats => .ok stats
  | (boxName, boxData) :: rest, stats =>
    match objectKeys boxData with
    | .error e => .error e
    | .ok ks =>
      calculateBackupStatsLoop rest
        ⟨stats.totalBoxes + 1, stats.totalItems + ks.length,
          objAssign stats.boxDetails boxName ks.length⟩

/-- Function `calculateBackupStats(data)` of `sync-routes.js`. -/
def calculateBackupStats (data : JsValue) : Except Thrown Stats :=
  match objectEntries data with
  | .error e => .error e
  | .ok entries => calculateBackupStatsLoop entries ⟨0, 0, []⟩

/-- Argument `options` of `mergeData` as `smart-sync` builds it. -/
structure MergeOptions where
  lastSyncTime : Option Nat
  cloudLastSync : Option Nat
  preferCloud : JsValue
  deriving DecidableEq

/-- Destructuring `const { preferCloud = false } = options`: the default is
taken exactly when the field is `undefined`. -/
def preferCloudOf (options : MergeOptions) : JsValue :=
  match options.preferCloud with
  | .undefined => .bool false
  | v => v

/-- Body of the loop `for (const boxName of allBoxNames)` of `mergeData`: the
box that is assigned to `merged[boxName]`. -/
def mergeBox (localData cloudData : JsValue) (preferCloud : JsValue) (boxName : String) :
    Except Thrown JsValue :=
  match localData.getProp boxName with
  | .error e => .error e
  | .ok l =>
    match cloudData.getProp boxName with
    | .error e => .error e
    | .ok c =>
      let loc := orEmptyObject l
      let cloud := orEmptyObject c
      if preferCloud.truthy then .ok (.obj (spread2 loc cloud))
      else .ok (.obj (spread2 cloud loc))

/-- Loop `for (const boxName of allBoxNames)` of `mergeData`, with the
assignment `merged[boxName] = ...`. -/
def mergeDataLoop (localData cloudData : JsValue) (preferCloud : JsValue) :
    List String → Props JsValue → Except Thrown (Props JsValue)
  | [], merged => .ok merged
  | boxName :: rest, merged =>
    match mergeBox localData cloudData preferCloud boxName with
    | .error e => .error e
    | .ok box =>
      mergeDataLoop localData cloudData preferCloud rest (objAssign merged boxName box)

/-- Function `mergeData(localData, cloudData, options)` of `sync-routes.js`. -/
def mergeData (localData cloudData : JsValue) (options : MergeOptions) :
    Except Thrown JsValue :=
  let preferCloud := preferCloudOf options
  match objectKeys localData with
  | .error e => .error e
  | .ok localKeys =>
    match objectKeys cloudData with
    | .error e => .error e
    | .ok cloudKeys =>
      match mergeDataLoop localData cloudData preferCloud (jsSet (localKeys ++ cloudKeys)) [] with
      | .error e => .error e
      | .ok merged => .ok (.obj merged)

/-- Call `mergeData(localData, cloudData)` with `options` omitted (`= {}`). -/
def mergeDataDefault (localData cloudData : JsValue) : Except Thrown JsValue :=
  mergeData localData cloudData ⟨none, none, .undefined⟩

/-- Decidable equality of the outcomes of a computation that may throw. -/
def exceptDecEq {ε α : Type} [DecidableEq ε] [DecidableEq α] :
    (a b : Except ε α) → Decidable (a = b)
  | .ok x, .ok y =>
    if h : x = y then isTrue (by rw [h]) else isFalse (by intro e; cases e; exact h rfl)
  | .error x, .error y =>
    if h : x = y then isTrue (by rw [h]) else isFalse (by intro e; cases e; exact h rfl)
  | .ok _, .error _ => isFalse (by intro e; cases e)
  | .error _, .ok _ => isFalse (by intro e; cases e)

instance {ε α : Type} [DecidableEq ε] [DecidableEq α] : DecidableEq (Except ε α) :=
  exceptDecEq

/-! ## The `UserBackup` model (`user-backup.js`) -/

/-- Identifier of a user (an `ObjectId`). -/
abbrev UserId := Nat

/-- JavaScript `Date`, as milliseconds since the epoch. -/
abbrev Date := Nat

/-- Names of the fifteen `Map` paths that `UserBackupSchema` declares under
`data`, in the order of the schema. -/
def schemaBoxNames : List String :=
  ["sales_Items", "recording_sessions", "expense_items", "expense_sessions", "goals",
    "budgets", "savings_accounts", "appSettings", "financial_profile", "financial_targets",
    "target_contributions", "debts", "supplier_credits", "cash_inflows", "cash_outflows"]

/-- Value held for one `Map` path of `data`: `null` (`none`), or the entries
of the map (`of: Mixed`, so the item values are kept as they are). -/
abbrev StoredBox := Option (Props JsValue)

/-- Document of the `UserBackup` collection; `data` holds the values of the
`Map` paths by name. -/
structure UserBackup where
  _id : Nat
  userId : UserId
  data : Props StoredBox
  version : String
  lastBackupTime : Date
  dataSize : Nat
  stats : Stats
  createdAt : Date
  updatedAt : Date
  deriving DecidableEq

/-- The `UserBackup` collection. -/
abbrev Store := List UserBackup

/-- What the handlers take from the runtime and from the Mongoose library,
neither of which is part of the repository: `jsonLength x` is the length of
`JSON.stringify(x)`; `mapInternals n` lists the own enumerable properties of
the hydrated `Map` instance of path `n` of `data`, that is the internal fields
of the library object, which is what `Object.keys` and object spread see of
it (the entries of a map are not properties); `validMapKey k` tells whether
the library accepts `k` as a key of a `Map`; and `castOther v` is the cast to a
`Map` of a value that is neither `null` nor a plain object (a number, a string,
a boolean or an array). -/
structure Env where
  jsonLength : JsValue → Nat
  mapInternals : String → Props JsValue
  validMapKey : String → Bool
  castOther : JsValue → Except Thrown StoredBox

/-- Box `n` of a loaded document: the value the document holds for the path,
or the schema default `{}` (the empty map) when it holds none. -/
def UserBackup.box (doc : UserBackup) (n : String) : StoredBox :=
  (objGet doc.data n).getD (some [])

/-- The fifteen boxes of a loaded document, in schema order. -/
def UserBackup.boxes (doc : UserBackup) : Props StoredBox :=
  schemaBoxNames.map fun n => (n, doc.box n)

/-- JSON form of a box (`Map.toJSON`): the entries as a plain object. -/
def jsonBox : StoredBox → JsValue
  | none => .null
  | some entries => .obj entries

/-- Value `backup.data` as `res.json` and `JSON.stringify` serialise it: the
fifteen boxes with their entries. -/
def UserBackup.jsonData (doc : UserBackup) : JsValue :=
  .obj (schemaBoxNames.map fun n => (n, jsonBox (doc.box n)))

/-- Box `n` of `backup.data` as `Object.keys` and object spread see it: the
`Map` instance shows its internal fields, not its entries. -/
def hydratedBox (env : Env) (n : String) : StoredBox → JsValue
  | none => .null
  | some _ => .obj (env.mapInternals n)

/-- Value `backup.data` of a loaded document as `Object.entries`,
`Object.keys` and object spread see it. -/
def UserBackup.hydratedData (env : Env) (doc : UserBackup) : JsValue :=
  .obj (schemaBoxNames.map fun n => (n, hydratedBox env n (doc.box n)))

/-- Box of `this.data.toObject()`: a native `Map`, an object without own
enumerable properties. -/
def plainBox : StoredBox → JsValue
  | none => .null
  | some _ => .obj []

/-- Method `this.data.toObject()` of the hook: the fifteen boxes as native
maps. -/
def UserBackup.toObjectData (doc : UserBackup) : Props JsValue :=
  schemaBoxNames.map fun n => (n, plainBox (doc.box n))

/-- Cast of a value to a `Map` path of `data`: `null` is kept, a plain object
all of whose keys the library accepts becomes the map of its entries and is
refused otherwise, and any other value is cast as the library decides. -/
def castMap (env : Env) : JsValue → Except Thrown StoredBox
  | .null => .ok none
  | .obj entries =>
    if (objKeys entries).all env.validMapKey then .ok (some entries) else .error .database
  | v => env.castOther v

/-- Cast of the value handed to path `n` of `data` by an update whose `data`
has the own properties `props`: an absent or `undefined` value leaves the
path to its default. -/
def castBox (env : Env) (props : Props JsValue) (n : String) : Except Thrown StoredBox :=
  match objGet props n with
  | none => .ok (some [])
  | some .undefined => .ok (some [])
  | some v => castMap env v

/-- Cast of the boxes of an update, path by path. -/
def castBoxes (env : Env) (props : Props JsValue) :
    List String → Except Thrown (Props StoredBox)
  | [] => .ok []
  | n :: rest =>
    match castBox env props n with
    | .error e => .error e
    | .ok box =>
      match castBoxes env props rest with
      | .error e => .error e
      | .ok tl => .ok ((n, box) :: tl)

/-- Strict cast of the `data` of an update: of the own properties of the
value only the fifteen schema paths are read, and every other name is
dropped. Names are taken as plain names: a name that holds a dot or starts
with `$`, which the library may read as a path or as an operator, is outside
this model. -/
def castData (env : Env) (data : JsValue) : Except Thrown (Props StoredBox) :=
  castBoxes env data.ownProps schemaBoxNames

/-- Cast of the field `data` of an update document: a field that is
`undefined` is not part of the update (`none`). -/
def castUpdateData (env : Env) : JsValue → Except Thrown (Option (Props StoredBox))
  | .undefined => .ok none
  | d =>
    match castData env d with
    | .error e => .error e
    | .ok boxes => .ok (some boxes)

/-- Document holding the schema defaults of `UserBackupSchema` for a new
document of `userId`: fifteen empty maps, version `1.0.0`, `dataSize` 0, zero
`stats`, the three dates `Date.now`. -/
def schemaDefaults (newId : Nat) (userId : UserId) (now : Date) : UserBackup :=
  ⟨newId, userId, schemaBoxNames.map (fun n => (n, some [])), "1.0.0", now, 0, ⟨0, 0, []⟩,
    now, now⟩

/-- Query `UserBackup.findOne` by `userId`: the first matching document. -/
def findOne : Store → UserId → Option UserBackup
  | [], _ => none
  | d :: rest, userId => if d.userId = userId then some d else findOne rest userId

/-- Update document passed to `findOneAndUpdate` by the route handlers, after
its cast; a field that is `undefined` (`none`) is not written. -/
structure UpdateDoc where
  userId : UserId
  data : Option (Props StoredBox)
  version : Option String
  lastBackupTime : Date
  updatedAt : Date
  deriving DecidableEq

/-- Effect of an update document on one document: exactly the named fields
are written; `dataSize`, `stats`, `createdAt` and `_id` are not touched. -/
def UpdateDoc.applyTo (up : UpdateDoc) (doc : UserBackup) : UserBackup :=
  ⟨doc._id, up.userId,
    (match up.data with
      | none => doc.data
      | some d => d),
    (match up.version with
      | none => doc.version
      | some v => v),
    up.lastBackupTime, doc.dataSize, doc.stats, doc.createdAt, up.updatedAt⟩

/-- Update of the first document of `userId`, if there is one; returns the
updated document and the new collection. -/
def updateFirst (userId : UserId) (f : UserBackup → UserBackup) :
    Store → Option (UserBackup × Store)
  | [] => none
  | d :: rest =>
    if d.userId = userId then some (f d, f d :: rest)
    else
      match updateFirst userId f rest with
      | none => none
      | some r => some (r.1, d :: r.2)

/-- Call `UserBackup.findOneAndUpdate` by `userId` with `upsert: true`:
updates the first document of the user, or inserts a new one built from the
schema defaults and the update. No `save` middleware runs. -/
def findOneAndUpdate (s : Store) (userId : UserId) (up : UpdateDoc) (newId : Nat)
    (now : Date) : UserBackup × Store :=
  match updateFirst userId up.applyTo s with
  | some r => r
  | none => (up.applyTo (schemaDefaults newId userId now),
      s ++ [up.applyTo (schemaDefaults newId userId now)])

/-- Call `UserBackup.findOneAndDelete` by `userId`: removes the first
document of the user, if any. -/
def findOneAndDelete : Store → UserId → Store
  | [], _ => []
  | d :: rest, userId =>
    if d.userId = userId then rest else d :: findOneAndDelete rest userId

/-- Test `typeof v === 'object'`. -/
def JsValue.typeofIsObject : JsValue → Bool
  | .null => true
  | .arr _ => true
  | .obj _ => true
  | _ => false

/-- Loop of the `pre('save')` hook over `Object.entries(this.data.toObject())`,
with its guard `boxData && typeof boxData === 'object'`. -/
def preSaveLoop : Props JsValue → Stats → Except Thrown Stats
  | [], stats => .ok stats
  | (boxName, boxData) :: rest, stats =>
    if boxData.truthy && boxData.typeofIsObject then
      match objectKeys boxData with
      | .error e => .error e
      | .ok ks =>
        preSaveLoop rest
          ⟨stats.totalBoxes + 1, stats.totalItems + ks.length,
            objAssign stats.boxDetails boxName ks.length⟩
    else preSaveLoop rest stats

/-- Hook `UserBackupSchema.pre('save')`: recomputes `dataSize` from the JSON
form of `this.data` and `stats` from `this.data.toObject()`, and refreshes
`updatedAt`. -/
def preSave (env : Env) (doc : UserBackup) (now : Date) : Except Thrown UserBackup :=
  match preSaveLoop doc.toObjectData ⟨0, 0, []⟩ with
  | .error e => .error e
  | .ok stats =>
    .ok ⟨doc._id, doc.userId, doc.data, doc.version, doc.lastBackupTime,
      env.jsonLength doc.jsonData, stats, doc.createdAt, now⟩

/-- Write-back of a loaded document: it replaces the document `findOne`
returned, that is the first one of the user. -/
def replaceFirst (userId : UserId) (doc : UserBackup) (s : Store) : Store :=
  match updateFirst userId (fun _ => doc) s with
  | some r => r.2
  | none => s

/-- Method `backup.save()`: rejects a document one of whose assignments failed
its cast (`castFailed`), else runs the `pre('save')` hook, then inserts the
document when it is new and writes it back otherwise. -/
def save (env : Env) (s : Store) (doc : UserBackup) (castFailed isNew : Bool)
    (now : Date) : Except Thrown Store :=
  if castFailed then .error .database
  else
    match preSave env doc now with
    | .error e => .error e
    | .ok saved =>
      if isNew then .ok (s ++ [saved]) else .ok (replaceFirst saved.userId saved s)

/-! ## Route handlers of `sync-routes.js` -/

/-- JSON body and status code of a response; a field that the handler does
not send is `none` (`lastBackupTime` may be sent as `null`: `some none`). The
field `error` is the thrown error whose message the handler sends. -/
structure Response where
  status : Nat
  success : Bool
  message : Option String
  error : Option Thrown
  stats : Option Stats
  backupId : Option Nat
  lastBackupTime : Option (Option Date)
  data : Option JsValue
  version : Option String
  mergedData : Option JsValue
  hasBackup : Option Bool
  deriving DecidableEq

/-- Response of a `catch` block: status 500 with `success: false`, the
handler's message and `error: error.message`. -/
def failureResponse (message : String) (err : Thrown) : Response :=
  ⟨500, false, some message, some err, none, none, none, none, none, none, none⟩

/-- Handler `POST /backup`. -/
def backup (env : Env) (s : Store) (userId : UserId) (data : JsValue) (timestamp : Date)
    (version : Option String) (newId : Nat) (now : Date) : Response × Store :=
  match castUpdateData env data with
  | .error e => (failureResponse "Backup failed" e, s)
  | .ok boxes =>
    let r := findOneAndUpdate s userId ⟨userId, boxes, version, timestamp, now⟩ newId now
    match calculateBackupStats data with
    | .error e => (failureResponse "Backup failed" e, r.2)
    | .ok stats =>
      (⟨200, true, some "Backup completed successfully", none, some stats, some r.1._id,
        some (some r.1.lastBackupTime), none, none, none, none⟩, r.2)

/-- Handler `GET /restore`. -/
def restore (env : Env) (s : Store) (userId : UserId) : Response × Store :=
  match findOne s userId with
  | none =>
    (⟨404, false, some "No backup found for this user", none, none, none, none, none, none,
      none, none⟩, s)
  | some doc =>
    match calculateBackupStats (doc.hydratedData env) with
    | .error e => (failureResponse "Restore failed" e, s)
    | .ok stats =>
      (⟨200, true, some "Restore data retrieved successfully", none, some stats, none,
        some (some doc.lastBackupTime), some doc.jsonData, some doc.version, none, none⟩, s)

/-- Expression `backup?.data` or-ed with the empty object, of `smart-sync`:
the `data` of a loaded document is an object, hence truthy. -/
def cloudDataOf (env : Env) (found : Option UserBackup) : JsValue :=
  match found with
  | none => orEmptyObject .undefined
  | some doc => orEmptyObject (doc.hydratedData env)

/-- Expression `lastSyncTime ? new Date(lastSyncTime) : null` of `smart-sync`. -/
def lastSyncDate (lastSyncTime : Option Date) : Option Date :=
  match lastSyncTime with
  | none => none
  | some t => if t = 0 then none else some t

/-- Handler `POST /smart-sync`. -/
def smartSync (env : Env) (s : Store) (userId : UserId) (localData : JsValue)
    (lastSyncTime : Option Date) (preferCloud : JsValue) (newId : Nat) (now : Date) :
    Response × Store :=
  let found := findOne s userId
  let cloudData := cloudDataOf env found
  match mergeData localData cloudData
      ⟨lastSyncDate lastSyncTime, found.map (fun doc => doc.lastBackupTime), preferCloud⟩ with
  | .error e => (failureResponse "Smart sync failed" e, s)
  | .ok mergedData =>
    match castUpdateData env mergedData with
    | .error e => (failureResponse "Smart sync failed" e, s)
    | .ok boxes =>
      let r := findOneAndUpdate s userId ⟨userId, boxes, none, now, now⟩ newId now
      match calculateBackupStats mergedData with
      | .error e => (failureResponse "Smart sync failed" e, r.2)
      | .ok stats =>
        (⟨200, true, some "Smart sync completed", none, some stats, none, none, none, none,
          some mergedData, none⟩, r.2)

/-- Request field `boxNames`: absent, `null`, an array of strings, or another
value (a number, a boolean, a string or a plain object: none has a `forEach`
method). -/
inductive BoxNames where
  | undefined
  | null
  | notArray
  | names (xs : List String)
  deriving DecidableEq

/-- State of the loaded document during the loop of `selective`: its boxes,
and whether an assignment has failed its cast. -/
structure Assigned where
  boxes : Props StoredBox
  castFailed : Bool
  deriving DecidableEq

/-- Assignment `backup.data[boxName] = v` on the nested path `data` of a
document: for a schema name the value is cast and set (a failed cast marks
the document invalid and leaves the box); any other name is no path of the
document and nothing of it is stored. -/
def assignBox (env : Env) (doc : Assigned) (boxName : String) (v : JsValue) : Assigned :=
  if boxName ∈ schemaBoxNames then
    match castMap env v with
    | .ok box => ⟨objSet doc.boxes boxName box, doc.castFailed⟩
    | .error _ => ⟨doc.boxes, true⟩
  else doc

/-- Loop `boxNames.forEach(...)` of `selective`: each named box for which
`data[boxName]` is truthy is assigned to `backup.data[boxName]`. -/
def selectiveLoop (env : Env) (data : JsValue) :
    List String → Assigned → Except Thrown Assigned
  | [], doc => .ok doc
  | boxName :: rest, doc =>
    match data.getProp boxName with
    | .error e => .error e
    | .ok v =>
      if v.truthy then selectiveLoop env data rest (assignBox env doc boxName v)
      else selectiveLoop env data rest doc

/-- Call `boxNames.forEach(...)` of `selective` on the request field. -/
def forEachBoxName (env : Env) (data : JsValue) (boxNames : BoxNames) (doc : Assigned) :
    Except Thrown Assigned :=
  match boxNames with
  | .undefined => .error (nullishReadError "undefined" "forEach")
  | .null => .error (nullishReadError "null" "forEach")
  | .notArray => .error (.typeError "boxNames.forEach is not a function")
  | .names xs => selectiveLoop env data xs doc

/-- Handler `POST /selective`. -/
def selectiveSync (env : Env) (s : Store) (userId : UserId)
    (data : JsValue) (boxNames : BoxNames) (newId : Nat) (now : Date) :
    Response × Store :=
  let found := findOne s userId
  let doc :=
    match found with
    | some d => d
    | none => schemaDefaults newId userId now
  match forEachBoxName env data boxNames ⟨doc.boxes, false⟩ with
  | .error e => (failureResponse "Selective sync failed" e, s)
  | .ok assigned =>
    match save env s
        ⟨doc._id, doc.userId, assigned.boxes, doc.version, now, doc.dataSize, doc.stats,
          doc.createdAt, now⟩ assigned.castFailed found.isNone now with
    | .error e => (failureResponse "Selective sync failed" e, s)
    | .ok saved =>
      (⟨200, true, some "Selective sync completed", none, none, none, none, none, none,
        none, none⟩, saved)

/-- Handler `GET /status`. -/
def status (env : Env) (s : Store) (userId : UserId) : Response × Store :=
  match findOne s userId with
  | none =>
    (⟨200, true, none, none, none, none, some none, none, none, none, some false⟩, s)
  | some doc =>
    match calculateBackupStats (doc.hydratedData env) with
    | .error e => (failureResponse "Failed to get sync status" e, s)
    | .ok stats =>
      (⟨200, true, none, none, some stats, none, some (some doc.lastBackupTime), none,
        some doc.version, none, some true⟩, s)

/-- Handler `DELETE /backup`. -/
def deleteBackup (s : Store) (userId : UserId) : Response × Store :=
  (⟨200, true, some "Cloud backup deleted successfully", none, none, none, none, none, none,
    none, none⟩, findOneAndDelete s userId)

/-- Request to one of the six sync operations, with the values the
environment supplies for that request (`newId`, `now`). -/
inductive Request where
  | backup (userId : UserId) (data : JsValue) (timestamp : Date) (version : Option String)
      (newId : Nat) (now : Date)
  | restore (userId : UserId)
  | smartSync (userId : UserId) (localData : JsValue) (lastSyncTime : Option Date)
      (preferCloud : JsValue) (newId : Nat) (now : Date)
  | selectiveSync (userId : UserId) (data : JsValue) (boxNames : BoxNames)
      (newId : Nat) (now : Date)
  | status (userId : UserId)
  | deleteBackup (userId : UserId)

/-- Authenticated user of a request (`req.user.userId`). -/
def Request.user : Request → UserId
  | .backup u _ _ _ _ _ => u
  | .restore u => u
  | .smartSync u _ _ _ _ _ => u
  | .selectiveSync u _ _ _ _ => u
  | .status u => u
  | .deleteBackup u => u

/-- Dispatch of a request to its handler. -/
def handle (env : Env) (s : Store) : Request → Response × Store
  | .backup u data timestamp version newId now =>
    backup env s u data timestamp version newId now
  | .restore u => restore env s u
  | .smartSync u localData lastSyncTime preferCloud newId now =>
    smartSync env s u localData lastSyncTime preferCloud newId now
  | .selectiveSync u data boxNames newId now =>
    selectiveSync env s u data boxNames newId now
  | .status u => status env s u
  | .deleteBackup u => deleteBackup s u

/-- Store after a sequence of requests served one after the other. -/
def runRequests (env : Env) : Store → List Request → Store
  | s, [] => s
  | s, r :: rest => runRequests env (handle env s r).2 rest

/-! ## Vocabulary of the specification -/

/-- A box: an object whose item keys are pairwise distinct. -/
def isBox : JsValue → Bool
  | .obj items => decide (objKeys items).Nodup
  | _ => false

/-- A snapshot: an object with pairwise distinct box names, each of whose
values is a box. -/
def isSnapshot : JsValue → Bool
  | .obj boxes => decide (objKeys boxes).Nodup && boxes.all (fun kv => isBox kv.2)
  | _ => false

/-- Value of item `k` of box `b` in a snapshot, `none` when the snapshot has
no box `b` or the box has no item `k`. -/
def itemOf (boxes : Props JsValue) (b k : String) : Option JsValue :=
  match objGet boxes b with
  | some (.obj items) => objGet items k
  | _ => none

/-- First of two optional values that is present. -/
def firstSome {α : Type} : Option α → Option α → Option α
  | some v, _ => some v
  | none, other => other

/-- Box `b` of a snapshot as `mergeData` reads it: `snapshot[b]` or-ed with
the empty object. -/
def boxOrEmpty (boxes : Props JsValue) (b : String) : JsValue :=
  orEmptyObject ((objGet boxes b).getD .undefined)

/-- Box that `mergeData` computes for the name `b` of two object arguments. -/
def mergedBoxOf (localBoxes cloudBoxes : Props JsValue) (preferCloud : JsValue)
    (b : String) : JsValue :=
  if preferCloud.truthy then
    .obj (spread2 (boxOrEmpty localBoxes b) (boxOrEmpty cloudBoxes b))
  else .obj (spread2 (boxOrEmpty cloudBoxes b) (boxOrEmpty localBoxes b))

/-- Boxes of the object that `mergeData` returns for two object arguments. -/
def mergedBoxes (localBoxes cloudBoxes : Props JsValue) (preferCloud : JsValue) :
    Props JsValue :=
  (jsSet (objKeys localBoxes ++ objKeys cloudBoxes)).foldl
    (fun m n => objAssign m n (mergedBoxOf localBoxes cloudBoxes preferCloud n)) []

/-- A snapshot without its `__proto__` box. -/
def withoutProto (boxes : Props JsValue) : Props JsValue :=
  boxes.filter fun kv => decide (kv.1 ≠ "__proto__")

/-- Stored value of box `n` of user `u`: `none` when the user has no
document. -/
def storedBox (s : Store) (u : UserId) (n : String) : Option StoredBox :=
  (findOne s u).map fun doc => doc.box n

/-- Requests that write a snapshot: backup, smart sync and selective sync. -/
def Request.isWrite : Request → Bool
  | .backup _ _ _ _ _ _ => true
  | .smartSync _ _ _ _ _ _ => true
  | .selectiveSync _ _ _ _ _ => true
  | _ => false

/-- Client-error class of a response: an HTTP status from 400 to 499. -/
def Response.isClientError (r : Response) : Bool :=
  decide (400 ≤ r.status) && decide (r.status < 500)

/-- Number of top-level boxes of a snapshot that hold at least one item. -/
def nonEmptyBoxCount (boxes : Props JsValue) : Nat :=
  boxes.countP fun kv => decide (0 < (objKeys kv.2.ownProps).length)

/-- Number of top-level boxes of a snapshot that hold no item. -/
def emptyBoxCount (boxes : Props JsValue) : Nat :=
  boxes.countP fun kv => decide ((objKeys kv.2.ownProps).length = 0)

/-- Number of keys of a box value. -/
def boxItemCount (box : JsValue) : Nat := (objKeys box.ownProps).length

/-- Number of items of a snapshot: the key counts of its boxes, added up. -/
def itemCount (data : JsValue) : Nat :=
  (data.ownProps.map fun kv => boxItemCount kv.2).sum

/-- Effect of an upsert of `doc` for user `u` that leads from collection `s`
to collection `t`: the documents of every other user are the same, the first
document of `u` is now `doc`, a user without a document gets `doc` appended,
and a user with a document keeps the number and the `_id`s of all documents. -/
def upsertEffect (s t : Store) (u : UserId) (doc : UserBackup) : Prop :=
  doc.userId = u
  ∧ (∀ v, v ≠ u → t.filter (fun d => decide (d.userId = v))
      = s.filter (fun d => decide (d.userId = v)))
  ∧ t.filter (fun d => decide (d.userId = u))
      = doc :: (s.filter (fun d => decide (d.userId = u))).tail
  ∧ (findOne s u = none → t = s ++ [doc])
  ∧ (findOne s u ≠ none → t.length = s.length
      ∧ t.map (fun d => d._id) = s.map (fun d => d._id))

/-- Documents of user `v` in the collection, in order. -/
def docsOf (s : Store) (v : UserId) : Store := s.filter (fun d => decide (d.userId = v))

/-- Store invariant: no user owns two documents. -/
def atMostOnePerUser (s : Store) : Prop := ∀ u, (docsOf s u).length ≤ 1

/-- Environment of the examples: every serialisation has length 0, a
hydrated `Map` of path `n` shows four internal fields of the library,
`$__parent`, `$__path`, `$__schemaType` and `$__deferred`, a `Map` accepts the
keys that neither start with `$` nor hold a dot, and a value that is neither
`null` nor a plain object is refused. -/
def exampleEnv : Env :=
  ⟨fun _ => 0,
    fun n =>
      [("$__parent", .obj []), ("$__path", .str ("data." ++ n)), ("$__schemaType", .obj []),
        ("$__deferred", .null)],
    fun k => !(decide (k.toList.head? = some '$')) && !(decide ('.' ∈ k.toList)),
    fun _ => .error .database⟩

/-- Step of the loop of `selective` on an object `data`: box `n` is assigned
when `data[n]` is present and truthy. -/
def selectiveStep (env : Env) (dataBoxes : Props JsValue) (doc : Assigned) (n : String) :
    Assigned :=
  match objGet dataBoxes n with
  | some v => if v.truthy then assignBox env doc n v else doc
  | none => doc

/-! ## The `Service` model (`service.js`) -/

/-- Field `usageLimit` of a service: per tier a number, or `null` for unlimited. -/
structure UsageLimit where
  free : Option Int
  premium : Option Int
  deriving DecidableEq

/-- Fields of a `Service` document that the access methods read. -/
structure Service where
  isActive : Bool
  subscriptionTier : String
  usageLimit : UsageLimit
  deriving DecidableEq

/-- JavaScript value of a `Number` field that may be `null`. -/
def numberOrNull : Option Int → JsValue
  | none => .null
  | some n => .num n

/-- Read `this.usageLimit[subscriptionType]`: the field of that name, and
`undefined` for any other name. -/
def UsageLimit.index (l : UsageLimit) (subscriptionType : String) : JsValue :=
  if subscriptionType = "free" then numberOrNull l.free
  else if subscriptionType = "premium" then numberOrNull l.premium
  else .undefined

/-- Method `isAccessibleFor(subscriptionType)` of `ServiceSchema`. -/
def isAccessibleFor (svc : Service) (subscriptionType : String) : Bool :=
  if !svc.isActive then false
  else if svc.subscriptionTier = "free" then true
  else if svc.subscriptionTier = "premium" then decide (subscriptionType = "premium")
  else if svc.subscriptionTier = "both" then true
  else false

/-- Method `getUsageLimit(subscriptionType)` of `ServiceSchema`:
`this.usageLimit[subscriptionType] || this.usageLimit.free`. -/
def getUsageLimit (svc : Service) (subscriptionType : String) : JsValue :=
  if (svc.usageLimit.index subscriptionType).truthy then svc.usageLimit.index subscriptionType
  else numberOrNull svc.usageLimit.free

/-- Entry of `usageHistory` of a user-service record. -/
structure UsageEntry where
  date : Date
  action : String
  details : JsValue
  deriving DecidableEq

/-- Fields of a `UserService` document (`services.js`) that the usage methods
read and write. -/
structure UserService where
  usageCount : Nat
  lastUsed : Option Date
  usageHistory : List UsageEntry
  deriving DecidableEq

/-- Method `hasRemainingUsage(userId, subscriptionType)` of `ServiceSchema`;
`userService` is the result of the `UserService.findOne` query. -/
def hasRemainingUsage (svc : Service) (userService : Option UserService)
    (subscriptionType : String) : Bool :=
  match userService with
  | none => false
  | some us =>
    match getUsageLimit svc subscriptionType with
    | .null => true
    | .num limit => decide ((us.usageCount : Int) < limit)
    | _ => false

/-- JavaScript `xs.slice(-n)`: the last `n` elements. -/
def sliceLast {α : Type} (n : Nat) (xs : List α) : List α :=
  xs.drop (xs.length - n)

/-- Entry that `incrementUsage` pushes: an omitted `action` is `general`,
omitted `details` are the empty object. -/
def usageEntry (action : Option String) (details : Option JsValue) (entryDate : Date) :
    UsageEntry :=
  ⟨entryDate, action.getD "general", details.getD (.obj [])⟩

/-- Method `incrementUsage(action, details)` of `UserServiceSchema`, up to the
`save`; `now` and `entryDate` are the two `new Date()` values. -/
def incrementUsage (us : UserService) (action : Option String) (details : Option JsValue)
    (now entryDate : Date) : UserService :=
  ⟨us.usageCount + 1, some now,
    if (us.usageHistory ++ [usageEntry action details entryDate]).length > 100 then
      sliceLast 100 (us.usageHistory ++ [usageEntry action details entryDate])
    else us.usageHistory ++ [usageEntry action details entryDate]⟩

/-- Character class `[a-z0-9]` of the slug expression. -/
def isSlugAlnum (c : Char) : Bool :=
  (decide ('a' ≤ c) && decide (c ≤ 'z')) || (decide ('0' ≤ c) && decide (c ≤ '9'))

/-- Global replacement `.replace(/[^a-z0-9]+/g, '-')`: every maximal run of
characters outside `[a-z0-9]` becomes one `-`; `inRun` tells that the
previous character belonged to such a run. -/
def replaceNonAlnumRuns : Bool → List Char → List Char
  | _, [] => []
  | inRun, c :: rest =>
    if isSlugAlnum c then c :: replaceNonAlnumRuns false rest
    else if inRun then replaceNonAlnumRuns true rest
    else '-' :: replaceNonAlnumRuns true rest

/-- Global replacement `.replace(/^-+|-+$/g, '')`: the leading run and the
trailing run of `-` are removed. -/
def stripDashes (l : List Char) : List Char :=
  (l.dropWhile (fun c => c == '-')).rdropWhile (fun c => c == '-')

/-- Slug expression of the `pre('save')` hook of `ServiceSchema`; the builtin
`toLowerCase` is an argument. -/
def slugOf (toLowerCase : List Char → List Char) (name : List Char) : List Char :=
  stripDashes (replaceNonAlnumRuns false (toLowerCase name))

/-- Hook `ServiceSchema.pre('save')`: the slug is derived again when the name
was modified. -/
def servicePreSave (toLowerCase : List Char → List Char) (nameModified : Bool)
    (name slug : List Char) : List Char :=
  if nameModified then slugOf toLowerCase name else slug

/-! ## The rate limiters (`rate_limiter.js`) -/

/-- Configuration handed to `rateLimit`: the window in milliseconds, the
number of requests per window and the key kind of the `keyGenerator`. -/
structure RateLimiterConfig where
  windowMs : Nat
  max : Nat
  keyKind : String
  deriving DecidableEq

/-- Factory `createRateLimiter(windowMs, max, keyGenerator)`. -/
def createRateLimiter (windowMs maxRequests : Nat) (keyKind : String) : RateLimiterConfig :=
  ⟨windowMs, maxRequests, keyKind⟩

/-- Table `rateLimiters` of the predefined limiters. -/
def rateLimiters : Props RateLimiterConfig :=
  [("general", createRateLimiter (15 * 60 * 1000) 100 "general"),
    ("usage", createRateLimiter (15 * 60 * 1000) 50 "usage:serviceId"),
    ("stats", createRateLimiter (5 * 60 * 1000) 20 "stats"),
    ("settings", createRateLimiter (10 * 60 * 1000) 10 "settings")]

/-- Names of the properties that the object literal `rateLimiters` inherits
from `Object.prototype`; each of them reads as a truthy value. -/
def objectPrototypeNames : List String :=
  ["constructor", "__defineGetter__", "__defineSetter__", "hasOwnProperty",
    "__lookupGetter__", "__lookupSetter__", "isPrototypeOf", "propertyIsEnumerable",
    "toString", "valueOf", "__proto__", "toLocaleString"]

/-- Value that `rateLimiter` returns: a limiter with its configuration, or,
for a type that names an inherited property of the table, that inherited
value, which is no limiter. -/
inductive Limiter where
  | configured (config : RateLimiterConfig)
  | inherited (name : String)
  deriving DecidableEq

/-- Read `rateLimiters[type]`, when it is truthy. -/
def rateLimitersIndex (limiterType : String) : Option Limiter :=
  match objGet rateLimiters limiterType with
  | some limiter => some (.configured limiter)
  | none => if limiterType ∈ objectPrototypeNames then some (.inherited limiterType) else none

/-- Function `rateLimiter(type, max, windowMinutes)`: the value of
`rateLimiters[type]` if there is one, a new limiter otherwise. -/
def rateLimiter (limiterType : String) (maxRequests windowMinutes : Nat) : Limiter :=
  match rateLimitersIndex limiterType with
  | some limiter => limiter
  | none => .configured (createRateLimiter (windowMinutes * 60 * 1000) maxRequests limiterType)

/-- A non-null object in the sense of `typeof v === 'object'`: a plain object
or an array. -/
def isNonNullObject : JsValue → Bool
  | .obj _ => true
  | .arr _ => true
  | _ => false

/-! ## Lemmas on property lists -/

theorem objGet_objSet_self {α : Type} (o : Props α) (k : String) (v : α) :
    objGet (objSet o k v) k = some v := by
  induction o with
  | nil => simp [objSet, objGet]
  | cons hd tl ih =>
    obtain ⟨k1, v1⟩ := hd
    by_cases h : k1 = k
    · simp [objSet, objGet, h]
    · simp [objSet, objGet, h, ih]

theorem objGet_objSet_other {α : Type} (o : Props α) (k j : String) (v : α) (h : j ≠ k) :
    objGet (objSet o k v) j = objGet o j := by
  induction o with
  | nil =>
    have h2 : ¬ k = j := fun e => h e.symm
    simp [objSet, objGet, h2]
  | cons hd tl ih =>
    obtain ⟨k1, v1⟩ := hd
    by_cases h1 : k1 = k
    · subst h1
      have h2 : ¬ k1 = j := fun e => h e.symm
      simp [objSet, objGet, h2]
    · by_cases h3 : k1 = j
      · subst h3
        simp [objSet, objGet, h1]
      · simp [objSet, objGet, h1, h3, ih]

theorem mem_objKeys_objSet {α : Type} (o : Props α) (k j : String) (v : α) :
    j ∈ objKeys (objSet o k v) ↔ j ∈ objKeys o ∨ j = k := by
  induction o with
  | nil => simp [objSet, objKeys]
  | cons hd tl ih =>
    obtain ⟨k1, v1⟩ := hd
    by_cases h1 : k1 = k
    · subst h1
      simp only [objSet, if_true, objKeys, List.map_cons, List.mem_cons]
      tauto
    · simp only [objSet, h1, if_false, objKeys, List.map_cons, List.mem_cons] at ih ⊢
      rw [ih]
      tauto

theorem objGet_eq_none_iff {α : Type} (o : Props α) (k : String) :
    objGet o k = none ↔ k ∉ objKeys o := by
  induction o with
  | nil => simp [objGet, objKeys]
  | cons hd tl ih =>
    obtain ⟨k1, v1⟩ := hd
    by_cases h1 : k1 = k
    · simp [objGet, objKeys, h1]
    · have h2 : ¬ k = k1 := fun e => h1 e.symm
      simp only [objGet, h1, if_false, objKeys, List.map_cons, List.mem_cons, h2, false_or]
      exact ih

theorem objGet_mem {α : Type} (o : Props α) (k : String) (v : α) (h : objGet o k = some v) :
    (k, v) ∈ o := by
  induction o with
  | nil => simp [objGet] at h
  | cons hd tl ih =>
    obtain ⟨k1, v1⟩ := hd
    by_cases h1 : k1 = k
    · simp [objGet, h1] at h
      simp [h1, h]
    · simp only [objGet, h1, if_false] at h
      exact List.mem_cons_of_mem _ (ih h)

theorem objSet_append_of_not_mem {α : Type} (o : Props α) (k : String) (v : α)
    (h : k ∉ objKeys o) : objSet o k v = o ++ [(k, v)] := by
  induction o with
  | nil => simp [objSet]
  | cons hd tl ih =>
    obtain ⟨k1, v1⟩ := hd
    simp only [objKeys, List.map_cons, List.mem_cons, not_or] at h
    have h1 : ¬ k1 = k := fun e => h.1 e.symm
    simp only [objSet, h1, if_false, List.cons_append]
    rw [ih h.2]

theorem objKeys_append {α : Type} (a b : Props α) :
    objKeys (a ++ b) = objKeys a ++ objKeys b := by
  simp [objKeys]

/-- Folding assignments of a list of distinct fresh keys appends them. -/
theorem foldl_objSet_append {α : Type} (p acc : Props α)
    (hp : (objKeys p).Nodup) (hd : ∀ k, k ∈ objKeys p → k ∉ objKeys acc) :
    p.foldl (fun a kv => objSet a kv.1 kv.2) acc = acc ++ p := by
  induction p generalizing acc with
  | nil => simp
  | cons hd1 tl ih =>
    obtain ⟨k1, v1⟩ := hd1
    simp only [objKeys, List.map_cons, List.nodup_cons] at hp
    have hk1 : k1 ∉ objKeys acc := hd k1 (by simp [objKeys])
    simp only [List.foldl_cons]
    rw [objSet_append_of_not_mem acc k1 v1 hk1, ih]
    · simp
    · exact hp.2
    · intro k hk
      rw [objKeys_append]
      simp only [List.mem_append, not_or]
      refine ⟨hd k (by simp only [objKeys, List.map_cons, List.mem_cons]; exact Or.inr hk), ?_⟩
      simp only [objKeys, List.map_cons, List.map_nil, List.mem_singleton]
      intro e
      subst e
      exact hp.1 hk

/-- Lookup in a fold of assignments of distinct keys: the assigned value wins. -/
theorem objGet_foldl_objSet {α : Type} (p acc : Props α) (k : String)
    (hp : (objKeys p).Nodup) :
    objGet (p.foldl (fun a kv => objSet a kv.1 kv.2) acc) k
      = firstSome (objGet p k) (objGet acc k) := by
  induction p generalizing acc with
  | nil => simp [objGet, firstSome]
  | cons hd1 tl ih =>
    obtain ⟨k1, v1⟩ := hd1
    simp only [objKeys, List.map_cons, List.nodup_cons] at hp
    simp only [List.foldl_cons]
    rw [ih _ hp.2]
    by_cases h1 : k1 = k
    · subst h1
      have hn : objGet tl k1 = none := (objGet_eq_none_iff tl k1).2 hp.1
      simp [hn, firstSome, objGet, objGet_objSet_self]
    · have h2 : k ≠ k1 := fun e => h1 e.symm
      simp [objGet, h1, objGet_objSet_other _ _ _ _ h2]

/-- Lookup after assigning `f b` to every name `b` of a list. -/
theorem objGet_foldl_assign {α : Type} (f : String → α) (names : List String)
    (acc : Props α) (b : String) :
    objGet (names.foldl (fun m n => objSet m n (f n)) acc) b
      = if b ∈ names then some (f b) else objGet acc b := by
  induction names generalizing acc with
  | nil => simp
  | cons n tl ih =>
    simp only [List.foldl_cons]
    rw [ih]
    by_cases h1 : b ∈ tl
    · simp [h1]
    · by_cases h2 : b = n
      · subst h2
        simp [h1, objGet_objSet_self]
      · simp [h1, h2, objGet_objSet_other _ _ _ _ h2]

theorem mem_objKeys_foldl_assign {α : Type} (f : String → α) (names : List String)
    (acc : Props α) (b : String) :
    b ∈ objKeys (names.foldl (fun m n => objSet m n (f n)) acc)
      ↔ b ∈ objKeys acc ∨ b ∈ names := by
  induction names generalizing acc with
  | nil => simp
  | cons n tl ih =>
    simp only [List.foldl_cons]
    rw [ih, mem_objKeys_objSet]
    simp only [List.mem_cons]
    tauto

theorem mem_foldl_jsSetAdd (xs acc : List String) (x : String) :
    x ∈ xs.foldl jsSetAdd acc ↔ x ∈ acc ∨ x ∈ xs := by
  induction xs generalizing acc with
  | nil => simp
  | cons y tl ih =>
    simp only [List.foldl_cons]
    rw [ih]
    unfold jsSetAdd
    by_cases h : y ∈ acc
    · simp only [h, if_true, List.mem_cons]
      constructor
      · rintro (h1 | h1)
        · exact Or.inl h1
        · exact Or.inr (Or.inr h1)
      · rintro (h1 | h1 | h1)
        · exact Or.inl h1
        · subst h1; exact Or.inl h
        · exact Or.inr h1
    · simp only [h, if_false, List.mem_append, List.mem_singleton, List.mem_cons]
      tauto

theorem mem_jsSet (xs : List String) (x : String) : x ∈ jsSet xs ↔ x ∈ xs := by
  unfold jsSet
  rw [mem_foldl_jsSetAdd]
  simp

theorem nodup_objKeys_objSet {α : Type} (o : Props α) (k : String) (v : α)
    (h : (objKeys o).Nodup) : (objKeys (objSet o k v)).Nodup := by
  induction o with
  | nil => simp [objSet, objKeys]
  | cons hd tl ih =>
    obtain ⟨k1, v1⟩ := hd
    have h0 := h
    simp only [objKeys, List.map_cons, List.nodup_cons] at h0
    by_cases h1 : k1 = k
    · simp only [objSet, h1, if_true]
      rw [← h1]
      exact h
    · simp only [objSet, h1, if_false, objKeys, List.map_cons, List.nodup_cons]
      refine ⟨?_, ih h0.2⟩
      intro hm
      rcases (mem_objKeys_objSet tl k k1 v).1 hm with hm1 | hm1
      · exact h0.1 hm1
      · exact h1 hm1

theorem nodup_objKeys_foldl_assign {α : Type} (f : String → α) (names : List String)
    (acc : Props α) (h : (objKeys acc).Nodup) :
    (objKeys (names.foldl (fun m n => objSet m n (f n)) acc)).Nodup := by
  induction names generalizing acc with
  | nil => simpa using h
  | cons n tl ih =>
    simp only [List.foldl_cons]
    exact ih _ (nodup_objKeys_objSet acc n (f n) h)
theorem foldl_jsSetAdd_absorb (xs acc : List String) (h : ∀ x, x ∈ xs → x ∈ acc) :
    xs.foldl jsSetAdd acc = acc := by
  induction xs with
  | nil => rfl
  | cons y tl ih =>
    have hy : y ∈ acc := h y (List.mem_cons_self _ _)
    simp only [List.foldl_cons, jsSetAdd, hy, if_true]
    exact ih (fun x hx => h x (List.mem_cons_of_mem _ hx))

theorem foldl_jsSetAdd_fresh (xs acc : List String) (hn : xs.Nodup)
    (h : ∀ x, x ∈ xs → x ∉ acc) : xs.foldl jsSetAdd acc = acc ++ xs := by
  induction xs generalizing acc with
  | nil => simp
  | cons y tl ih =>
    have hy : y ∉ acc := h y (List.mem_cons_self _ _)
    rw [List.nodup_cons] at hn
    simp only [List.foldl_cons, jsSetAdd, hy, if_false]
    rw [ih (acc ++ [y]) hn.2]
    · simp
    · intro x hx
      simp only [List.mem_append, List.mem_singleton, not_or]
      refine ⟨h x (List.mem_cons_of_mem _ hx), ?_⟩
      intro e
      subst e
      exact hn.1 hx

theorem foldl_jsSetAdd_shape (xs acc : List String) (hacc : acc.Nodup) :
    ∃ e, xs.foldl jsSetAdd acc = acc ++ e ∧ (acc ++ e).Nodup := by
  induction xs generalizing acc with
  | nil => exact ⟨[], by simp, by simpa using hacc⟩
  | cons y tl ih =>
    simp only [List.foldl_cons]
    by_cases hy : y ∈ acc
    · simp only [jsSetAdd, hy, if_true]
      exact ih acc hacc
    · simp only [jsSetAdd, hy, if_false]
      have hn : (acc ++ [y]).Nodup := by
        rw [List.nodup_append]
        refine ⟨hacc, List.nodup_singleton y, ?_⟩
        intro a ha hb
        simp only [List.mem_singleton] at hb
        subst hb
        exact hy ha
      obtain ⟨e, h1, h2⟩ := ih (acc ++ [y]) hn
      exact ⟨y :: e, by simpa using h1, by simpa using h2⟩

theorem jsSet_nodup (xs : List String) : (jsSet xs).Nodup := by
  obtain ⟨e, h1, h2⟩ := foldl_jsSetAdd_shape xs [] List.nodup_nil
  unfold jsSet
  rw [h1]
  exact h2

/-- Adding to a `Set` built from `a` and `c` the elements of `a` and then
those of the set itself changes nothing. -/
theorem jsSet_append_jsSet (a c : List String) (ha : a.Nodup) :
    jsSet (a ++ jsSet (a ++ c)) = jsSet (a ++ c) := by
  have hA : a.foldl jsSetAdd [] = a := by
    rw [foldl_jsSetAdd_fresh a [] ha (by simp)]
    simp
  obtain ⟨e, h1, h2⟩ := foldl_jsSetAdd_shape c a ha
  have hK : jsSet (a ++ c) = a ++ e := by
    unfold jsSet
    rw [List.foldl_append, hA, h1]
  rw [hK]
  unfold jsSet
  rw [List.foldl_append, hA, List.foldl_append, foldl_jsSetAdd_absorb a a (fun _ h => h)]
  rw [List.nodup_append] at h2
  exact foldl_jsSetAdd_fresh e a h2.2.1 (fun x hx hxa => h2.2.2 hxa hx)

/-- Assigning to distinct fresh names, starting from the empty object, lists
the assignments in order. -/
theorem foldl_assign_eq_map {α : Type} (f : String → α) (names : List String)
    (hn : names.Nodup) :
    names.foldl (fun m n => objSet m n (f n)) ([] : Props α)
      = names.map fun n => (n, f n) := by
  have h := foldl_objSet_append (names.map fun n => (n, f n)) ([] : Props α)
    (by simpa [objKeys, Function.comp_def] using hn) (by simp [objKeys])
  rw [List.foldl_map] at h
  simpa using h

theorem objSet_of_objGet {α : Type} (o : Props α) (k : String) (v : α)
    (h : objGet o k = some v) : objSet o k v = o := by
  induction o with
  | nil => simp [objGet] at h
  | cons hd tl ih =>
    obtain ⟨k1, v1⟩ := hd
    by_cases h1 : k1 = k
    · simp only [objGet, h1, if_true, Option.some.injEq] at h
      simp [objSet, h1, h]
    · simp only [objGet, h1, if_false] at h
      simp only [objSet, h1, if_false]
      rw [ih h]

theorem objGet_of_mem_nodup {α : Type} (o : Props α) (k : String) (v : α)
    (hn : (objKeys o).Nodup) (h : (k, v) ∈ o) : objGet o k = some v := by
  induction o with
  | nil => simp at h
  | cons hd tl ih =>
    obtain ⟨k1, v1⟩ := hd
    simp only [objKeys, List.map_cons, List.nodup_cons] at hn
    rcases List.mem_cons.1 h with h1 | h1
    · cases h1
      simp [objGet]
    · have hk : k ∈ objKeys tl := by
        simp only [objKeys, List.mem_map]
        exact ⟨(k, v), h1, rfl⟩
      have hne : ¬ k1 = k := by
        intro e
        subst e
        exact hn.1 hk
      simp only [objGet, hne, if_false]
      exact ih hn.2 h1

/-- Repeating assignments that an object already holds changes nothing. -/
theorem foldl_objSet_of_held {α : Type} (p o : Props α)
    (h : ∀ kv, kv ∈ p → objGet o kv.1 = some kv.2) :
    p.foldl (fun a kv => objSet a kv.1 kv.2) o = o := by
  induction p with
  | nil => rfl
  | cons hd tl ih =>
    simp only [List.foldl_cons]
    rw [objSet_of_objGet o hd.1 hd.2 (h hd (List.mem_cons_self _ _))]
    exact ih (fun kv hkv => h kv (List.mem_cons_of_mem _ hkv))

theorem nodup_objKeys_foldl_objSet {α : Type} (p o : Props α) (h : (objKeys o).Nodup) :
    (objKeys (p.foldl (fun a kv => objSet a kv.1 kv.2) o)).Nodup := by
  induction p generalizing o with
  | nil => exact h
  | cons hd tl ih =>
    simp only [List.foldl_cons]
    exact ih _ (nodup_objKeys_objSet o hd.1 hd.2 h)

/-- Spreading `l` into `c` and then `l` again gives what the first spread gave. -/
theorem foldl_objSet_twice {α : Type} (l c : Props α) (hl : (objKeys l).Nodup) :
    l.foldl (fun a kv => objSet a kv.1 kv.2) (l.foldl (fun a kv => objSet a kv.1 kv.2) c)
      = l.foldl (fun a kv => objSet a kv.1 kv.2) c := by
  apply foldl_objSet_of_held
  intro kv hkv
  rw [objGet_foldl_objSet l c kv.1 hl, objGet_of_mem_nodup l kv.1 kv.2 hl hkv]
  rfl

theorem objSet_append_left {α : Type} (p e : Props α) (k : String) (v : α)
    (h : k ∈ objKeys p) : objSet (p ++ e) k v = objSet p k v ++ e := by
  induction p with
  | nil => simp [objKeys] at h
  | cons hd tl ih =>
    obtain ⟨k1, v1⟩ := hd
    by_cases h1 : k1 = k
    · simp [objSet, h1]
    · have hk : k ∈ objKeys tl := by
        simp only [objKeys, List.map_cons, List.mem_cons] at h
        rcases h with h | h
        · exact absurd h.symm h1
        · exact h
      simp only [List.cons_append, objSet, h1, if_false]
      exact congrArg (fun t => (k1, v1) :: t) (ih hk)

theorem objSet_append_right {α : Type} (p e : Props α) (k : String) (v : α)
    (h : k ∉ objKeys p) : objSet (p ++ e) k v = p ++ objSet e k v := by
  induction p with
  | nil => rfl
  | cons hd tl ih =>
    obtain ⟨k1, v1⟩ := hd
    simp only [objKeys, List.map_cons, List.mem_cons, not_or] at h
    have h1 : ¬ k1 = k := fun x => h.1 x.symm
    simp only [List.cons_append, objSet, h1, if_false]
    exact congrArg (fun t => (k1, v1) :: t) (ih h.2)

theorem objKeys_objSet_of_mem {α : Type} (p : Props α) (k : String) (v : α)
    (h : k ∈ objKeys p) : objKeys (objSet p k v) = objKeys p := by
  induction p with
  | nil => simp [objKeys] at h
  | cons hd tl ih =>
    obtain ⟨k1, v1⟩ := hd
    by_cases h1 : k1 = k
    · simp [objSet, h1, objKeys]
    · have hk : k ∈ objKeys tl := by
        simp only [objKeys, List.map_cons, List.mem_cons] at h
        rcases h with h | h
        · exact absurd h.symm h1
        · exact h
      simp only [objSet, h1, if_false, objKeys, List.map_cons]
      have := ih hk
      simp only [objKeys] at this
      rw [this]

/-- Spreading into an object keeps its keys, in order, as a prefix: the
result is a part with the keys of the target followed by new keys. -/
theorem foldl_objSet_shape {α : Type} (c : Props α) (keys : List String) (p e : Props α)
    (hp : objKeys p = keys) (he : ∀ k, k ∈ objKeys e → k ∉ keys) :
    ∃ p2 e2, c.foldl (fun a kv => objSet a kv.1 kv.2) (p ++ e) = p2 ++ e2
      ∧ objKeys p2 = keys ∧ ∀ k, k ∈ objKeys e2 → k ∉ keys := by
  induction c generalizing p e with
  | nil => exact ⟨p, e, rfl, hp, he⟩
  | cons hd tl ih =>
    simp only [List.foldl_cons]
    by_cases hk : hd.1 ∈ objKeys p
    · rw [objSet_append_left p e hd.1 hd.2 hk]
      exact ih (objSet p hd.1 hd.2) e
        (by rw [objKeys_objSet_of_mem p hd.1 hd.2 hk]; exact hp) he
    · rw [objSet_append_right p e hd.1 hd.2 hk]
      refine ih p (objSet e hd.1 hd.2) hp ?_
      intro k hkm
      rcases (mem_objKeys_objSet e hd.1 k hd.2).1 hkm with h1 | h1
      · exact he k h1
      · rw [h1, ← hp]
        exact hk

theorem foldl_objSet_cons_of_ne {α : Type} (q a : Props α) (k : String) (v : α)
    (h : ∀ kv, kv ∈ q → kv.1 ≠ k) :
    q.foldl (fun a kv => objSet a kv.1 kv.2) ((k, v) :: a)
      = (k, v) :: q.foldl (fun a kv => objSet a kv.1 kv.2) a := by
  induction q generalizing a with
  | nil => rfl
  | cons hd tl ih =>
    have h1 : ¬ k = hd.1 := fun e => h hd (List.mem_cons_self _ _) e.symm
    simp only [List.foldl_cons, objSet, h1, if_false]
    exact ih _ (fun kv hkv => h kv (List.mem_cons_of_mem _ hkv))

/-- Spreading an object with distinct keys into an object with the same keys
in the same order gives the spread object. -/
theorem foldl_objSet_same_keys {α : Type} (p l : Props α) (hk : objKeys l = objKeys p)
    (hn : (objKeys p).Nodup) : p.foldl (fun a kv => objSet a kv.1 kv.2) l = p := by
  induction p generalizing l with
  | nil =>
    cases l with
    | nil => rfl
    | cons a tl => simp [objKeys] at hk
  | cons hd tl ih =>
    obtain ⟨k, v⟩ := hd
    cases l with
    | nil => simp [objKeys] at hk
    | cons a ltl =>
      obtain ⟨k2, w⟩ := a
      simp only [objKeys, List.map_cons, List.cons.injEq] at hk
      simp only [objKeys, List.map_cons, List.nodup_cons] at hn
      obtain ⟨hk1, hk2⟩ := hk
      rw [hk1]
      simp only [List.foldl_cons, objSet, if_true]
      rw [foldl_objSet_cons_of_ne tl ltl k v]
      · rw [ih ltl hk2 hn.2]
      · intro kv hkv e
        apply hn.1
        rw [← e]
        exact List.mem_map_of_mem Prod.fst hkv

/-- Spreading `l` and then `c`, and spreading the result into `l` again,
gives the result of the first two spreads. -/
theorem foldl_objSet_absorb {α : Type} (l c : Props α) (hl : (objKeys l).Nodup) :
    (c.foldl (fun a kv => objSet a kv.1 kv.2) l).foldl (fun a kv => objSet a kv.1 kv.2) l
      = c.foldl (fun a kv => objSet a kv.1 kv.2) l := by
  obtain ⟨p, e, hx, hp, he⟩ := foldl_objSet_shape c (objKeys l) l []
    rfl (by simp [objKeys])
  rw [List.append_nil] at hx
  have hxn : (objKeys (p ++ e)).Nodup := by
    rw [← hx]
    exact nodup_objKeys_foldl_objSet c l hl
  rw [objKeys_append, List.nodup_append] at hxn
  rw [hx, List.foldl_append, foldl_objSet_same_keys p l hp.symm hxn.1]
  exact foldl_objSet_append e p hxn.2.1 (fun k hk => by rw [hp]; exact he k hk)

/-! ## Lemmas on the assignment to `__proto__` -/

theorem objAssign_of_ne {α : Type} (o : Props α) (k : String) (v : α)
    (h : k ≠ "__proto__") : objAssign o k v = objSet o k v := by
  unfold objAssign
  rw [if_neg h]

theorem objAssign_proto {α : Type} (o : Props α) (v : α) : objAssign o "__proto__" v = o := by
  unfold objAssign
  rw [if_pos rfl]

/-- Assigning along a list of names writes the names other than `__proto__`. -/
theorem foldl_objAssign_names {α : Type} (f : String → α) (names : List String)
    (acc : Props α) :
    names.foldl (fun m n => objAssign m n (f n)) acc
      = (names.filter fun n => decide (n ≠ "__proto__")).foldl
          (fun m n => objSet m n (f n)) acc := by
  induction names generalizing acc with
  | nil => rfl
  | cons n tl ih =>
    by_cases h : n = "__proto__"
    · subst h
      simp only [List.foldl_cons, objAssign_proto, ih]
      simp
    · simp only [List.foldl_cons, objAssign_of_ne _ _ _ h, ih]
      simp [h]

/-- Assigning a list of entries writes the entries not named `__proto__`. -/
theorem foldl_objAssign_entries {α : Type} (p acc : Props α) :
    p.foldl (fun a kv => objAssign a kv.1 kv.2) acc
      = (p.filter fun kv => decide (kv.1 ≠ "__proto__")).foldl
          (fun a kv => objSet a kv.1 kv.2) acc := by
  induction p generalizing acc with
  | nil => rfl
  | cons hd tl ih =>
    obtain ⟨k, v⟩ := hd
    by_cases h : k = "__proto__"
    · subst h
      simp only [List.foldl_cons, objAssign_proto, ih]
      simp
    · simp only [List.foldl_cons, objAssign_of_ne _ _ _ h, ih]
      simp [h]

theorem filter_foldl_jsSetAdd (q : String → Bool) (xs acc : List String) :
    (xs.foldl jsSetAdd acc).filter q = (xs.filter q).foldl jsSetAdd (acc.filter q) := by
  induction xs generalizing acc with
  | nil => rfl
  | cons x tl ih =>
    simp only [List.foldl_cons]
    rw [ih]
    by_cases hq : q x = true
    · have hmem : x ∈ acc.filter q ↔ x ∈ acc := by simp [hq]
      simp only [List.filter_cons, hq, if_true, List.foldl_cons]
      congr 1
      unfold jsSetAdd
      by_cases hx : x ∈ acc
      · rw [if_pos hx, if_pos (hmem.2 hx)]
      · rw [if_neg hx, if_neg (fun h => hx (hmem.1 h))]
        simp [hq]
    · simp only [List.filter_cons, hq, if_false]
      congr 1
      unfold jsSetAdd
      by_cases hx : x ∈ acc
      · rw [if_pos hx]
      · rw [if_neg hx]
        simp [hq]

/-- Filtering a `Set` of names is building the `Set` of the filtered names. -/
theorem filter_jsSet (q : String → Bool) (xs : List String) :
    (jsSet xs).filter q = jsSet (xs.filter q) := by
  unfold jsSet
  rw [filter_foldl_jsSetAdd]
  rfl

/-! ## Lemmas on `mergeData` -/

theorem isSnapshot_box (boxes : Props JsValue) (h : isSnapshot (.obj boxes) = true)
    (b : String) (v : JsValue) (hv : objGet boxes b = some v) :
    ∃ items, v = .obj items ∧ (objKeys items).Nodup := by
  simp only [isSnapshot, Bool.and_eq_true, decide_eq_true_eq, List.all_eq_true] at h
  have hb := h.2 (b, v) (objGet_mem boxes b v hv)
  cases v with
  | obj items =>
    refine ⟨items, rfl, ?_⟩
    simpa [isBox] using hb
  | _ => simp [isBox] at hb

theorem spreadInto_nil_obj (items : Props JsValue) (h : (objKeys items).Nodup) :
    spreadInto [] (.obj items) = items := by
  unfold spreadInto
  simp only [JsValue.ownProps]
  rw [foldl_objSet_append items [] h (by simp [objKeys])]
  simp

theorem objGet_spreadInto (target : Props JsValue) (src : JsValue) (k : String)
    (h : (objKeys src.ownProps).Nodup) :
    objGet (spreadInto target src) k = firstSome (objGet src.ownProps k) (objGet target k) := by
  unfold spreadInto
  exact objGet_foldl_objSet src.ownProps target k h

theorem objGet_spread2 (a b : JsValue) (k : String)
    (ha : (objKeys a.ownProps).Nodup) (hb : (objKeys b.ownProps).Nodup) :
    objGet (spread2 a b) k = firstSome (objGet b.ownProps k) (objGet a.ownProps k) := by
  unfold spread2
  rw [objGet_spreadInto _ _ _ hb, objGet_spreadInto _ _ _ ha]
  cases objGet a.ownProps k <;> simp [firstSome, objGet]

/-- In a snapshot, the box that `mergeData` reads has distinct keys and its
items are the items of the snapshot's box. -/
theorem boxOrEmpty_snapshot (boxes : Props JsValue) (h : isSnapshot (.obj boxes) = true)
    (b k : String) :
    (objKeys (boxOrEmpty boxes b).ownProps).Nodup
      ∧ objGet (boxOrEmpty boxes b).ownProps k = itemOf boxes b k := by
  unfold boxOrEmpty itemOf
  cases hv : objGet boxes b with
  | none => simp [orEmptyObject, JsValue.truthy, JsValue.ownProps, objKeys, objGet]
  | some v =>
    obtain ⟨items, rfl, hn⟩ := isSnapshot_box boxes h b v hv
    simp [orEmptyObject, JsValue.truthy, JsValue.ownProps, hn]

theorem mergeBox_obj (localBoxes cloudBoxes : Props JsValue) (p : JsValue) (b : String) :
    mergeBox (.obj localBoxes) (.obj cloudBoxes) p b
      = .ok (mergedBoxOf localBoxes cloudBoxes p b) := by
  unfold mergeBox mergedBoxOf boxOrEmpty
  simp only [JsValue.getProp, JsValue.ownProps]
  split <;> rfl

theorem mergeDataLoop_obj (localBoxes cloudBoxes : Props JsValue) (p : JsValue)
    (names : List String) (acc : Props JsValue) :
    mergeDataLoop (.obj localBoxes) (.obj cloudBoxes) p names acc
      = .ok (names.foldl
          (fun m n => objAssign m n (mergedBoxOf localBoxes cloudBoxes p n)) acc) := by
  induction names generalizing acc with
  | nil => rfl
  | cons n tl ih =>
    simp only [mergeDataLoop, mergeBox_obj, List.foldl_cons]
    exact ih _

/-- On two objects `mergeData` returns, and its result is `mergedBoxes`. -/
theorem mergeData_obj (localBoxes cloudBoxes : Props JsValue) (options : MergeOptions) :
    mergeData (.obj localBoxes) (.obj cloudBoxes) options
      = .ok (.obj (mergedBoxes localBoxes cloudBoxes (preferCloudOf options))) := by
  simp only [mergeData, objectKeys, JsValue.ownProps, mergeDataLoop_obj, mergedBoxes]

/-- The merged object lists the box names of either side other than
`__proto__`, each once, with the merged box. -/
theorem mergedBoxes_eq_map (l c : Props JsValue) (p : JsValue) :
    mergedBoxes l c p
      = ((jsSet (objKeys l ++ objKeys c)).filter fun n => decide (n ≠ "__proto__")).map
          fun n => (n, mergedBoxOf l c p n) := by
  unfold mergedBoxes
  rw [foldl_objAssign_names]
  exact foldl_assign_eq_map _ _ ((jsSet_nodup _).filter _)

theorem objKeys_mergedBoxes (l c : Props JsValue) (p : JsValue) :
    objKeys (mergedBoxes l c p)
      = (jsSet (objKeys l ++ objKeys c)).filter fun n => decide (n ≠ "__proto__") := by
  rw [mergedBoxes_eq_map]
  simp [objKeys, Function.comp_def]

theorem mem_objKeys_mergedBoxes (l c : Props JsValue) (p : JsValue) (b : String) :
    b ∈ objKeys (mergedBoxes l c p)
      ↔ (b ∈ objKeys l ∨ b ∈ objKeys c) ∧ b ≠ "__proto__" := by
  rw [objKeys_mergedBoxes, List.mem_filter, mem_jsSet, List.mem_append]
  simp

theorem nodup_objKeys_mergedBoxes (l c : Props JsValue) (p : JsValue) :
    (objKeys (mergedBoxes l c p)).Nodup := by
  rw [objKeys_mergedBoxes]
  exact (jsSet_nodup _).filter _

/-- Lookup of a box in the result of `mergeData` on two objects. -/
theorem objGet_mergedBoxes (l c : Props JsValue) (p : JsValue) (b : String) :
    objGet (mergedBoxes l c p) b
      = if (b ∈ objKeys l ∨ b ∈ objKeys c) ∧ b ≠ "__proto__" then
          some (mergedBoxOf l c p b)
        else none := by
  unfold mergedBoxes
  rw [foldl_objAssign_names, objGet_foldl_assign]
  simp only [List.mem_filter, mem_jsSet, List.mem_append, objGet, decide_eq_true_eq]

/-- Item lookup in the result of `mergeData` on two snapshots, under a box
name other than `__proto__`. -/
theorem itemOf_mergedBoxes (l c : Props JsValue) (p : JsValue)
    (b k : String) (hl : isSnapshot (.obj l) = true) (hc : isSnapshot (.obj c) = true)
    (hb : b ≠ "__proto__") :
    itemOf (mergedBoxes l c p) b k
      = if p.truthy then firstSome (itemOf c b k) (itemOf l b k)
        else firstSome (itemOf l b k) (itemOf c b k) := by
  obtain ⟨hln, hlg⟩ := boxOrEmpty_snapshot l hl b k
  obtain ⟨hcn, hcg⟩ := boxOrEmpty_snapshot c hc b k
  unfold itemOf at hlg hcg ⊢
  rw [objGet_mergedBoxes]
  by_cases hin : b ∈ objKeys l ∨ b ∈ objKeys c
  · rw [if_pos ⟨hin, hb⟩]
    unfold mergedBoxOf
    by_cases hp : p.truthy = true
    · simp only [hp, if_true]
      rw [objGet_spread2 _ _ _ hln hcn, hlg, hcg]
    · have hp2 : p.truthy = false := by simpa using hp
      simp only [hp2, Bool.false_eq_true, if_false]
      rw [objGet_spread2 _ _ _ hcn hln, hlg, hcg]
  · rw [if_neg (fun h => hin h.1)]
    have h1 : objGet l b = none :=
      (objGet_eq_none_iff l b).2 (fun h => hin (Or.inl h))
    have h2 : objGet c b = none :=
      (objGet_eq_none_iff c b).2 (fun h => hin (Or.inr h))
    simp [h1, h2, firstSome]

/-- Whatever the inputs, the merged object has no box named `__proto__`. -/
theorem objGet_mergedBoxes_proto (l c : Props JsValue) (p : JsValue) :
    objGet (mergedBoxes l c p) "__proto__" = none := by
  rw [objGet_mergedBoxes, if_neg (fun h => h.2 rfl)]

/-! ## Lemmas on `calculateBackupStats` -/

theorem objectKeys_obj (props : Props JsValue) :
    objectKeys (.obj props) = .ok (objKeys props) := rfl

theorem objectKeys_eq (v : JsValue) (ks : List String) (h : objectKeys v = .ok ks) :
    ks = objKeys v.ownProps := by
  cases v <;> simp [objectKeys] at h <;> exact h.symm

theorem objGet_map_snd {α β : Type} (f : α → β) (o : Props α) (k : String) :
    objGet (o.map fun kv => (kv.1, f kv.2)) k = (objGet o k).map f := by
  induction o with
  | nil => simp [objGet]
  | cons hd tl ih =>
    obtain ⟨k1, v1⟩ := hd
    by_cases h1 : k1 = k
    · simp [objGet, h1]
    · simp [objGet, h1, ih]

/-- Whenever the loop of `calculateBackupStats` returns, it has counted every
entry once, added up the key counts, and assigned each count in order. -/
theorem calculateBackupStatsLoop_result (entries : Props JsValue) (st r : Stats)
    (h : calculateBackupStatsLoop entries st = .ok r) :
    r.totalBoxes = st.totalBoxes + entries.length
      ∧ r.totalItems = st.totalItems + (entries.map fun kv => boxItemCount kv.2).sum
      ∧ r.boxDetails
        = (entries.map fun kv => (kv.1, boxItemCount kv.2)).foldl
            (fun a kv => objAssign a kv.1 kv.2) st.boxDetails := by
  induction entries generalizing st with
  | nil =>
    simp only [calculateBackupStatsLoop, Except.ok.injEq] at h
    subst h
    simp
  | cons hd tl ih =>
    obtain ⟨k1, v1⟩ := hd
    simp only [calculateBackupStatsLoop] at h
    cases hk : objectKeys v1 with
    | error e => simp [hk] at h
    | ok ks =>
      rw [hk] at h
      have hks : ks = objKeys v1.ownProps := objectKeys_eq v1 ks hk
      subst hks
      obtain ⟨h1, h2, h3⟩ := ih _ h
      dsimp only at h1 h2 h3
      refine ⟨?_, ?_, ?_⟩
      · rw [h1, List.length_cons]
        omega
      · rw [h2, List.map_cons, List.sum_cons]
        simp only [boxItemCount]
        omega
      · rw [h3, List.map_cons, List.foldl_cons]
        rfl

/-- The loop of `calculateBackupStats` returns when no entry is nullish. -/
theorem calculateBackupStatsLoop_ok (entries : Props JsValue) (st : Stats)
    (h : ∀ kv, kv ∈ entries → kv.2 ≠ .undefined ∧ kv.2 ≠ .null) :
    ∃ r, calculateBackupStatsLoop entries st = .ok r := by
  induction entries generalizing st with
  | nil => exact ⟨st, rfl⟩
  | cons hd tl ih =>
    obtain ⟨k1, v1⟩ := hd
    have h1 := h (k1, v1) (List.mem_cons_self _ _)
    have h2 : ∀ kv, kv ∈ tl → kv.2 ≠ .undefined ∧ kv.2 ≠ .null :=
      fun kv hkv => h kv (List.mem_cons_of_mem _ hkv)
    cases v1 with
    | undefined => exact absurd rfl h1.1
    | null => exact absurd rfl h1.2
    | bool x => exact ih _ h2
    | num x => exact ih _ h2
    | str x => exact ih _ h2
    | arr x => exact ih _ h2
    | obj x => exact ih _ h2

/-- Whenever `calculateBackupStats` returns, `totalItems` is the item count. -/
theorem calculateBackupStats_totalItems (data : JsValue) (st : Stats)
    (h : calculateBackupStats data = .ok st) : st.totalItems = itemCount data := by
  unfold calculateBackupStats at h
  cases data with
  | undefined => simp [objectEntries] at h
  | null => simp [objectEntries] at h
  | bool x =>
    simp only [objectEntries] at h
    simpa [itemCount] using (calculateBackupStatsLoop_result _ _ _ h).2.1
  | num x =>
    simp only [objectEntries] at h
    simpa [itemCount] using (calculateBackupStatsLoop_result _ _ _ h).2.1
  | str x =>
    simp only [objectEntries] at h
    simpa [itemCount] using (calculateBackupStatsLoop_result _ _ _ h).2.1
  | arr x =>
    simp only [objectEntries] at h
    simpa [itemCount] using (calculateBackupStatsLoop_result _ _ _ h).2.1
  | obj x =>
    simp only [objectEntries] at h
    simpa [itemCount] using (calculateBackupStatsLoop_result _ _ _ h).2.1

theorem isSnapshot_not_nullish (boxes : Props JsValue) (h : isSnapshot (.obj boxes) = true) :
    ∀ kv, kv ∈ boxes → kv.2 ≠ .undefined ∧ kv.2 ≠ .null := by
  intro kv hkv
  simp only [isSnapshot, Bool.and_eq_true, decide_eq_true_eq, List.all_eq_true] at h
  have hb := h.2 kv hkv
  constructor <;> intro e <;> simp [e, isBox] at hb

/-- On a snapshot `calculateBackupStats` returns: it counts every box and
every item, and lists one `boxDetails` entry per box not named `__proto__`, in
order. -/
theorem calculateBackupStats_on_snapshot (boxes : Props JsValue)
    (h : isSnapshot (.obj boxes) = true) :
    calculateBackupStats (.obj boxes)
      = .ok ⟨boxes.length, itemCount (.obj boxes),
          (withoutProto boxes).map fun kv => (kv.1, boxItemCount kv.2)⟩ := by
  obtain ⟨r, hr⟩ := calculateBackupStatsLoop_ok boxes ⟨0, 0, []⟩ (isSnapshot_not_nullish boxes h)
  have hres := calculateBackupStatsLoop_result boxes _ r hr
  have hnd : (objKeys boxes).Nodup := by
    simp only [isSnapshot, Bool.and_eq_true, decide_eq_true_eq] at h
    exact h.1
  have hnd2 : (objKeys (withoutProto boxes)).Nodup := by
    unfold objKeys withoutProto
    exact (List.filter_sublist boxes).map Prod.fst |>.nodup hnd
  have hfold : (boxes.map fun kv => (kv.1, boxItemCount kv.2)).foldl
      (fun a kv => objAssign a kv.1 kv.2) ([] : Props Nat)
      = (withoutProto boxes).map fun kv => (kv.1, boxItemCount kv.2) := by
    rw [foldl_objAssign_entries]
    have hfm : ((boxes.map fun kv => (kv.1, boxItemCount kv.2)).filter
        fun kv => decide (kv.1 ≠ "__proto__"))
        = (withoutProto boxes).map fun kv => (kv.1, boxItemCount kv.2) := by
      unfold withoutProto
      rw [List.filter_map]
      rfl
    rw [hfm, foldl_objSet_append _ [] _ (by simp [objKeys])]
    · simp
    · simpa [objKeys, Function.comp_def] using hnd2
  simp only [calculateBackupStats, objectEntries, JsValue.ownProps, hr]
  obtain ⟨t1, t2, t3⟩ := r
  simp only [hfold, Nat.zero_add] at hres
  obtain ⟨h1, h2, h3⟩ := hres
  subst h1 h2 h3
  simp [itemCount, JsValue.ownProps]

/-! ## Lemmas on the collection -/

theorem docsOf_cons (d : UserBackup) (s : Store) (v : UserId) :
    docsOf (d :: s) v = if d.userId = v then d :: docsOf s v else docsOf s v := by
  unfold docsOf
  by_cases h : d.userId = v <;> simp [List.filter_cons, h]

theorem docsOf_append_singleton (s : Store) (d : UserBackup) (v : UserId) :
    docsOf (s ++ [d]) v = docsOf s v ++ (if d.userId = v then [d] else []) := by
  unfold docsOf
  by_cases h : d.userId = v <;> simp [List.filter_append, List.filter_cons, h]

theorem findOne_eq_head (s : Store) (u : UserId) : findOne s u = (docsOf s u).head? := by
  induction s with
  | nil => rfl
  | cons d tl ih =>
    by_cases h : d.userId = u
    · simp [findOne, docsOf_cons, h]
    · simp [findOne, docsOf_cons, h, ih]

theorem findOne_userId (s : Store) (u : UserId) (d : UserBackup) (h : findOne s u = some d) :
    d.userId = u := by
  induction s with
  | nil => simp [findOne] at h
  | cons e tl ih =>
    by_cases he : e.userId = u
    · simp only [findOne, he, if_true, Option.some.injEq] at h
      rw [← h]
      exact he
    · simp only [findOne, he, if_false] at h
      exact ih h

theorem docsOf_eq_nil_of_findOne_none (s : Store) (u : UserId) (h : findOne s u = none) :
    docsOf s u = [] := by
  rw [findOne_eq_head] at h
  cases hd : docsOf s u with
  | nil => rfl
  | cons a tl => simp [hd] at h

theorem updateFirst_none (u : UserId) (f : UserBackup → UserBackup) (s : Store)
    (h : findOne s u = none) : updateFirst u f s = none := by
  induction s with
  | nil => rfl
  | cons e tl ih =>
    by_cases he : e.userId = u
    · simp [findOne, he] at h
    · simp only [findOne, he, if_false] at h
      simp [updateFirst, he, ih h]

theorem updateFirst_some (u : UserId) (f : UserBackup → UserBackup) (s : Store)
    (d : UserBackup) (h : findOne s u = some d) (hf : (f d).userId = u)
    (hid : (f d)._id = d._id) :
    ∃ t, updateFirst u f s = some (f d, t) ∧ t.length = s.length
      ∧ (∀ v, v ≠ u → docsOf t v = docsOf s v)
      ∧ docsOf t u = f d :: (docsOf s u).tail
      ∧ t.map (fun x => x._id) = s.map (fun x => x._id) := by
  induction s with
  | nil => simp [findOne] at h
  | cons e tl ih =>
    by_cases he : e.userId = u
    · simp only [findOne, he, if_true, Option.some.injEq] at h
      subst h
      refine ⟨f e :: tl, by simp [updateFirst, he], by simp, ?_, ?_, by simp [hid]⟩
      · intro v hv
        have h1 : ¬ (f e).userId = v := by rw [hf]; exact fun x => hv x.symm
        have h2 : ¬ e.userId = v := by rw [he]; exact fun x => hv x.symm
        simp [docsOf_cons, h1, h2]
      · simp [docsOf_cons, hf, he]
    · simp only [findOne, he, if_false] at h
      obtain ⟨t, h1, h2, h3, h4, h5⟩ := ih h
      refine ⟨e :: t, by simp [updateFirst, he, h1], by simp [h2], ?_, ?_, by simp [h5]⟩
      · intro v hv
        simp only [docsOf_cons]
        rw [h3 v hv]
      · simp [docsOf_cons, he, h4]

/-- Effect of `findOneAndUpdate` with `upsert: true`. -/
theorem findOneAndUpdate_effect (s : Store) (u : UserId) (up : UpdateDoc) (newId : Nat)
    (now : Date) (hu : up.userId = u) :
    (findOneAndUpdate s u up newId now).1
        = up.applyTo ((findOne s u).getD (schemaDefaults newId u now))
      ∧ upsertEffect s (findOneAndUpdate s u up newId now).2 u
          (findOneAndUpdate s u up newId now).1 := by
  unfold upsertEffect findOneAndUpdate
  cases hfo : findOne s u with
  | none =>
    rw [updateFirst_none u _ s hfo]
    have hnil := docsOf_eq_nil_of_findOne_none s u hfo
    refine ⟨rfl, hu, ?_, ?_, fun _ => rfl, fun h => absurd rfl h⟩
    · intro v hv
      have h1 : ¬ (up.applyTo (schemaDefaults newId u now)).userId = v := by
        show ¬ up.userId = v
        rw [hu]; exact fun x => hv x.symm
      simp [h1]
    · have h1 : (up.applyTo (schemaDefaults newId u now)).userId = u := hu
      have := docsOf_append_singleton s (up.applyTo (schemaDefaults newId u now)) u
      rw [hnil] at this
      unfold docsOf at this hnil
      rw [this, hnil]
      simp [h1]
  | some d =>
    obtain ⟨t, h1, h2, h3, h4, h5⟩ := updateFirst_some u up.applyTo s d hfo hu rfl
    rw [h1]
    exact ⟨rfl, hu, h3, h4, fun h => by simp at h, fun _ => ⟨h2, h5⟩⟩

theorem findOne_of_upsertEffect (s t : Store) (u : UserId) (doc : UserBackup)
    (h : upsertEffect s t u doc) : findOne t u = some doc := by
  rw [findOne_eq_head]
  unfold docsOf
  rw [h.2.2.1]
  rfl

theorem findOneAndDelete_effect (s : Store) (u : UserId) :
    (∀ v, v ≠ u → docsOf (findOneAndDelete s u) v = docsOf s v)
      ∧ docsOf (findOneAndDelete s u) u = (docsOf s u).tail := by
  induction s with
  | nil => exact ⟨fun _ _ => rfl, rfl⟩
  | cons e tl ih =>
    by_cases he : e.userId = u
    · refine ⟨?_, ?_⟩
      · intro v hv
        have h3 : ¬ u = v := fun x => hv x.symm
        simp [findOneAndDelete, he, docsOf_cons, h3]
      · simp [findOneAndDelete, he, docsOf_cons]
    · refine ⟨?_, ?_⟩
      · intro v hv
        simp only [findOneAndDelete, he, if_false, docsOf_cons]
        rw [ih.1 v hv]
      · simp [findOneAndDelete, he, docsOf_cons, ih.2]

theorem preSaveLoop_ok (entries : Props JsValue) (st : Stats) :
    ∃ r, preSaveLoop entries st = .ok r := by
  induction entries generalizing st with
  | nil => exact ⟨st, rfl⟩
  | cons hd tl ih =>
    obtain ⟨k1, v1⟩ := hd
    cases v1 <;>
      simp only [preSaveLoop, JsValue.truthy, JsValue.typeofIsObject, objectKeys,
        Bool.and_false, Bool.and_true, Bool.false_eq_true, if_false, if_true] <;>
      exact ih _

/-- The hook returns on every document: it keeps every field but `dataSize`,
`stats` and `updatedAt`. -/
theorem preSave_eq (env : Env) (doc : UserBackup) (now : Date) :
    ∃ st, preSaveLoop doc.toObjectData ⟨0, 0, []⟩ = .ok st
      ∧ preSave env doc now
        = .ok ⟨doc._id, doc.userId, doc.data, doc.version, doc.lastBackupTime,
            env.jsonLength doc.jsonData, st, doc.createdAt, now⟩ := by
  obtain ⟨st, hst⟩ := preSaveLoop_ok doc.toObjectData ⟨0, 0, []⟩
  refine ⟨st, hst, ?_⟩
  unfold preSave
  rw [hst]

/-- Effect of `save` on a valid document that is either new (no document of
the user is stored) or was loaded by `findOne`. -/
theorem save_effect (env : Env) (s : Store) (doc : UserBackup) (now : Date)
    (hdoc : findOne s doc.userId = none
      ∨ ∃ d, findOne s doc.userId = some d ∧ d._id = doc._id) :
    ∃ t saved, save env s doc false (findOne s doc.userId).isNone now = .ok t
      ∧ preSave env doc now = .ok saved
      ∧ saved.data = doc.data ∧ upsertEffect s t doc.userId saved := by
  obtain ⟨st, _, hst⟩ := preSave_eq env doc now
  obtain ⟨sv, hsv⟩ : ∃ sv : UserBackup, sv = ⟨doc._id, doc.userId, doc.data, doc.version,
    doc.lastBackupTime, env.jsonLength doc.jsonData, st, doc.createdAt, now⟩ := ⟨_, rfl⟩
  rw [← hsv] at hst
  have hsu : sv.userId = doc.userId := by rw [hsv]
  have hsd : sv.data = doc.data := by rw [hsv]
  have hsi : sv._id = doc._id := by rw [hsv]
  unfold save
  rw [hst]
  rcases hdoc with hnone | ⟨d, hd, hid⟩
  · have hnil := docsOf_eq_nil_of_findOne_none s doc.userId hnone
    refine ⟨s ++ [sv], sv, by simp [hnone], rfl, hsd, hsu, ?_, ?_, fun _ => rfl,
      fun hne => absurd hnone hne⟩
    · intro v hv
      have h1 : ¬ sv.userId = v := by rw [hsu]; exact fun x => hv x.symm
      simp [h1]
    · have := docsOf_append_singleton s sv doc.userId
      rw [hnil] at this
      unfold docsOf at this hnil
      rw [this, hnil]
      simp [hsu]
  · obtain ⟨t, h1, h2, h3, h4, h5⟩ := updateFirst_some doc.userId
      (fun _ => sv) s d hd hsu (hsi.trans hid.symm)
    refine ⟨t, sv, ?_, rfl, hsd, hsu, h3, h4, fun hn => by simp [hd] at hn, fun _ => ⟨h2, h5⟩⟩
    simp [hd, replaceFirst, hsu, h1]

/-! ## Lemmas on the route handlers -/

/-- Outcome of `POST /backup` when the cast of the update fails: the `catch`
response, and no write. -/
theorem backup_of_cast_error env (s : Store) (u : UserId) (d : JsValue) (t : Date)
    (ver : Option String) (newId : Nat) (now : Date) (e : Thrown)
    (h : castUpdateData env d = .error e) :
    backup env s u d t ver newId now = (failureResponse "Backup failed" e, s) := by
  unfold backup
  rw [h]

/-- Outcome of `POST /backup` when the cast of the update succeeds: the write
is applied, and the response depends on the stats calculator alone. -/
theorem backup_of_cast_ok env (s : Store) (u : UserId) (d : JsValue) (t : Date)
    (ver : Option String) (newId : Nat) (now : Date) (boxes : Option (Props StoredBox))
    (h : castUpdateData env d = .ok boxes) :
    (backup env s u d t ver newId now).2
        = (findOneAndUpdate s u ⟨u, boxes, ver, t, now⟩ newId now).2
      ∧ (backup env s u d t ver newId now).1.stats = (calculateBackupStats d).toOption
      ∧ (backup env s u d t ver newId now).1.success = (calculateBackupStats d).toBool := by
  unfold backup
  rw [h]
  dsimp only
  cases calculateBackupStats d <;> exact ⟨rfl, rfl, rfl⟩

/-- Outcome of `POST /backup` on the store: nothing when the cast of the
update fails, an upsert for the user otherwise. -/
theorem backup_cases env (s : Store) (u : UserId) (d : JsValue) (t : Date) (ver : Option String)
    (newId : Nat) (now : Date) :
    ((backup env s u d t ver newId now).1.success = false ∧ (backup env s u d t ver newId now).2 = s)
      ∨ ∃ doc, upsertEffect s (backup env s u d t ver newId now).2 u doc := by
  cases hc : castUpdateData env d with
  | error e =>
    rw [backup_of_cast_error env s u d t ver newId now e hc]
    exact Or.inl ⟨rfl, rfl⟩
  | ok boxes =>
    rw [(backup_of_cast_ok env s u d t ver newId now boxes hc).1]
    exact Or.inr ⟨_, (findOneAndUpdate_effect s u ⟨u, boxes, ver, t, now⟩ newId now rfl).2⟩

theorem backup_success env (s : Store) (u : UserId) (d : JsValue) (t : Date)
    (ver : Option String) (newId : Nat) (now : Date)
    (h : (backup env s u d t ver newId now).1.success = true) :
    ∃ boxes st, castUpdateData env d = .ok boxes ∧ calculateBackupStats d = .ok st := by
  cases hc : castUpdateData env d with
  | error e =>
    rw [backup_of_cast_error env s u d t ver newId now e hc] at h
    simp [failureResponse] at h
  | ok boxes =>
    have h3 := (backup_of_cast_ok env s u d t ver newId now boxes hc).2.2
    rw [h] at h3
    cases hst : calculateBackupStats d with
    | error e => simp [hst, Except.toBool] at h3
    | ok st => exact ⟨boxes, st, rfl, rfl⟩

/-- Outcome of `POST /smart-sync` on the store: nothing on failure of the
merge or of the cast, an upsert for the user otherwise. -/
theorem smartSync_cases (env : Env) (s : Store) (u : UserId) (localData : JsValue)
    (lastSyncTime : Option Date) (preferCloud : JsValue) (newId : Nat) (now : Date) :
    ((smartSync env s u localData lastSyncTime preferCloud newId now).1.success = false
        ∧ (smartSync env s u localData lastSyncTime preferCloud newId now).2 = s)
      ∨ ∃ doc, upsertEffect s
          (smartSync env s u localData lastSyncTime preferCloud newId now).2 u doc := by
  simp only [smartSync]
  cases hm : mergeData localData (cloudDataOf env (findOne s u))
      ⟨lastSyncDate lastSyncTime, (findOne s u).map (fun doc => doc.lastBackupTime),
        preferCloud⟩ with
  | error e => exact Or.inl ⟨rfl, rfl⟩
  | ok merged =>
    dsimp only
    cases hc : castUpdateData env merged with
    | error e => exact Or.inl ⟨rfl, rfl⟩
    | ok boxes =>
      have h2 := (findOneAndUpdate_effect s u ⟨u, boxes, none, now, now⟩ newId now rfl).2
      dsimp only
      cases hst : calculateBackupStats merged <;> exact Or.inr ⟨_, h2⟩

/-- Outcome of the body of `POST /selective` for the document `doc` (loaded,
or new when `isNew`): nothing on the store when the response is a failure, an
upsert for the user when it is a success. -/
theorem selectiveSync_body_cases (env : Env) (s : Store) (u : UserId) (doc : UserBackup)
    (data : JsValue) (boxNames : BoxNames) (now : Date) (hu : doc.userId = u)
    (hdoc : findOne s u = none ∨ findOne s u = some doc)
    (out : Response × Store)
    (hout : out = (match forEachBoxName env data boxNames ⟨doc.boxes, false⟩ with
      | .error e => (failureResponse "Selective sync failed" e, s)
      | .ok assigned =>
        match save env s
            ⟨doc._id, doc.userId, assigned.boxes, doc.version, now, doc.dataSize, doc.stats,
              doc.createdAt, now⟩ assigned.castFailed (findOne s u).isNone now with
        | .error e => (failureResponse "Selective sync failed" e, s)
        | .ok saved =>
          (⟨200, true, some "Selective sync completed", none, none, none, none, none, none,
            none, none⟩, saved))) :
    (out.1.success = false ∧ out.2 = s)
      ∨ (out.1.success = true ∧ ∃ d, upsertEffect s out.2 u d) := by
  subst hu
  cases hl : forEachBoxName env data boxNames ⟨doc.boxes, false⟩ with
  | error e =>
    rw [hl] at hout
    rw [hout]
    exact Or.inl ⟨rfl, rfl⟩
  | ok assigned =>
    rw [hl] at hout
    dsimp only at hout
    cases hsv : save env s
        ⟨doc._id, doc.userId, assigned.boxes, doc.version, now, doc.dataSize, doc.stats,
          doc.createdAt, now⟩ assigned.castFailed (findOne s doc.userId).isNone now with
    | error e =>
      rw [hsv] at hout
      rw [hout]
      exact Or.inl ⟨rfl, rfl⟩
    | ok t =>
      rw [hsv] at hout
      dsimp only at hout
      rw [hout]
      right
      refine ⟨rfl, ?_⟩
      have hcf : assigned.castFailed = false := by
        cases hb : assigned.castFailed with
        | false => rfl
        | true => rw [hb] at hsv; simp [save] at hsv
      obtain ⟨t2, saved, h1, _, _, h3⟩ := save_effect env s
        ⟨doc._id, doc.userId, assigned.boxes, doc.version, now, doc.dataSize, doc.stats,
          doc.createdAt, now⟩ now
        (by
          rcases hdoc with h | h
          · exact Or.inl h
          · exact Or.inr ⟨doc, h, rfl⟩)
      dsimp only at h1 h3
      rw [hcf] at hsv
      rw [hsv] at h1
      simp only [Except.ok.injEq] at h1
      subst h1
      exact ⟨saved, h3⟩

/-- Outcome of `POST /selective` on the store: nothing when the response is a
failure, an upsert for the user when it is a success. -/
theorem selectiveSync_cases (env : Env) (s : Store) (u : UserId)
    (data : JsValue) (boxNames : BoxNames) (newId : Nat) (now : Date) :
    ((selectiveSync env s u data boxNames newId now).1.success = false
        ∧ (selectiveSync env s u data boxNames newId now).2 = s)
      ∨ ((selectiveSync env s u data boxNames newId now).1.success = true
        ∧ ∃ doc, upsertEffect s (selectiveSync env s u data boxNames newId now).2
            u doc) := by
  cases hfo : findOne s u with
  | none =>
    exact selectiveSync_body_cases env s u (schemaDefaults newId u now) data boxNames now rfl
      (Or.inl hfo) _ (by simp only [selectiveSync, hfo])
  | some doc =>
    exact selectiveSync_body_cases env s u doc data boxNames now (findOne_userId s u doc hfo)
      (Or.inr hfo) _ (by simp only [selectiveSync, hfo])

theorem restore_snd (env : Env) (s : Store) (u : UserId) : (restore env s u).2 = s := by
  unfold restore
  cases findOne s u with
  | none => rfl
  | some doc =>
    dsimp only
    cases calculateBackupStats (doc.hydratedData env) <;> rfl

theorem status_snd (env : Env) (s : Store) (u : UserId) : (status env s u).2 = s := by
  unfold status
  cases findOne s u with
  | none => rfl
  | some doc =>
    dsimp only
    cases calculateBackupStats (doc.hydratedData env) <;> rfl

/-- Outcome of any request on the store: unchanged, an upsert for the
authenticated user, or the deletion of that user's first document. -/
theorem handle_cases (env : Env) (s : Store) (r : Request) :
    (handle env s r).2 = s
      ∨ (∃ doc, upsertEffect s (handle env s r).2 r.user doc)
      ∨ (handle env s r).2 = findOneAndDelete s r.user := by
  cases r with
  | backup u d t ver newId now =>
    rcases backup_cases env s u d t ver newId now with h | h
    · exact Or.inl h.2
    · exact Or.inr (Or.inl h)
  | restore u => exact Or.inl (restore_snd env s u)
  | smartSync u l lst p newId now =>
    rcases smartSync_cases env s u l lst p newId now with h | h
    · exact Or.inl h.2
    · exact Or.inr (Or.inl h)
  | selectiveSync u d names newId now =>
    rcases selectiveSync_cases env s u d names newId now with h | h
    · exact Or.inl h.2
    · exact Or.inr (Or.inl h.2)
  | status u => exact Or.inl (status_snd env s u)
  | deleteBackup u => exact Or.inr (Or.inr rfl)

/-- A request leaves the documents of every user but its own as they were. -/
theorem docsOf_handle_other (env : Env) (s : Store) (r : Request)
    (v : UserId) (hv : v ≠ r.user) : docsOf (handle env s r).2 v = docsOf s v := by
  rcases handle_cases env s r with h | ⟨doc, h⟩ | h
  · rw [h]
  · exact h.2.1 v hv
  · rw [h]
    exact (findOneAndDelete_effect s r.user).1 v hv

/-- A request never raises the number of documents of its user above one, nor
above what it was. -/
theorem docsOf_handle_self (env : Env) (s : Store) (r : Request) :
    (docsOf (handle env s r).2 r.user).length ≤ max 1 (docsOf s r.user).length := by
  rcases handle_cases env s r with h | ⟨doc, h⟩ | h
  · rw [h]
    exact le_max_right _ _
  · have h3 := h.2.2.1
    unfold docsOf
    rw [h3]
    simp only [List.length_cons, List.length_tail]
    omega
  · rw [h, (findOneAndDelete_effect s r.user).2]
    simp only [List.length_tail]
    omega

theorem atMostOnePerUser_handle (env : Env) (s : Store) (r : Request)
    (h : atMostOnePerUser s) : atMostOnePerUser (handle env s r).2 := by
  intro u
  by_cases hu : u = r.user
  · subst hu
    have := docsOf_handle_self env s r
    have := h r.user
    omega
  · rw [docsOf_handle_other env s r u hu]
    exact h u

theorem atMostOnePerUser_runRequests (env : Env) (s : Store)
    (reqs : List Request) (h : atMostOnePerUser s) :
    atMostOnePerUser (runRequests env s reqs) := by
  induction reqs generalizing s with
  | nil => exact h
  | cons r tl ih => exact ih _ (atMostOnePerUser_handle env s r h)

/-- A write request answered with success has upserted for its user. -/
theorem handle_write_effect (env : Env) (s : Store) (r : Request)
    (hw : r.isWrite = true) (hs : (handle env s r).1.success = true) :
    ∃ doc, upsertEffect s (handle env s r).2 r.user doc := by
  cases r with
  | backup u d t ver newId now =>
    rcases backup_cases env s u d t ver newId now with h | h
    · simp only [handle] at hs
      rw [h.1] at hs
      cases hs
    · exact h
  | restore u => simp [Request.isWrite] at hw
  | smartSync u l lst p newId now =>
    rcases smartSync_cases env s u l lst p newId now with h | h
    · simp only [handle] at hs
      rw [h.1] at hs
      cases hs
    · exact h
  | selectiveSync u d names newId now =>
    rcases selectiveSync_cases env s u d names newId now with h | h
    · simp only [handle] at hs
      rw [h.1] at hs
      cases hs
    · exact h.2
  | status u => simp [Request.isWrite] at hw
  | deleteBackup u => simp [Request.isWrite] at hw

/-! ## Lemmas on reads and deletions -/

theorem findOneAndDelete_of_none (s : Store) (u : UserId) (h : findOne s u = none) :
    findOneAndDelete s u = s := by
  induction s with
  | nil => rfl
  | cons e tl ih =>
    by_cases he : e.userId = u
    · simp [findOne, he] at h
    · simp only [findOne, he, if_false] at h
      simp only [findOneAndDelete, he, if_false]
      rw [ih h]

theorem findOne_findOneAndDelete (s : Store) (u : UserId) (h : atMostOnePerUser s) :
    findOne (findOneAndDelete s u) u = none := by
  rw [findOne_eq_head, (findOneAndDelete_effect s u).2]
  have hle := h u
  cases hd : docsOf s u with
  | nil => rfl
  | cons a tl =>
    rw [hd] at hle
    cases tl with
    | nil => rfl
    | cons b tl2 =>
      simp only [List.length_cons] at hle
      omega

theorem docsOf_eq_nil_of_not_mem (s : Store) (u : UserId)
    (h : u ∉ s.map (fun d => d.userId)) : docsOf s u = [] := by
  induction s with
  | nil => rfl
  | cons e tl ih =>
    simp only [List.map_cons, List.mem_cons, not_or] at h
    have he : ¬ e.userId = u := fun x => h.1 x.symm
    rw [docsOf_cons, if_neg he]
    exact ih h.2

/-- A collection whose user identifiers are pairwise distinct holds at most
one snapshot per user. -/
theorem atMostOnePerUser_of_nodup (s : Store) (h : (s.map (fun d => d.userId)).Nodup) :
    atMostOnePerUser s := by
  induction s with
  | nil =>
    intro u
    exact Nat.zero_le 1
  | cons e tl ih =>
    simp only [List.map_cons, List.nodup_cons] at h
    intro u
    rw [docsOf_cons]
    by_cases he : e.userId = u
    · rw [if_pos he, docsOf_eq_nil_of_not_mem tl u (by rw [← he]; exact h.1)]
      exact Nat.le_refl 1
    · rw [if_neg he]
      exact ih h.2 u

/-- On a snapshot the stats calculator returns. -/
theorem calculateBackupStats_of_isSnapshot (data : JsValue) (h : isSnapshot data = true) :
    ∃ st, calculateBackupStats data = .ok st := by
  cases data with
  | obj boxes => exact ⟨_, calculateBackupStats_on_snapshot boxes h⟩
  | undefined => simp [isSnapshot] at h
  | null => simp [isSnapshot] at h
  | bool x => simp [isSnapshot] at h
  | num x => simp [isSnapshot] at h
  | str x => simp [isSnapshot] at h
  | arr x => simp [isSnapshot] at h

theorem nonEmpty_add_empty_boxCount (boxes : Props JsValue) :
    nonEmptyBoxCount boxes + emptyBoxCount boxes = boxes.length := by
  induction boxes with
  | nil => rfl
  | cons hd tl ih =>
    unfold nonEmptyBoxCount emptyBoxCount at ih ⊢
    rw [List.countP_cons, List.countP_cons, List.length_cons]
    by_cases h0 : (objKeys hd.2.ownProps).length = 0
    · simp only [h0, lt_self_iff_false, decide_True, decide_False, if_true,
        Bool.false_eq_true, if_false]
      omega
    · have h1 : 0 < (objKeys hd.2.ownProps).length := by omega
      simp only [h0, h1, decide_True, decide_False, if_true, Bool.false_eq_true, if_false]
      omega

/-- Shape of every response of the six handlers: a success with status 200,
a `catch` response with status 500, message and error, or the not-found
response of `restore` with status 404, its message and no error. -/
theorem handle_response_shape (env : Env) (s : Store) (r : Request) :
    ((handle env s r).1.success = true ∧ (handle env s r).1.status = 200)
    ∨ ((handle env s r).1.success = false ∧ (handle env s r).1.status = 500
        ∧ (handle env s r).1.message.isSome = true
        ∧ (handle env s r).1.error.isSome = true)
    ∨ ((handle env s r).1.success = false ∧ (handle env s r).1.status = 404
        ∧ (handle env s r).1.message = some "No backup found for this user"
        ∧ (handle env s r).1.error = none
        ∧ r = .restore r.user ∧ findOne s r.user = none) := by
  cases r with
  | backup u d t ver newId now =>
    simp only [handle, backup]
    cases castUpdateData env d with
    | error e => exact Or.inr (Or.inl ⟨rfl, rfl, rfl, rfl⟩)
    | ok boxes =>
      dsimp only
      cases calculateBackupStats d with
      | error e => exact Or.inr (Or.inl ⟨rfl, rfl, rfl, rfl⟩)
      | ok st => exact Or.inl ⟨rfl, rfl⟩
  | restore u =>
    simp only [handle, restore]
    cases hfo : findOne s u with
    | none => exact Or.inr (Or.inr ⟨rfl, rfl, rfl, rfl, rfl, hfo⟩)
    | some doc =>
      dsimp only
      cases calculateBackupStats (doc.hydratedData env) with
      | error e => exact Or.inr (Or.inl ⟨rfl, rfl, rfl, rfl⟩)
      | ok st => exact Or.inl ⟨rfl, rfl⟩
  | smartSync u l lst p newId now =>
    simp only [handle, smartSync]
    cases mergeData l (cloudDataOf env (findOne s u))
        ⟨lastSyncDate lst, (findOne s u).map (fun doc => doc.lastBackupTime), p⟩ with
    | error e => exact Or.inr (Or.inl ⟨rfl, rfl, rfl, rfl⟩)
    | ok merged =>
      dsimp only
      cases castUpdateData env merged with
      | error e => exact Or.inr (Or.inl ⟨rfl, rfl, rfl, rfl⟩)
      | ok boxes =>
        dsimp only
        cases calculateBackupStats merged with
        | error e => exact Or.inr (Or.inl ⟨rfl, rfl, rfl, rfl⟩)
        | ok st => exact Or.inl ⟨rfl, rfl⟩
  | selectiveSync u d names newId now =>
    simp only [handle, selectiveSync]
    generalize hdoc : (match findOne s u with
      | some d => d
      | none => schemaDefaults newId u now) = doc
    cases forEachBoxName env d names ⟨doc.boxes, false⟩ with
    | error e => exact Or.inr (Or.inl ⟨rfl, rfl, rfl, rfl⟩)
    | ok assigned =>
      dsimp only
      cases save env s
          ⟨doc._id, doc.userId, assigned.boxes, doc.version, now, doc.dataSize, doc.stats,
            doc.createdAt, now⟩ assigned.castFailed (findOne s u).isNone now with
      | error e => exact Or.inr (Or.inl ⟨rfl, rfl, rfl, rfl⟩)
      | ok t => exact Or.inl ⟨rfl, rfl⟩
  | status u =>
    simp only [handle, status]
    cases findOne s u with
    | none => exact Or.inl ⟨rfl, rfl⟩
    | some doc =>
      dsimp only
      cases calculateBackupStats (doc.hydratedData env) with
      | error e => exact Or.inr (Or.inl ⟨rfl, rfl, rfl, rfl⟩)
      | ok st => exact Or.inl ⟨rfl, rfl⟩
  | deleteBackup u => exact Or.inl ⟨rfl, rfl⟩

/-! ## Lemmas on the hook and the calculator -/

theorem guard_eq_isNonNullObject (v : JsValue) :
    (v.truthy && v.typeofIsObject) = isNonNullObject v := by
  cases v <;> simp [JsValue.truthy, JsValue.typeofIsObject, isNonNullObject]

/-- The loop of the `pre('save')` hook is the loop of `calculateBackupStats`
on the entries that pass the guard. -/
theorem preSaveLoop_eq_filter (entries : Props JsValue) (st : Stats) :
    preSaveLoop entries st
      = calculateBackupStatsLoop (entries.filter fun kv => isNonNullObject kv.2) st := by
  induction entries generalizing st with
  | nil => rfl
  | cons hd tl ih =>
    obtain ⟨k1, v1⟩ := hd
    cases v1 <;>
      simp only [preSaveLoop, JsValue.truthy, JsValue.typeofIsObject, isNonNullObject,
        List.filter_cons, Bool.and_false, Bool.and_true, Bool.false_and, Bool.false_eq_true,
        if_false, if_true, calculateBackupStatsLoop, objectKeys] <;>
      exact ih _

theorem filter_eq_self_of_isNonNullObject (entries : Props JsValue)
    (h : ∀ kv, kv ∈ entries → isNonNullObject kv.2 = true) :
    (entries.filter fun kv => isNonNullObject kv.2) = entries := by
  rw [List.filter_eq_self]
  exact h

theorem not_nullish_of_isNonNullObject (entries : Props JsValue)
    (h : ∀ kv, kv ∈ entries → isNonNullObject kv.2 = true) :
    ∀ kv, kv ∈ entries → kv.2 ≠ .undefined ∧ kv.2 ≠ .null := by
  intro kv hkv
  have hb := h kv hkv
  constructor <;> intro e <;> simp [e, isNonNullObject] at hb

/-! ## Lemmas on the usage history -/

/-- History after `incrementUsage`: the last 99 entries of the old history
followed by the new entry. -/
theorem incrementUsage_history (us : UserService) (action : Option String)
    (details : Option JsValue) (now entryDate : Date) :
    (incrementUsage us action details now entryDate).usageHistory
      = sliceLast 99 us.usageHistory ++ [usageEntry action details entryDate] := by
  unfold incrementUsage sliceLast
  simp only [List.length_append, List.length_singleton]
  by_cases h : us.usageHistory.length + 1 > 100
  · rw [if_pos h]
    have e : us.usageHistory.length + 1 - 100 = us.usageHistory.length - 99 := by omega
    rw [e, List.drop_append_of_le_length (by omega)]
  · rw [if_neg h]
    have e : us.usageHistory.length - 99 = 0 := by omega
    rw [e, List.drop_zero]

/-! ## Lemmas for the idempotence of the merge -/

theorem boxOrEmpty_obj (boxes : Props JsValue) (h : isSnapshot (.obj boxes) = true)
    (n : String) : ∃ items, boxOrEmpty boxes n = .obj items ∧ (objKeys items).Nodup := by
  unfold boxOrEmpty
  cases hv : objGet boxes n with
  | none => exact ⟨[], rfl, by simp [objKeys]⟩
  | some v =>
    obtain ⟨items, rfl, hn⟩ := isSnapshot_box boxes h n v hv
    exact ⟨items, rfl, hn⟩

theorem spread2_obj_obj (a b : Props JsValue) (ha : (objKeys a).Nodup) :
    spread2 (.obj a) (.obj b) = b.foldl (fun acc kv => objSet acc kv.1 kv.2) a := by
  unfold spread2
  rw [spreadInto_nil_obj a ha]
  rfl

/-- Merging the local snapshot with the result of a merge gives, under every
box name of either side other than `__proto__`, the box that the first merge
gave. -/
theorem mergedBoxOf_again (l c : Props JsValue) (p : JsValue) (n : String)
    (hl : isSnapshot (.obj l) = true) (hc : isSnapshot (.obj c) = true)
    (hn : (n ∈ objKeys l ∨ n ∈ objKeys c) ∧ n ≠ "__proto__") :
    mergedBoxOf l (mergedBoxes l c p) p n = mergedBoxOf l c p n := by
  obtain ⟨li, hli, hlin⟩ := boxOrEmpty_obj l hl n
  obtain ⟨ci, hci, hcin⟩ := boxOrEmpty_obj c hc n
  have hget : objGet (mergedBoxes l c p) n = some (mergedBoxOf l c p n) := by
    rw [objGet_mergedBoxes, if_pos hn]
  by_cases hp : p.truthy = true
  · have hfirst : mergedBoxOf l c p n
        = .obj (ci.foldl (fun acc kv => objSet acc kv.1 kv.2) li) := by
      unfold mergedBoxOf
      rw [if_pos hp, hli, hci, spread2_obj_obj li ci hlin]
    have hbox : boxOrEmpty (mergedBoxes l c p) n
        = .obj (ci.foldl (fun acc kv => objSet acc kv.1 kv.2) li) := by
      unfold boxOrEmpty
      rw [hget, hfirst]
      rfl
    rw [hfirst]
    unfold mergedBoxOf
    rw [if_pos hp, hli, hbox, spread2_obj_obj li _ hlin, foldl_objSet_absorb li ci hlin]
  · have hfirst : mergedBoxOf l c p n
        = .obj (li.foldl (fun acc kv => objSet acc kv.1 kv.2) ci) := by
      unfold mergedBoxOf
      rw [if_neg hp, hli, hci, spread2_obj_obj ci li hcin]
    have hbox : boxOrEmpty (mergedBoxes l c p) n
        = .obj (li.foldl (fun acc kv => objSet acc kv.1 kv.2) ci) := by
      unfold boxOrEmpty
      rw [hget, hfirst]
      rfl
    rw [hfirst]
    unfold mergedBoxOf
    rw [if_neg hp, hli, hbox,
      spread2_obj_obj _ li (nodup_objKeys_foldl_objSet li ci hcin),
      foldl_objSet_twice li ci hlin]

/-- Merging the local snapshot with the result of a merge gives that result. -/
theorem mergedBoxes_again (l c : Props JsValue) (p : JsValue)
    (hl : isSnapshot (.obj l) = true) (hc : isSnapshot (.obj c) = true) :
    mergedBoxes l (mergedBoxes l c p) p = mergedBoxes l c p := by
  have hln : (objKeys l).Nodup := by
    simp only [isSnapshot, Bool.and_eq_true, decide_eq_true_eq] at hl
    exact hl.1
  have hnames : ((jsSet (objKeys l ++ objKeys (mergedBoxes l c p))).filter
        fun n => decide (n ≠ "__proto__"))
      = (jsSet (objKeys l ++ objKeys c)).filter fun n => decide (n ≠ "__proto__") := by
    have hfl : ((objKeys l).filter fun n => decide (n ≠ "__proto__")).Nodup := hln.filter _
    have hff : ∀ xs : List String,
        (xs.filter fun n => decide (n ≠ "__proto__")).filter
          (fun n => decide (n ≠ "__proto__"))
        = xs.filter fun n => decide (n ≠ "__proto__") := by
      intro xs
      rw [List.filter_filter]
      simp
    rw [objKeys_mergedBoxes, filter_jsSet, List.filter_append, hff, filter_jsSet,
      List.filter_append]
    exact jsSet_append_jsSet _ _ hfl
  rw [mergedBoxes_eq_map l (mergedBoxes l c p), hnames]
  conv_rhs => rw [mergedBoxes_eq_map l c p]
  apply List.map_congr_left
  intro n hn
  rw [List.mem_filter, mem_jsSet, List.mem_append] at hn
  rw [mergedBoxOf_again l c p n hl hc ⟨hn.1, by simpa using hn.2⟩]

/-! ## Lemmas on snapshots with a `__proto__` box -/

theorem objGet_withoutProto (boxes : Props JsValue) (b : String) (hb : b ≠ "__proto__") :
    objGet (withoutProto boxes) b = objGet boxes b := by
  induction boxes with
  | nil => rfl
  | cons hd tl ih =>
    obtain ⟨k1, v1⟩ := hd
    unfold withoutProto at ih ⊢
    by_cases h1 : k1 = "__proto__"
    · have h2 : ¬ k1 = b := fun e => hb (e ▸ h1)
      rw [List.filter_cons_of_neg (by simp [h1]), ih]
      simp only [objGet, h2, if_false]
    · rw [List.filter_cons_of_pos (by simp [h1])]
      by_cases h3 : k1 = b
      · simp only [objGet, h3, if_true]
      · simp only [objGet, h3, if_false]
        exact ih

theorem withoutProto_eq_self (boxes : Props JsValue) (h : "__proto__" ∉ objKeys boxes) :
    withoutProto boxes = boxes := by
  unfold withoutProto
  rw [List.filter_eq_self]
  intro kv hkv
  have : kv.1 ∈ objKeys boxes := List.mem_map_of_mem Prod.fst hkv
  simp only [ne_eq, decide_eq_true_eq]
  intro e
  exact h (e ▸ this)

/-! ## Slug derivation -/

/-- The replacement leaves only characters of `[a-z0-9]` and `-`. -/
theorem replaceNonAlnumRuns_chars (b : Bool) (l : List Char) :
    ∀ ch ∈ replaceNonAlnumRuns b l, isSlugAlnum ch = true ∨ ch = '-' := by
  induction l generalizing b with
  | nil => intro ch h; simp [replaceNonAlnumRuns] at h
  | cons c rest ih =>
    intro ch h
    unfold replaceNonAlnumRuns at h
    split at h
    · rcases List.mem_cons.1 h with h | h
      · left; rw [h]; assumption
      · exact ih _ _ h
    · split at h
      · exact ih _ _ h
      · rcases List.mem_cons.1 h with h | h
        · right; exact h
        · exact ih _ _ h

/-- The replacement never writes two `-` in a row, and writes no `-` first
when it starts inside a run. -/
theorem replaceNonAlnumRuns_chain (b : Bool) (l : List Char) :
    List.Chain' (fun x y => ¬ (x = '-' ∧ y = '-')) (replaceNonAlnumRuns b l)
    ∧ (b = true → (replaceNonAlnumRuns b l).head? ≠ some '-') := by
  induction l generalizing b with
  | nil => simp [replaceNonAlnumRuns]
  | cons c rest ih =>
    unfold replaceNonAlnumRuns
    by_cases hc : isSlugAlnum c = true
    · simp only [hc, if_true]
      refine ⟨?_, ?_⟩
      · rw [List.chain'_cons']
        refine ⟨?_, (ih false).1⟩
        intro y _ h
        rw [h.1] at hc
        exact absurd hc (by decide)
      · intro _ h
        simp only [List.head?_cons, Option.some.injEq] at h
        rw [h] at hc
        exact absurd hc (by decide)
    · cases b
      · simp only [hc, Bool.false_eq_true, if_false]
        refine ⟨?_, by intro h; cases h⟩
        rw [List.chain'_cons']
        refine ⟨?_, (ih true).1⟩
        intro y hy h
        rw [h.2] at hy
        exact (ih true).2 rfl hy
      · simp only [hc, Bool.false_eq_true, if_false, if_true]
        exact ⟨(ih true).1, fun _ => (ih true).2 rfl⟩

/-- The stripped string is a contiguous part of the string. -/
theorem stripDashes_part (l : List Char) : stripDashes l <:+: l :=
  List.IsInfix.trans ( List.IsPrefix.isInfix ( List.rdropWhile_prefix _ _))
    ( List.IsSuffix.isInfix ( List.dropWhile_suffix _))

/-- The stripped string does not start with `-`. -/
theorem stripDashes_head (l : List Char) : (stripDashes l).head? ≠ some '-' := by
  intro h
  unfold stripDashes at h
  obtain ⟨t, ht⟩ := List.rdropWhile_prefix (fun c => c == '-')
    (l.dropWhile (fun c => c == '-'))
  have hd := List.head?_dropWhile_not (fun c => c == '-') l
  cases hr : List.rdropWhile (fun c => c == '-') (l.dropWhile (fun c => c == '-')) with
  | nil => rw [hr] at h; cases h
  | cons x r =>
    rw [hr] at h ht
    simp only [List.head?_cons, Option.some.injEq] at h
    rw [← ht, h] at hd
    simp at hd

/-- The stripped string does not end with `-`. -/
theorem stripDashes_getLast (l : List Char) : (stripDashes l).getLast? ≠ some '-' := by
  intro h
  by_cases hn : stripDashes l = []
  · rw [hn] at h; cases h
  · rw [List.getLast?_eq_getLast _ hn] at h
    have := List.rdropWhile_last_not (fun c => c == '-')
      (l.dropWhile (fun c => c == '-')) hn
    simp only [Option.some.injEq] at h
    apply this
    show ((stripDashes l).getLast hn == '-') = true
    rw [h]; rfl

/-- A string over `[a-z0-9-]` without two `-` in a row is left as it is by
the replacement (when the replacement starts inside a run, the string must
not start with `-`). -/
theorem replaceNonAlnumRuns_of_slug (b : Bool) (s : List Char)
    (hch : ∀ ch ∈ s, isSlugAlnum ch = true ∨ ch = '-')
    (hchain : List.Chain' (fun x y => ¬ (x = '-' ∧ y = '-')) s)
    (hhead : b = true → s.head? ≠ some '-') : replaceNonAlnumRuns b s = s := by
  induction s generalizing b with
  | nil => rfl
  | cons c rest ih =>
    have hrest : ∀ ch ∈ rest, isSlugAlnum ch = true ∨ ch = '-' :=
      fun ch h => hch ch (List.mem_cons_of_mem _ h)
    rw [List.chain'_cons'] at hchain
    unfold replaceNonAlnumRuns
    by_cases hc : isSlugAlnum c = true
    · simp only [hc, if_true]
      rw [ih false hrest hchain.2 (by intro h; cases h)]
    · have hd : c = '-' := (hch c (List.mem_cons_self _ _)).resolve_left hc
      simp only [hc]
      cases b
      · simp only [Bool.false_eq_true, if_false]
        rw [ih true hrest hchain.2 (fun _ h => hchain.1 '-' (by rw [h]; rfl) ⟨hd, rfl⟩), hd]
      · exact absurd (by rw [hd]; rfl) (hhead rfl)

/-- A string that neither starts nor ends with `-` is left as it is by the
stripping. -/
theorem stripDashes_of_slug (s : List Char) (hhead : s.head? ≠ some '-')
    (hlast : s.getLast? ≠ some '-') : stripDashes s = s := by
  have h1 : s.dropWhile (fun c => c == '-') = s := by
    rw [List.dropWhile_eq_self_iff]
    intro hl hp
    apply hhead
    cases s with
    | nil => cases hl
    | cons x t =>
      simp only [List.get_eq_getElem, List.getElem_cons_zero, beq_iff_eq] at hp
      rw [hp]; rfl
  unfold stripDashes
  rw [h1, List.rdropWhile_eq_self_iff]
  intro hl hp
  apply hlast
  rw [List.getLast?_eq_getLast _ hl]
  simp only [beq_iff_eq] at hp
  rw [hp]

/-- ASCII lowering leaves the characters of `[a-z0-9-]` as they are. -/
theorem map_toLower_of_slug (s : List Char)
    (hch : ∀ ch ∈ s, isSlugAlnum ch = true ∨ ch = '-') : s.map Char.toLower = s := by
  induction s with
  | nil => rfl
  | cons c rest ih =>
    have hc : Char.toLower c = c := by
      rcases hch c (List.mem_cons_self _ _) with h | h
      · unfold Char.toLower
        simp only [isSlugAlnum, Bool.or_eq_true, Bool.and_eq_true, decide_eq_true_eq,
          Char.le_def, UInt32.le_def, BitVec.le_def] at h
        have e1 : ('a' : Char).val.toBitVec.toNat = 97 := rfl
        have e2 : ('z' : Char).val.toBitVec.toNat = 122 := rfl
        have e3 : ('0' : Char).val.toBitVec.toNat = 48 := rfl
        have e4 : ('9' : Char).val.toBitVec.toNat = 57 := rfl
        rw [e1, e2, e3, e4] at h
        have hn : c.toNat = c.val.toBitVec.toNat := rfl
        show (if c.toNat ≥ 65 ∧ c.toNat ≤ 90 then Char.ofNat (c.toNat + 32) else c) = c
        rw [if_neg]
        rw [hn]
        omega
      · rw [h]; rfl
    rw [List.map_cons, hc, ih (fun ch h => hch ch (List.mem_cons_of_mem _ h))]


/-! ## Lemmas on the views of a loaded document -/

/-- Stats that `calculateBackupStats` computes from the hydrated `data` of a
document none of whose boxes is `null`: fifteen boxes, and per box the number
of internal fields of the `Map` instance, whatever the entries of the map. -/
theorem calculateBackupStats_hydratedData (env : Env) (doc : UserBackup)
    (h : ∀ n, n ∈ schemaBoxNames → doc.box n ≠ none) :
    calculateBackupStats (doc.hydratedData env)
      = .ok ⟨15, (schemaBoxNames.map fun n => (env.mapInternals n).length).sum,
          schemaBoxNames.map fun n => (n, (env.mapInternals n).length)⟩ := by
  have hd : doc.hydratedData env
      = .obj (schemaBoxNames.map fun n => (n, JsValue.obj (env.mapInternals n))) := by
    unfold UserBackup.hydratedData
    congr 1
    apply List.map_congr_left
    intro n hn
    cases hb : doc.box n with
    | none => exact absurd hb (h n hn)
    | some e => rfl
  rw [hd]
  simp [calculateBackupStats, objectEntries, JsValue.ownProps, schemaBoxNames,
    calculateBackupStatsLoop, objectKeys, objAssign, objSet, objKeys]
  omega

/-! ## Lemmas on the selective sync -/

theorem objGet_map_names {α : Type} (f : String → α) (names : List String) (b : String) :
    objGet (names.map fun n => (n, f n)) b = if b ∈ names then some (f b) else none := by
  induction names with
  | nil => rfl
  | cons n tl ih =>
    by_cases h : n = b
    · subst h
      simp [objGet]
    · have h2 : ¬ b = n := fun e => h e.symm
      simp only [List.map_cons, objGet, h, if_false, ih, List.mem_cons, h2, false_or]

/-- Lookup among the fifteen boxes of a loaded document. -/
theorem objGet_boxes (doc : UserBackup) (b : String) :
    objGet doc.boxes b = if b ∈ schemaBoxNames then some (doc.box b) else none := by
  unfold UserBackup.boxes
  exact objGet_map_names _ _ b

theorem selectiveLoop_obj (env : Env) (dataBoxes : Props JsValue) (names : List String)
    (doc : Assigned) :
    selectiveLoop env (.obj dataBoxes) names doc
      = .ok (names.foldl (selectiveStep env dataBoxes) doc) := by
  induction names generalizing doc with
  | nil => rfl
  | cons n tl ih =>
    simp only [selectiveLoop, JsValue.getProp, JsValue.ownProps, List.foldl_cons]
    cases hg : objGet dataBoxes n with
    | none =>
      simp only [Option.getD, JsValue.truthy, Bool.false_eq_true, if_false, selectiveStep, hg]
      exact ih doc
    | some v =>
      by_cases hv : v.truthy = true
      · simp only [Option.getD, hv, if_true, selectiveStep, hg]
        exact ih _
      · simp only [Option.getD, hv, if_false, selectiveStep, hg]
        exact ih doc

/-- A failed cast stays recorded through the loop. -/
theorem castFailed_selectiveStep (env : Env) (dataBoxes : Props JsValue) (doc : Assigned) (n : String)
    (h : (selectiveStep env dataBoxes doc n).castFailed = false) : doc.castFailed = false := by
  unfold selectiveStep at h
  cases hg : objGet dataBoxes n with
  | none => rw [hg] at h; exact h
  | some v =>
    rw [hg] at h
    dsimp only at h
    by_cases hv : v.truthy = true
    · rw [if_pos hv] at h
      unfold assignBox at h
      by_cases hn : n ∈ schemaBoxNames
      · rw [if_pos hn] at h
        cases hc : castMap env v with
        | error e => rw [hc] at h; cases h
        | ok box => rw [hc] at h; exact h
      · rw [if_neg hn] at h
        exact h
    · rw [if_neg hv] at h
      exact h

theorem castFailed_foldl_selectiveStep (env : Env) (dataBoxes : Props JsValue) (names : List String)
    (doc : Assigned) (h : (names.foldl (selectiveStep env dataBoxes) doc).castFailed = false) :
    doc.castFailed = false := by
  induction names generalizing doc with
  | nil => exact h
  | cons n tl ih =>
    exact castFailed_selectiveStep env dataBoxes doc n (ih _ h)

/-- One step of the loop on a snapshot, when no cast fails: a schema box for
which the data has a box is replaced by that box, and nothing else changes. -/
theorem selectiveStep_boxes (env : Env) (dataBoxes : Props JsValue) (doc : Assigned) (n : String)
    (h : (selectiveStep env dataBoxes doc n).castFailed = false) :
    (∀ items, n ∈ schemaBoxNames → objGet dataBoxes n = some (.obj items) →
        (selectiveStep env dataBoxes doc n).boxes = objSet doc.boxes n (some items))
    ∧ (n ∉ schemaBoxNames ∨ objGet dataBoxes n = none →
        (selectiveStep env dataBoxes doc n).boxes = doc.boxes) := by
  constructor
  · intro items hn hg
    unfold selectiveStep assignBox at h ⊢
    rw [hg] at h ⊢
    simp only [JsValue.truthy, if_true, hn] at h ⊢
    by_cases hk : (objKeys items).all env.validMapKey = true
    · simp only [castMap, hk, if_true]
    · simp only [castMap, hk, if_false] at h
      cases h
  · intro hor
    unfold selectiveStep assignBox
    rcases hor with hn | hg
    · cases hg : objGet dataBoxes n with
      | none => rfl
      | some v =>
        dsimp only
        split <;> rfl
    · rw [hg]

/-- Boxes of the document after the loop of `selective` on a snapshot, when
no cast has failed. -/
theorem foldl_selectiveStep_boxes (env : Env) (dataBoxes : Props JsValue) (names : List String)
    (doc : Assigned) (hd : isSnapshot (.obj dataBoxes) = true)
    (h : (names.foldl (selectiveStep env dataBoxes) doc).castFailed = false) :
    (∀ b items, b ∈ names → b ∈ schemaBoxNames → objGet dataBoxes b = some (.obj items) →
        objGet (names.foldl (selectiveStep env dataBoxes) doc).boxes b = some (some items))
    ∧ (∀ b, b ∉ names ∨ b ∉ schemaBoxNames ∨ objGet dataBoxes b = none →
        objGet (names.foldl (selectiveStep env dataBoxes) doc).boxes b = objGet doc.boxes b) := by
  induction names generalizing doc with
  | nil =>
    refine ⟨fun b items hb => absurd hb (List.not_mem_nil b), fun b _ => rfl⟩
  | cons n tl ih =>
    simp only [List.foldl_cons] at h ⊢
    obtain ⟨ih1, ih2⟩ := ih (selectiveStep env dataBoxes doc n) h
    have hstep := castFailed_foldl_selectiveStep env dataBoxes tl _ h
    obtain ⟨s1, s2⟩ := selectiveStep_boxes env dataBoxes doc n hstep
    have hframe : ∀ b, b ≠ n ∨ b ∉ schemaBoxNames ∨ objGet dataBoxes b = none →
        objGet (selectiveStep env dataBoxes doc n).boxes b = objGet doc.boxes b := by
      intro b hb
      by_cases hn : n ∈ schemaBoxNames
      · cases hg : objGet dataBoxes n with
        | none => rw [s2 (Or.inr hg)]
        | some v =>
          obtain ⟨items, rfl, _⟩ := isSnapshot_box dataBoxes hd n v hg
          rw [s1 items hn hg]
          rcases hb with hb | hb | hb
          · exact objGet_objSet_other _ _ _ _ hb
          · exact objGet_objSet_other _ _ _ _ (fun e => hb (e ▸ hn))
          · exact objGet_objSet_other _ _ _ _ (fun e => by rw [e, hg] at hb; cases hb)
      · rw [s2 (Or.inl hn)]
    constructor
    · intro b items hb hs hg
      by_cases hbt : b ∈ tl
      · exact ih1 b items hbt hs hg
      · have hbn : b = n := by
          rcases List.mem_cons.1 hb with e | e
          · exact e
          · exact absurd e hbt
        subst hbn
        rw [ih2 b (Or.inl hbt), s1 items hs hg, objGet_objSet_self]
    · intro b hb
      by_cases hbt : b ∈ tl
      · have hb2 : b ∉ schemaBoxNames ∨ objGet dataBoxes b = none := by
          rcases hb with hb | hb | hb
          · exact absurd (List.mem_cons_of_mem _ hbt) hb
          · exact Or.inl hb
          · exact Or.inr hb
        rw [ih2 b (Or.inr hb2)]
        exact hframe b (Or.inr hb2)
      · rw [ih2 b (Or.inl hbt)]
        apply hframe
        rcases hb with hb | hb | hb
        · exact Or.inl (fun e => hb (by rw [e]; exact List.mem_cons_self _ _))
        · exact Or.inr (Or.inl hb)
        · exact Or.inr (Or.inr hb)

/-- Outcome of a selective sync of an object `data` with an array `boxNames`
for a user who has a document, when it is answered with success: no cast has
failed, and the stored document holds the boxes that the loop left. -/
theorem selectiveSync_of_success (env : Env) (s : Store) (u : UserId) (doc : UserBackup)
    (dataBoxes : Props JsValue) (names : List String) (newId : Nat) (now : Date)
    (hf : findOne s u = some doc)
    (hs : (selectiveSync env s u (.obj dataBoxes) (.names names) newId now).1.success = true) :
    (names.foldl (selectiveStep env dataBoxes) ⟨doc.boxes, false⟩).castFailed = false
    ∧ ∃ doc2, findOne (selectiveSync env s u (.obj dataBoxes) (.names names) newId now).2 u
          = some doc2
        ∧ doc2.data = (names.foldl (selectiveStep env dataBoxes) ⟨doc.boxes, false⟩).boxes
        ∧ doc2._id = doc._id ∧ doc2.version = doc.version := by
  have hu : doc.userId = u := findOne_userId s u doc hf
  have hcf : (names.foldl (selectiveStep env dataBoxes) ⟨doc.boxes, false⟩).castFailed = false := by
    cases hb : (names.foldl (selectiveStep env dataBoxes) ⟨doc.boxes, false⟩).castFailed with
    | false => rfl
    | true =>
      simp [selectiveSync, hf, forEachBoxName, selectiveLoop_obj, hb, save,
        failureResponse] at hs
  refine ⟨hcf, ?_⟩
  obtain ⟨t, saved, h1, h2, h3, h4⟩ := save_effect env s
    ⟨doc._id, doc.userId, (names.foldl (selectiveStep env dataBoxes) ⟨doc.boxes, false⟩).boxes,
      doc.version, now, doc.dataSize, doc.stats, doc.createdAt, now⟩ now
    (Or.inr ⟨doc, by rw [hu]; exact hf, rfl⟩)
  dsimp only at h1 h3 h4
  rw [hu] at h1 h4
  rw [hf] at h1
  have hrun : (selectiveSync env s u (.obj dataBoxes) (.names names) newId now).2 = t := by
    simp only [selectiveSync, hf, forEachBoxName, selectiveLoop_obj, hcf, hu, h1]
  rw [hrun]
  refine ⟨saved, findOne_of_upsertEffect _ _ _ _ h4, h3, ?_, ?_⟩
  · obtain ⟨st, _, hp⟩ := preSave_eq env
      ⟨doc._id, doc.userId, (names.foldl (selectiveStep env dataBoxes) ⟨doc.boxes, false⟩).boxes,
        doc.version, now, doc.dataSize, doc.stats, doc.createdAt, now⟩ now
    rw [hp] at h2
    simp only [Except.ok.injEq] at h2
    rw [← h2]
  · obtain ⟨st, _, hp⟩ := preSave_eq env
      ⟨doc._id, doc.userId, (names.foldl (selectiveStep env dataBoxes) ⟨doc.boxes, false⟩).boxes,
        doc.version, now, doc.dataSize, doc.stats, doc.createdAt, now⟩ now
    rw [hp] at h2
    simp only [Except.ok.injEq] at h2
    rw [← h2]


/-! ## Stores of the examples -/

/-- Store after the backup of the end-to-end scenario into the empty store:
one document of user 7 whose box `goals` holds the item sent and whose other
fourteen boxes are the empty maps of the schema defaults; `dataSize` and
`stats` are the schema defaults as well. -/
theorem backup_scenario_store :
    (backup exampleEnv [] 7 (.obj [("goals", .obj [("g1", .obj [("amount", .num 100)])])])
      1700000000000 (some "1.0.0") 1 1700000000500).2
      = [⟨1, 7, schemaBoxNames.map (fun n => (n, if n = "goals" then
          some [("g1", JsValue.obj [("amount", .num 100)])] else some [])), "1.0.0",
          1700000000000, 0, ⟨0, 0, []⟩, 1700000000500, 1700000000500⟩] := by
  decide

/-- Store after a backup whose data holds `null` for the schema box `goals`,
into the empty store: one document of user 7 whose box `goals` is `null`. -/
theorem backup_null_box_store (env : Env) :
    (backup env [] 7 (.obj [("goals", .null)]) 10 (some "1.0.0") 1 11).2
      = [⟨1, 7, schemaBoxNames.map (fun n => (n, if n = "goals" then none else some [])),
          "1.0.0", 10, 0, ⟨0, 0, []⟩, 11, 11⟩] := by
  rfl

/-! ## Lemmas on the stored document of a backup and on the hook -/

/-- Document of the user after a `POST /backup` whose update passes the
cast: the update applied to the prior document, or to the schema defaults. -/
theorem backup_stored env (s : Store) (u : UserId) (d : JsValue) (t : Date)
    (ver : Option String) (newId : Nat) (now : Date) (boxes : Option (Props StoredBox))
    (h : castUpdateData env d = .ok boxes) :
    findOne (backup env s u d t ver newId now).2 u
      = some ((⟨u, boxes, ver, t, now⟩ : UpdateDoc).applyTo
          ((findOne s u).getD (schemaDefaults newId u now))) := by
  rw [(backup_of_cast_ok env s u d t ver newId now boxes h).1]
  have heff := findOneAndUpdate_effect s u ⟨u, boxes, ver, t, now⟩ newId now rfl
  rw [findOne_of_upsertEffect _ _ _ _ heff.2, heff.1]

/-- The loop of the hook over native maps counts no item: every box of
`toObject()` is `null`, which the guard skips, or a map without enumerable
keys. -/
theorem preSaveLoop_plainBoxes (f : String → StoredBox) (names : List String) (st0 : Stats) :
    ∃ st, preSaveLoop (names.map fun n => (n, plainBox (f n))) st0 = .ok st
      ∧ st.totalItems = st0.totalItems := by
  induction names generalizing st0 with
  | nil => exact ⟨st0, rfl, rfl⟩
  | cons n tl ih =>
    cases hb : f n with
    | none =>
      obtain ⟨st, h1, h2⟩ := ih st0
      refine ⟨st, ?_, h2⟩
      simp only [List.map_cons, preSaveLoop, hb, plainBox, JsValue.truthy, Bool.false_and,
        Bool.false_eq_true, if_false]
      exact h1
    | some e =>
      obtain ⟨st, h1, h2⟩ := ih ⟨st0.totalBoxes + 1, st0.totalItems + 0,
        objAssign st0.boxDetails n 0⟩
      refine ⟨st, ?_, h2⟩
      simp only [List.map_cons, preSaveLoop, hb, plainBox, JsValue.truthy,
        JsValue.typeofIsObject, Bool.and_self, if_true, objectKeys, JsValue.ownProps, objKeys,
        List.map_nil, List.length_nil]
      exact h1

/-- The hook stores `totalItems = 0` on every document. -/
theorem preSave_totalItems (env : Env) (doc : UserBackup) (now : Date) :
    ∃ saved, preSave env doc now = .ok saved ∧ saved.stats.totalItems = 0 := by
  obtain ⟨st, h1, h2⟩ := preSaveLoop_plainBoxes doc.box schemaBoxNames ⟨0, 0, []⟩
  refine ⟨⟨doc._id, doc.userId, doc.data, doc.version, doc.lastBackupTime,
    env.jsonLength doc.jsonData, st, doc.createdAt, now⟩, ?_, h2⟩
  unfold preSave UserBackup.toObjectData
  rw [h1]

/-! ## Lemmas on box names outside the schema -/

/-- C1 (defect): for local and cloud snapshots, every box name `b` other than
`__proto__` and every item key `k`, `mergeData` returns a snapshot whose box
`b` maps `k` to the cloud value when `preferCloud` is true and the cloud box has
`k`, to the local value when `preferCloud` is false or omitted and the local
box has `k`, otherwise to the value of whichever side has `k`, and to nothing
when neither side has it; the example of the specification gives
`k1:"L", k2:"C2"` with local preferred or the options omitted and
`k1:"C", k2:"C2"` with cloud preferred. For a box named `__proto__` the
assignment `merged[boxName] = ...` writes no property: the same example under
that name merges to the empty object, and the item `k1` is lost. -/
theorem mergeData_item_precedence (localBoxes cloudBoxes : Props JsValue)
    (options : MergeOptions) (b k : String)
    (hl : isSnapshot (.obj localBoxes) = true) (hc : isSnapshot (.obj cloudBoxes) = true)
    (hb : b ≠ "__proto__") :
    (∃ merged, mergeData (.obj localBoxes) (.obj cloudBoxes) options = .ok (.obj merged)
      ∧ (options.preferCloud = .bool true →
          itemOf merged b k = firstSome (itemOf cloudBoxes b k) (itemOf localBoxes b k))
      ∧ (options.preferCloud = .bool false ∨ options.preferCloud = .undefined →
          itemOf merged b k = firstSome (itemOf localBoxes b k) (itemOf cloudBoxes b k)))
    ∧ mergeData (.obj [("boxA", .obj [("k1", .str "L")])])
        (.obj [("boxA", .obj [("k1", .str "C"), ("k2", .str "C2")])])
        ⟨none, none, .bool false⟩
      = .ok (.obj [("boxA", .obj [("k1", .str "L"), ("k2", .str "C2")])])
    ∧ mergeDataDefault (.obj [("boxA", .obj [("k1", .str "L")])])
        (.obj [("boxA", .obj [("k1", .str "C"), ("k2", .str "C2")])])
      = .ok (.obj [("boxA", .obj [("k1", .str "L"), ("k2", .str "C2")])])
    ∧ mergeData (.obj [("boxA", .obj [("k1", .str "L")])])
        (.obj [("boxA", .obj [("k1", .str "C"), ("k2", .str "C2")])])
        ⟨none, none, .bool true⟩
      = .ok (.obj [("boxA", .obj [("k1", .str "C"), ("k2", .str "C2")])])
    ∧ isSnapshot (.obj [("__proto__", .obj [("k1", .str "L")])]) = true
    ∧ itemOf [("__proto__", .obj [("k1", .str "L")])] "__proto__" "k1" = some (.str "L")
    ∧ mergeData (.obj [("__proto__", .obj [("k1", .str "L")])])
        (.obj [("__proto__", .obj [("k1", .str "C"), ("k2", .str "C2")])])
        ⟨none, none, .bool false⟩
      = .ok (.obj [])
    ∧ itemOf [] "__proto__" "k1" = none := by
  refine ⟨⟨_, mergeData_obj localBoxes cloudBoxes options, ?_, ?_⟩, by decide, by decide,
    by decide, by decide, by decide, by decide, by decide⟩
  · intro hp
    rw [itemOf_mergedBoxes _ _ _ _ _ hl hc hb]
    simp [preferCloudOf, hp, JsValue.truthy]
  · intro hp
    rw [itemOf_mergedBoxes _ _ _ _ _ hl hc hb]
    rcases hp with hp | hp <;> simp [preferCloudOf, hp, JsValue.truthy]

/-- Witness of C1: local box `boxA` with `k1:"L"`, cloud box `boxA` with
`k1:"C"` and `k2:"C2"`, item `k1`, cloud preferred. -/
theorem mergeData_item_precedence_witness :
    isSnapshot (.obj [("boxA", .obj [("k1", .str "L")])]) = true
    ∧ isSnapshot (.obj [("boxA", .obj [("k1", .str "C"), ("k2", .str "C2")])]) = true
    ∧ ("boxA" : String) ≠ "__proto__"
    ∧ ∃ merged, mergeData (.obj [("boxA", .obj [("k1", .str "L")])])
        (.obj [("boxA", .obj [("k1", .str "C"), ("k2", .str "C2")])])
        ⟨none, none, .bool true⟩ = .ok (.obj merged)
      ∧ itemOf merged "boxA" "k1" = some (.str "C") :=
  ⟨by decide, by decide, by decide,
    match (mergeData_item_precedence [("boxA", .obj [("k1", .str "L")])]
      [("boxA", .obj [("k1", .str "C"), ("k2", .str "C2")])] ⟨none, none, .bool true⟩
      "boxA" "k1" (by decide) (by decide) (by decide)).1 with
    | ⟨merged, h1, h2, _⟩ => ⟨merged, h1, (h2 rfl).trans (by decide)⟩⟩

/-- C2 (defect): for two objects (in particular two snapshots) and any
options, `mergeData` returns an object whose box names are the box names of
the local side together with those of the cloud side, each listed once, except
the name `__proto__`, which is dropped: merging a local snapshot whose only
box is named `__proto__` with the empty snapshot returns the empty object. -/
theorem mergeData_box_names (localBoxes cloudBoxes : Props JsValue)
    (options : MergeOptions) :
    (∃ merged, mergeData (.obj localBoxes) (.obj cloudBoxes) options = .ok (.obj merged)
      ∧ (∀ b, b ∈ objKeys merged
          ↔ (b ∈ objKeys localBoxes ∨ b ∈ objKeys cloudBoxes) ∧ b ≠ "__proto__")
      ∧ (objKeys merged).Nodup)
    ∧ isSnapshot (.obj [("__proto__", .obj [("a", .num 1)])]) = true
    ∧ objKeys [("__proto__", JsValue.obj [("a", .num 1)])] = ["__proto__"]
    ∧ mergeData (.obj [("__proto__", .obj [("a", .num 1)])]) (.obj []) options
      = .ok (.obj []) := by
  refine ⟨⟨_, mergeData_obj localBoxes cloudBoxes options, ?_, ?_⟩, by decide, rfl, ?_⟩
  · intro b
    exact mem_objKeys_mergedBoxes _ _ _ b
  · exact nodup_objKeys_mergedBoxes _ _ _
  · rw [mergeData_obj]
    rfl

/-- C3 (defect): for two snapshots and any options, a box name other than
`__proto__` that is present only in the local snapshot has merged contents
equal to the local box, and one present only in the cloud snapshot has merged
contents equal to the cloud box; merging `boxA: X` alone with `boxB: Y` alone
yields exactly `boxA: X, boxB: Y`. A box named `__proto__` does not pass
through: merging `__proto__: X` alone with `boxB: Y` alone yields `boxB: Y`
only. -/
theorem mergeData_one_sided_box (localBoxes cloudBoxes : Props JsValue)
    (options : MergeOptions) (b : String) (x y : Props JsValue)
    (hl : isSnapshot (.obj localBoxes) = true) (hc : isSnapshot (.obj cloudBoxes) = true)
    (hx : isBox (.obj x) = true) (hy : isBox (.obj y) = true) (hb : b ≠ "__proto__") :
    (∃ merged, mergeData (.obj localBoxes) (.obj cloudBoxes) options = .ok (.obj merged)
      ∧ (b ∈ objKeys localBoxes → b ∉ objKeys cloudBoxes →
          objGet merged b = objGet localBoxes b)
      ∧ (b ∈ objKeys cloudBoxes → b ∉ objKeys localBoxes →
          objGet merged b = objGet cloudBoxes b))
    ∧ mergeData (.obj [("boxA", .obj x)]) (.obj [("boxB", .obj y)]) options
      = .ok (.obj [("boxA", .obj x), ("boxB", .obj y)])
    ∧ mergeData (.obj [("__proto__", .obj x)]) (.obj [("boxB", .obj y)]) options
      = .ok (.obj [("boxB", .obj y)]) := by
  have hone : ∀ (one other : Props JsValue), isSnapshot (.obj one) = true →
      b ∈ objKeys one → b ∉ objKeys other →
      .obj (spread2 (boxOrEmpty one b) (boxOrEmpty other b)) = (objGet one b).getD .undefined
      ∧ .obj (spread2 (boxOrEmpty other b) (boxOrEmpty one b)) = (objGet one b).getD .undefined
      ∧ (objGet one b).isSome = true := by
    intro one other hs hin hout
    have hnone : objGet other b = none := (objGet_eq_none_iff other b).2 hout
    cases hv : objGet one b with
    | none => exact absurd ((objGet_eq_none_iff one b).1 hv) (by simpa using hin)
    | some v =>
      obtain ⟨items, rfl, hn⟩ := isSnapshot_box one hs b v hv
      have e1 : List.foldl (fun acc kv => objSet acc kv.1 kv.2) [] items = items := by
        simpa [spreadInto, JsValue.ownProps] using spreadInto_nil_obj items hn
      simp [boxOrEmpty, hv, hnone, orEmptyObject, JsValue.truthy, spread2, spreadInto,
        JsValue.ownProps, e1]
  have hxn : (objKeys x).Nodup := by simpa [isBox] using hx
  have hyn : (objKeys y).Nodup := by simpa [isBox] using hy
  have ex : List.foldl (fun acc kv => objSet acc kv.1 kv.2) [] x = x := by
    simpa [spreadInto, JsValue.ownProps] using spreadInto_nil_obj x hxn
  have ey : List.foldl (fun acc kv => objSet acc kv.1 kv.2) [] y = y := by
    simpa [spreadInto, JsValue.ownProps] using spreadInto_nil_obj y hyn
  refine ⟨⟨_, mergeData_obj localBoxes cloudBoxes options, ?_, ?_⟩, ?_, ?_⟩
  · intro hin hout
    obtain ⟨h1, h2, h3⟩ := hone localBoxes cloudBoxes hl hin hout
    rw [objGet_mergedBoxes, if_pos ⟨Or.inl hin, hb⟩]
    simp only [mergedBoxOf]
    cases hv : objGet localBoxes b with
    | none => simp [hv] at h3
    | some v =>
      rw [hv] at h1 h2
      split
      · rw [h1]; rfl
      · rw [h2]; rfl
  · intro hin hout
    obtain ⟨h1, h2, h3⟩ := hone cloudBoxes localBoxes hc hin hout
    rw [objGet_mergedBoxes, if_pos ⟨Or.inr hin, hb⟩]
    simp only [mergedBoxOf]
    cases hv : objGet cloudBoxes b with
    | none => simp [hv] at h3
    | some v =>
      rw [hv] at h1 h2
      split
      · rw [h2]; rfl
      · rw [h1]; rfl
  · rw [mergeData_obj, mergedBoxes_eq_map]
    have hset : (jsSet (objKeys [("boxA", JsValue.obj x)] ++ objKeys [("boxB", JsValue.obj y)])).filter
        (fun n => decide (n ≠ "__proto__")) = ["boxA", "boxB"] := by
      show (jsSet ["boxA", "boxB"]).filter (fun n => decide (n ≠ "__proto__")) = ["boxA", "boxB"]
      decide
    rw [hset]
    have hA : mergedBoxOf [("boxA", JsValue.obj x)] [("boxB", JsValue.obj y)]
        (preferCloudOf options) "boxA" = .obj x := by
      unfold mergedBoxOf
      split <;>
        simp [boxOrEmpty, objGet, orEmptyObject, JsValue.truthy, spread2, ex, spreadInto,
          JsValue.ownProps]
    have hB : mergedBoxOf [("boxA", JsValue.obj x)] [("boxB", JsValue.obj y)]
        (preferCloudOf options) "boxB" = .obj y := by
      unfold mergedBoxOf
      split <;>
        simp [boxOrEmpty, objGet, orEmptyObject, JsValue.truthy, spread2, ey, spreadInto,
          JsValue.ownProps]
    simp [hA, hB]
  · rw [mergeData_obj, mergedBoxes_eq_map]
    have hset : (jsSet (objKeys [("__proto__", JsValue.obj x)]
        ++ objKeys [("boxB", JsValue.obj y)])).filter
        (fun n => decide (n ≠ "__proto__")) = ["boxB"] := by
      show (jsSet ["__proto__", "boxB"]).filter (fun n => decide (n ≠ "__proto__")) = ["boxB"]
      decide
    rw [hset]
    have hB : mergedBoxOf [("__proto__", JsValue.obj x)] [("boxB", JsValue.obj y)]
        (preferCloudOf options) "boxB" = .obj y := by
      unfold mergedBoxOf
      split <;>
        simp [boxOrEmpty, objGet, orEmptyObject, JsValue.truthy, spread2, ey, spreadInto,
          JsValue.ownProps]
    simp [hB]

/-- Witness of C3: local snapshot with the single box `boxA`, cloud snapshot
with the single box `boxB`, looked up at `boxA`. -/
theorem mergeData_one_sided_box_witness :
    isSnapshot (.obj [("boxA", .obj [("k1", .num 1)])]) = true
    ∧ isSnapshot (.obj [("boxB", .obj [("k2", .num 2)])]) = true
    ∧ ("boxA" : String) ≠ "__proto__"
    ∧ mergeData (.obj [("boxA", .obj [("k1", .num 1)])])
        (.obj [("boxB", .obj [("k2", .num 2)])]) ⟨none, none, .bool true⟩
      = .ok (.obj [("boxA", .obj [("k1", .num 1)]), ("boxB", .obj [("k2", .num 2)])])
    ∧ mergeData (.obj [("__proto__", .obj [("k1", .num 1)])])
        (.obj [("boxB", .obj [("k2", .num 2)])]) ⟨none, none, .bool true⟩
      = .ok (.obj [("boxB", .obj [("k2", .num 2)])]) :=
  ⟨by decide, by decide, by decide,
    (mergeData_one_sided_box [("boxA", .obj [("k1", .num 1)])]
      [("boxB", .obj [("k2", .num 2)])] ⟨none, none, .bool true⟩ "boxA"
      [("k1", .num 1)] [("k2", .num 2)] (by decide) (by decide) (by decide) (by decide)
      (by decide)).2.1,
    (mergeData_one_sided_box [("boxA", .obj [("k1", .num 1)])]
      [("boxB", .obj [("k2", .num 2)])] ⟨none, none, .bool true⟩ "boxA"
      [("k1", .num 1)] [("k2", .num 2)] (by decide) (by decide) (by decide) (by decide)
      (by decide)).2.2⟩

/-! ## Stats calculator -/

/-- C4 (defect): for every snapshot `data`, `calculateBackupStats(data)`
returns `totalBoxes` equal to the number of keys of `data` and `totalItems`
equal to the number of items of all boxes; `boxDetails` has the keys of `data`
other than `__proto__`, with `boxDetails[b]` the number of keys of `data[b]`,
so that `totalItems` is the sum of `boxDetails` when no box is named
`__proto__`; for `boxA: (k1: v1, k2: v2), boxB: ()` it returns `totalBoxes = 2`,
`totalItems = 2` and `boxDetails = (boxA: 2, boxB: 0)`. For a box named
`__proto__` the assignment `stats.boxDetails[boxName] = itemCount` writes
nothing: `x: (), __proto__: (a: 1)` gives `totalBoxes = 2`, `totalItems = 1` and
`boxDetails = (x: 0)`, whose keys are not the keys of the data and whose sum
is not `totalItems`. -/
theorem calculateBackupStats_snapshot (boxes : Props JsValue) (v1 v2 : JsValue)
    (h : isSnapshot (.obj boxes) = true) :
    (∃ st, calculateBackupStats (.obj boxes) = .ok st
      ∧ st.totalBoxes = (objKeys boxes).length
      ∧ objKeys st.boxDetails = objKeys (withoutProto boxes)
      ∧ (∀ b box, b ≠ "__proto__" → objGet boxes b = some box →
          objGet st.boxDetails b = some (objKeys box.ownProps).length)
      ∧ st.totalItems = itemCount (.obj boxes)
      ∧ ("__proto__" ∉ objKeys boxes →
          objKeys st.boxDetails = objKeys boxes
          ∧ st.totalItems = (st.boxDetails.map Prod.snd).sum))
    ∧ calculateBackupStats
        (.obj [("boxA", .obj [("k1", v1), ("k2", v2)]), ("boxB", .obj [])])
      = .ok ⟨2, 2, [("boxA", 2), ("boxB", 0)]⟩
    ∧ isSnapshot (.obj [("x", .obj []), ("__proto__", .obj [("a", .num 1)])]) = true
    ∧ calculateBackupStats (.obj [("x", .obj []), ("__proto__", .obj [("a", .num 1)])])
      = .ok ⟨2, 1, [("x", 0)]⟩ := by
  refine ⟨⟨_, calculateBackupStats_on_snapshot boxes h, ?_, ?_, ?_, rfl, ?_⟩, rfl,
    by decide, by decide⟩
  · simp [objKeys]
  · simp [objKeys, Function.comp_def]
  · intro b box hb hg
    rw [objGet_map_snd, objGet_withoutProto boxes b hb, hg]
    rfl
  · intro hp
    rw [withoutProto_eq_self boxes hp]
    constructor
    · simp [objKeys, Function.comp_def]
    · simp [itemCount, JsValue.ownProps, Function.comp_def]

/-- Witness of C4: the snapshot with box `boxA` of two items and the empty
box `boxB`. -/
theorem calculateBackupStats_snapshot_witness :
    isSnapshot (.obj [("boxA", .obj [("k1", .num 1), ("k2", .num 2)]), ("boxB", .obj [])])
      = true
    ∧ calculateBackupStats
        (.obj [("boxA", .obj [("k1", .str "a"), ("k2", .null)]), ("boxB", .obj [])])
      = .ok ⟨2, 2, [("boxA", 2), ("boxB", 0)]⟩ :=
  ⟨by decide,
    (calculateBackupStats_snapshot
      [("boxA", .obj [("k1", .num 1), ("k2", .num 2)]), ("boxB", .obj [])]
      (.str "a") .null (by decide)).2.1⟩

/-! ## Sync service -/

/-- C5 (defect): the end-to-end scenario of the specification, in the example
environment. A backup of `goals: (g1: (amount: 100))` with version `1.0.0`
into the empty store succeeds, and `restore` then succeeds with that version
and timestamp; but it returns the fifteen boxes of the schema and not the data
sent, and `restore` and `status` compute their stats from the hydrated
document, where every box shows the internal fields of its `Map` instance:
fifteen boxes whatever was stored, and 60 items where the data has one. A
backup of `boxA: (k: 1)`, a box name outside the schema, succeeds as well and
stores nothing of the box: `restore` returns fifteen empty boxes. -/
theorem backup_then_restore :
    (backup exampleEnv [] 7 (.obj [("goals", .obj [("g1", .obj [("amount", .num 100)])])])
      1700000000000 (some "1.0.0") 1 1700000000500).1.success = true
    ∧ (restore exampleEnv
        (backup exampleEnv [] 7 (.obj [("goals", .obj [("g1", .obj [("amount", .num 100)])])])
          1700000000000 (some "1.0.0") 1 1700000000500).2 7).1.success = true
    ∧ (restore exampleEnv
        (backup exampleEnv [] 7 (.obj [("goals", .obj [("g1", .obj [("amount", .num 100)])])])
          1700000000000 (some "1.0.0") 1 1700000000500).2 7).1.version = some "1.0.0"
    ∧ (restore exampleEnv
        (backup exampleEnv [] 7 (.obj [("goals", .obj [("g1", .obj [("amount", .num 100)])])])
          1700000000000 (some "1.0.0") 1 1700000000500).2 7).1.lastBackupTime
      = some (some 1700000000000)
    ∧ (restore exampleEnv
        (backup exampleEnv [] 7 (.obj [("goals", .obj [("g1", .obj [("amount", .num 100)])])])
          1700000000000 (some "1.0.0") 1 1700000000500).2 7).1.data
      = some (.obj (schemaBoxNames.map fun n =>
          (n, if n = "goals" then JsValue.obj [("g1", .obj [("amount", .num 100)])]
            else JsValue.obj [])))
    ∧ (restore exampleEnv
        (backup exampleEnv [] 7 (.obj [("goals", .obj [("g1", .obj [("amount", .num 100)])])])
          1700000000000 (some "1.0.0") 1 1700000000500).2 7).1.data
      ≠ some (.obj [("goals", .obj [("g1", .obj [("amount", .num 100)])])])
    ∧ (status exampleEnv
        (backup exampleEnv [] 7 (.obj [("goals", .obj [("g1", .obj [("amount", .num 100)])])])
          1700000000000 (some "1.0.0") 1 1700000000500).2 7).1.hasBackup = some true
    ∧ (status exampleEnv
        (backup exampleEnv [] 7 (.obj [("goals", .obj [("g1", .obj [("amount", .num 100)])])])
          1700000000000 (some "1.0.0") 1 1700000000500).2 7).1.stats
      = some ⟨15, (schemaBoxNames.map fun n => (exampleEnv.mapInternals n).length).sum,
          schemaBoxNames.map fun n => (n, (exampleEnv.mapInternals n).length)⟩
    ∧ (status exampleEnv
        (backup exampleEnv [] 7 (.obj [("goals", .obj [("g1", .obj [("amount", .num 100)])])])
          1700000000000 (some "1.0.0") 1 1700000000500).2 7).1.stats.map
          (fun st => (st.totalBoxes, st.totalItems)) = some (15, 60)
    ∧ itemCount (.obj [("goals", .obj [("g1", .obj [("amount", .num 100)])])]) = 1
    ∧ (backup exampleEnv [] 7 (.obj [("boxA", .obj [("k", .num 1)])]) 1700000000000
        (some "1.0.0") 1 1700000000500).1.success = true
    ∧ (restore exampleEnv
        (backup exampleEnv [] 7 (.obj [("boxA", .obj [("k", .num 1)])]) 1700000000000
          (some "1.0.0") 1 1700000000500).2 7).1.data
      = some (.obj (schemaBoxNames.map fun n => (n, JsValue.obj []))) := by
  have hs := backup_scenario_store
  have hs2 : (backup exampleEnv [] 7 (.obj [("boxA", .obj [("k", .num 1)])]) 1700000000000
      (some "1.0.0") 1 1700000000500).2
      = [⟨1, 7, schemaBoxNames.map (fun n => (n, some [])), "1.0.0",
          1700000000000, 0, ⟨0, 0, []⟩, 1700000000500, 1700000000500⟩] := by decide
  have hst := calculateBackupStats_hydratedData exampleEnv
    ⟨1, 7, schemaBoxNames.map (fun n => (n, if n = "goals" then
      some [("g1", JsValue.obj [("amount", .num 100)])] else some [])), "1.0.0",
      1700000000000, 0, ⟨0, 0, []⟩, 1700000000500, 1700000000500⟩ (by decide)
  have hst2 := calculateBackupStats_hydratedData exampleEnv
    ⟨1, 7, schemaBoxNames.map (fun n => (n, some [])), "1.0.0",
      1700000000000, 0, ⟨0, 0, []⟩, 1700000000500, 1700000000500⟩ (by decide)
  rw [hs, hs2]
  refine ⟨by decide, ?_, ?_, ?_, ?_, ?_, ?_, ?_, by decide, by decide, by decide, ?_⟩
  · simp only [restore, findOne, if_true, hst]
  · simp only [restore, findOne, if_true, hst]
  · simp only [restore, findOne, if_true, hst]
  · simp only [restore, findOne, if_true, hst]
    decide
  · simp only [restore, findOne, if_true, hst]
    decide
  · simp only [status, findOne, if_true, hst]
  · simp only [status, findOne, if_true, hst]
  · simp only [restore, findOne, if_true, hst2]
    decide

/-- C6 (counterexample): user 7 has a stored snapshot; a selective sync of
`boxNames = ["B"]` with data for `B`, a box name outside the schema, is
answered with success, yet nothing is stored under `B`: the stored boxes are
the ones that were there, and `restore` returns no box `B`. -/
theorem selectiveSync_skips_box_outside_schema :
    (selectiveSync exampleEnv
      [⟨1, 7, schemaBoxNames.map (fun n => (n, some [])), "1.0.0", 10, 0, ⟨0, 0, []⟩, 10, 10⟩]
      7 (.obj [("B", .obj [("x", .num 9)])]) (.names ["B"]) 2 20).1.success = true
    ∧ (findOne (selectiveSync exampleEnv
        [⟨1, 7, schemaBoxNames.map (fun n => (n, some [])), "1.0.0", 10, 0, ⟨0, 0, []⟩, 10,
          10⟩]
        7 (.obj [("B", .obj [("x", .num 9)])]) (.names ["B"]) 2 20).2 7).map (fun d => d.data)
      = some (schemaBoxNames.map (fun n => (n, some [])))
    ∧ objGet (schemaBoxNames.map (fun n => (n, (some [] : StoredBox)))) "B" = none
    ∧ (restore exampleEnv (selectiveSync exampleEnv
        [⟨1, 7, schemaBoxNames.map (fun n => (n, some [])), "1.0.0", 10, 0, ⟨0, 0, []⟩, 10,
          10⟩]
        7 (.obj [("B", .obj [("x", .num 9)])]) (.names ["B"]) 2 20).2 7).1.data
      = some (.obj (schemaBoxNames.map fun n => (n, JsValue.obj []))) := by
  have hs : (selectiveSync exampleEnv
      [⟨1, 7, schemaBoxNames.map (fun n => (n, some [])), "1.0.0", 10, 0, ⟨0, 0, []⟩, 10, 10⟩]
      7 (.obj [("B", .obj [("x", .num 9)])]) (.names ["B"]) 2 20).2
      = [⟨1, 7, schemaBoxNames.map (fun n => (n, some [])), "1.0.0", 20, 0,
          ⟨15, 0, schemaBoxNames.map (fun n => (n, 0))⟩, 10, 20⟩] := by decide
  have hst := calculateBackupStats_hydratedData exampleEnv
    ⟨1, 7, schemaBoxNames.map (fun n => (n, some [])), "1.0.0", 20, 0,
      ⟨15, 0, schemaBoxNames.map (fun n => (n, 0))⟩, 10, 20⟩ (by decide)
  rw [hs]
  refine ⟨by decide, rfl, by decide, ?_⟩
  simp only [restore, findOne, if_true, hst]
  decide

/-- C6 (amended): when user `u` has a stored snapshot, `data` is a snapshot and
`selectiveSync(u, data, boxNames)` is answered with success, then every box
that is named in `boxNames`, is one of the fifteen boxes of the schema and has
a box in `data` holds exactly that box of `data` afterwards (replaced, not
merged); every other box of the schema is identical to its prior stored
value; and nothing is stored under a name outside the schema. -/
theorem selectiveSync_replaces_named_boxes (env : Env) (s : Store)
    (u : UserId) (doc : UserBackup) (dataBoxes : Props JsValue)
    (names : List String) (newId : Nat) (now : Date)
    (hf : findOne s u = some doc) (hd : isSnapshot (.obj dataBoxes) = true)
    (hs : (selectiveSync env s u (.obj dataBoxes) (.names names) newId now).1.success = true) :
    ∃ doc2,
      findOne (selectiveSync env s u (.obj dataBoxes) (.names names) newId now).2 u = some doc2
      ∧ (∀ b items, b ∈ names → b ∈ schemaBoxNames → objGet dataBoxes b = some (.obj items) →
          doc2.box b = some items)
      ∧ (∀ b, b ∈ schemaBoxNames → b ∉ names ∨ objGet dataBoxes b = none →
          doc2.box b = doc.box b)
      ∧ (∀ b, b ∉ schemaBoxNames → objGet doc2.data b = none) := by
  obtain ⟨hcf, doc2, hfind, hdata, _, _⟩ :=
    selectiveSync_of_success env s u doc dataBoxes names newId now hf hs
  obtain ⟨h1, h2⟩ := foldl_selectiveStep_boxes env dataBoxes names ⟨doc.boxes, false⟩ hd hcf
  refine ⟨doc2, hfind, ?_, ?_, ?_⟩
  · intro b items hb hsch hg
    unfold UserBackup.box
    rw [hdata, h1 b items hb hsch hg]
    rfl
  · intro b hsch hb
    have hb2 : b ∉ names ∨ b ∉ schemaBoxNames ∨ objGet dataBoxes b = none := by
      rcases hb with hb | hb
      · exact Or.inl hb
      · exact Or.inr (Or.inr hb)
    have := h2 b hb2
    dsimp only at this
    conv_lhs => unfold UserBackup.box
    rw [hdata, this, objGet_boxes, if_pos hsch]
    rfl
  · intro b hsch
    have := h2 b (Or.inr (Or.inl hsch))
    dsimp only at this
    rw [hdata, this, objGet_boxes, if_neg hsch]

/-- Witness of C6 (amended): a stored snapshot with the boxes `goals`,
`budgets` and `debts`; selective sync of `boxNames = ["budgets"]` with new
data for `budgets` leaves `goals` and `debts` as they were and replaces
`budgets`. -/
theorem selectiveSync_replaces_named_boxes_witness :
    findOne [⟨1, 7, [("goals", some [("a", .num 1)]), ("budgets", some [("b", .num 2)]),
        ("debts", some [("c", .num 3)])], "1.0.0", 10, 0, ⟨0, 0, []⟩, 10, 10⟩] 7
      = some ⟨1, 7, [("goals", some [("a", .num 1)]), ("budgets", some [("b", .num 2)]),
        ("debts", some [("c", .num 3)])], "1.0.0", 10, 0, ⟨0, 0, []⟩, 10, 10⟩
    ∧ isSnapshot (.obj [("budgets", .obj [("x", .num 9)])]) = true
    ∧ (selectiveSync exampleEnv
        [⟨1, 7, [("goals", some [("a", .num 1)]), ("budgets", some [("b", .num 2)]),
          ("debts", some [("c", .num 3)])], "1.0.0", 10, 0, ⟨0, 0, []⟩, 10, 10⟩] 7
        (.obj [("budgets", .obj [("x", .num 9)])]) (.names ["budgets"]) 2 20).1.success = true
    ∧ ∃ doc2,
      findOne (selectiveSync exampleEnv
        [⟨1, 7, [("goals", some [("a", .num 1)]), ("budgets", some [("b", .num 2)]),
          ("debts", some [("c", .num 3)])], "1.0.0", 10, 0, ⟨0, 0, []⟩, 10, 10⟩] 7
        (.obj [("budgets", .obj [("x", .num 9)])]) (.names ["budgets"]) 2 20).2 7 = some doc2
      ∧ doc2.box "budgets" = some [("x", .num 9)]
      ∧ doc2.box "goals" = some [("a", .num 1)]
      ∧ doc2.box "debts" = some [("c", .num 3)] :=
  ⟨by decide, by decide, by decide,
    match selectiveSync_replaces_named_boxes exampleEnv
      [⟨1, 7, [("goals", some [("a", .num 1)]), ("budgets", some [("b", .num 2)]),
        ("debts", some [("c", .num 3)])], "1.0.0", 10, 0, ⟨0, 0, []⟩, 10, 10⟩] 7
      ⟨1, 7, [("goals", some [("a", .num 1)]), ("budgets", some [("b", .num 2)]),
        ("debts", some [("c", .num 3)])], "1.0.0", 10, 0, ⟨0, 0, []⟩, 10, 10⟩
      [("budgets", .obj [("x", .num 9)])] ["budgets"] 2 20 (by decide) (by decide)
      (by decide) with
    | ⟨doc2, h1, h2, h3, _⟩ =>
      ⟨doc2, h1, h2 "budgets" [("x", .num 9)] (by decide) (by decide) (by decide),
        (h3 "goals" (by decide) (Or.inl (by decide))).trans (by decide),
        (h3 "debts" (by decide) (Or.inl (by decide))).trans (by decide)⟩⟩

/-- C7 (defect): user 7 has a stored snapshot, written by a backup of
`goals: (g1: 1)`. A smart sync of the local data `goals: (g2: 2)` does not
return the merge of the local data with the stored data, which is
`goals: (g1: 1, g2: 2)`: the handler merges with the hydrated document, whose
boxes show the internal fields of their `Map` instances, the update built from
that merge is refused by the database layer, and the request is answered with
status 500 and stores nothing. For a user without a document the handler
does what the claim says: it returns the local data merged with the empty
snapshot, with the stats of that merge, and stores it. -/
theorem smartSync_fails_on_stored_snapshot :
    (backup exampleEnv [] 7 (.obj [("goals", .obj [("g1", .num 1)])]) 10 (some "1.0.0") 1 11).1.success
      = true
    ∧ (smartSync exampleEnv
        (backup exampleEnv [] 7 (.obj [("goals", .obj [("g1", .num 1)])]) 10 (some "1.0.0") 1 11).2 7
        (.obj [("goals", .obj [("g2", .num 2)])]) none (.bool false) 2 20).1
      = failureResponse "Smart sync failed" .database
    ∧ (smartSync exampleEnv
        (backup exampleEnv [] 7 (.obj [("goals", .obj [("g1", .num 1)])]) 10 (some "1.0.0") 1 11).2 7
        (.obj [("goals", .obj [("g2", .num 2)])]) none (.bool false) 2 20).2
      = (backup exampleEnv [] 7 (.obj [("goals", .obj [("g1", .num 1)])]) 10 (some "1.0.0") 1 11).2
    ∧ mergeData (.obj [("goals", .obj [("g2", .num 2)])])
        (.obj [("goals", .obj [("g1", .num 1)])]) ⟨none, none, .bool false⟩
      = .ok (.obj [("goals", .obj [("g1", .num 1), ("g2", .num 2)])])
    ∧ (smartSync exampleEnv [] 7 (.obj [("goals", .obj [("g2", .num 2)])]) none
        (.bool false) 2 20).1.mergedData
      = some (.obj [("goals", .obj [("g2", .num 2)])])
    ∧ (smartSync exampleEnv [] 7 (.obj [("goals", .obj [("g2", .num 2)])]) none
        (.bool false) 2 20).1.stats
      = some ⟨1, 1, [("goals", 1)]⟩
    ∧ storedBox (smartSync exampleEnv [] 7 (.obj [("goals", .obj [("g2", .num 2)])]) none
        (.bool false) 2 20).2 7 "goals"
      = some (some [("g2", .num 2)]) := by
  have hs : (backup exampleEnv [] 7 (.obj [("goals", .obj [("g1", .num 1)])]) 10 (some "1.0.0") 1 11).2
      = [⟨1, 7, schemaBoxNames.map (fun n => (n, if n = "goals" then
          some [("g1", JsValue.num 1)] else some [])), "1.0.0", 10, 0, ⟨0, 0, []⟩, 11,
          11⟩] := by decide
  rw [hs]
  refine ⟨by decide, by decide, by decide, by decide, by decide, by decide, by decide⟩

/-- C8 (defect): a backup into the empty store answers with the stats of the
data (`totalBoxes = 1`, `totalItems = 1`, `goals: 1`), but the document it
leaves in the store, whose box `goals` holds the item, carries the defaults
of the schema, `stats = (0, 0, ())` and `dataSize = 0`: `findOneAndUpdate`
writes neither field and runs no `pre('save')` hook. A smart sync into the
empty store leaves the same stale fields. -/
theorem backup_leaves_stored_stats_stale :
    (backup exampleEnv [] 7 (.obj [("goals", .obj [("g1", .obj [("amount", .num 100)])])])
        1700000000000 (some "1.0.0") 1 1700000000500).1.stats
      = some ⟨1, 1, [("goals", 1)]⟩
    ∧ (findOne (backup exampleEnv [] 7 (.obj [("goals", .obj [("g1", .obj [("amount", .num 100)])])])
        1700000000000 (some "1.0.0") 1 1700000000500).2 7).map
          (fun d => (d.box "goals", d.stats, d.dataSize))
      = some (some [("g1", .obj [("amount", .num 100)])], ⟨0, 0, []⟩, 0)
    ∧ calculateBackupStats (.obj [("goals", .obj [("g1", .obj [("amount", .num 100)])])])
      = .ok ⟨1, 1, [("goals", 1)]⟩
    ∧ (findOne (smartSync exampleEnv [] 7
        (.obj [("goals", .obj [("g1", .obj [("amount", .num 100)])])])
        none (.bool false) 1 1700000000500).2 7).map
          (fun d => (d.box "goals", d.stats, d.dataSize))
      = some (some [("g1", .obj [("amount", .num 100)])], ⟨0, 0, []⟩, 0) := by
  decide

/-- C9: a sync operation invoked for user `u` leaves the documents of every
other user `v` in the store exactly as they were (same documents, same
fields, same order), so `v` has a snapshot afterwards exactly when it had one
before, and it is the same snapshot. -/
theorem other_users_untouched (env : Env) (s : Store) (r : Request)
    (v : UserId) (hv : v ≠ r.user) :
    docsOf (handle env s r).2 v = docsOf s v
    ∧ findOne (handle env s r).2 v = findOne s v := by
  have h := docsOf_handle_other env s r v hv
  refine ⟨h, ?_⟩
  rw [findOne_eq_head, findOne_eq_head, h]

/-- Witness of C9: users 7 and 8 both have a snapshot; a backup for user 7
leaves the snapshot of user 8 as it was. -/
theorem other_users_untouched_witness :
    (8 : UserId) ≠ (Request.backup 7 (.obj [("goals", .obj [])]) 30 (some "2.0.0") 3 31).user
    ∧ docsOf (handle exampleEnv
        [⟨1, 7, [("goals", some [])], "1.0.0", 10, 0, ⟨0, 0, []⟩, 10, 10⟩,
          ⟨2, 8, [("debts", some [])], "1.0.0", 20, 0, ⟨0, 0, []⟩, 20, 20⟩]
        (Request.backup 7 (.obj [("goals", .obj [])]) 30 (some "2.0.0") 3 31)).2 8
      = [⟨2, 8, [("debts", some [])], "1.0.0", 20, 0, ⟨0, 0, []⟩, 20, 20⟩] :=
  ⟨by decide,
    (other_users_untouched exampleEnv
      [⟨1, 7, [("goals", some [])], "1.0.0", 10, 0, ⟨0, 0, []⟩, 10, 10⟩,
        ⟨2, 8, [("debts", some [])], "1.0.0", 20, 0, ⟨0, 0, []⟩, 20, 20⟩]
      (Request.backup 7 (.obj [("goals", .obj [])]) 30 (some "2.0.0") 3 31) 8
      (by decide)).1.trans (by decide)⟩

/-- C10: from a store with at most one snapshot per user, every sequence of
requests leaves at most one snapshot per user; a backup, smart sync or
selective sync answered with success leaves exactly one snapshot of its user:
for a user without a snapshot it appends one document, and for a user with a
snapshot it keeps the number of documents and their `_id`s (it rewrites the
existing document in place). -/
theorem one_snapshot_per_user (env : Env) (s : Store)
    (reqs : List Request) (r : Request) (h : atMostOnePerUser s) :
    atMostOnePerUser (runRequests env s reqs)
    ∧ (r.isWrite = true → (handle env s r).1.success = true →
        (docsOf (handle env s r).2 r.user).length = 1
        ∧ (findOne s r.user = none →
            ∃ doc, doc.userId = r.user ∧ (handle env s r).2 = s ++ [doc])
        ∧ (findOne s r.user ≠ none →
            (handle env s r).2.length = s.length
            ∧ (handle env s r).2.map (fun d => d._id) = s.map (fun d => d._id))) := by
  refine ⟨atMostOnePerUser_runRequests env s reqs h, ?_⟩
  intro hw hs
  obtain ⟨doc, hdoc, _, h3, h4, h5⟩ := handle_write_effect env s r hw hs
  refine ⟨?_, fun hn => ⟨doc, hdoc, h4 hn⟩, h5⟩
  have hle := h r.user
  unfold docsOf at hle ⊢
  rw [h3]
  simp only [List.length_cons, List.length_tail]
  omega

/-- Witness of C10: user 7 has one snapshot; after a backup, a smart sync, a
selective sync and a deletion of several users the store still has at most
one snapshot per user, and a backup for user 7 rewrites its document. -/
theorem one_snapshot_per_user_witness :
    atMostOnePerUser [⟨1, 7, [("goals", some [])], "1.0.0", 10, 0, ⟨0, 0, []⟩, 10, 10⟩]
    ∧ atMostOnePerUser (runRequests exampleEnv
        [⟨1, 7, [("goals", some [])], "1.0.0", 10, 0, ⟨0, 0, []⟩, 10, 10⟩]
        [Request.backup 7 (.obj [("goals", .obj [])]) 30 (some "2.0.0") 3 31,
          Request.smartSync 8 (.obj [("debts", .obj [])]) none (.bool true) 4 40,
          Request.selectiveSync 7 (.obj [("budgets", .obj [])]) (.names ["budgets"]) 5 50,
          Request.deleteBackup 8,
          Request.selectiveSync 9 (.obj [("debts", .obj [])]) (.names ["debts"]) 6 60])
    ∧ (handle exampleEnv
        [⟨1, 7, [("goals", some [])], "1.0.0", 10, 0, ⟨0, 0, []⟩, 10, 10⟩]
        (Request.backup 7 (.obj [("goals", .obj [])]) 30 (some "2.0.0") 3 31)).2.map
          (fun d => d._id) = [1] :=
  ⟨atMostOnePerUser_of_nodup _ (by decide),
    (one_snapshot_per_user exampleEnv
      [⟨1, 7, [("goals", some [])], "1.0.0", 10, 0, ⟨0, 0, []⟩, 10, 10⟩]
      [Request.backup 7 (.obj [("goals", .obj [])]) 30 (some "2.0.0") 3 31,
        Request.smartSync 8 (.obj [("debts", .obj [])]) none (.bool true) 4 40,
        Request.selectiveSync 7 (.obj [("budgets", .obj [])]) (.names ["budgets"]) 5 50,
        Request.deleteBackup 8,
        Request.selectiveSync 9 (.obj [("debts", .obj [])]) (.names ["debts"]) 6 60]
      (Request.backup 7 (.obj [("goals", .obj [])]) 30 (some "2.0.0") 3 31)
      (atMostOnePerUser_of_nodup _ (by decide))).1,
    by decide⟩
/-! ## Reads, deletion and failure responses -/

/-- C11: for every user with no stored snapshot, `restore` returns the
not-found response (status 404, `success = false`, a message, no `error`, no
`data` and no other field) as an ordinary response, and leaves the store
unchanged. -/
theorem restore_not_found (env : Env) (s : Store) (u : UserId) (h : findOne s u = none) :
    restore env s u
      = (⟨404, false, some "No backup found for this user", none, none, none, none, none,
          none, none, none⟩, s) := by
  unfold restore
  rw [h]

/-- Witness of C11: user 7 has no snapshot in a store that holds one of user 8. -/
theorem restore_not_found_witness :
    findOne [⟨2, 8, [("debts", some [])], "1.0.0", 20, 0, ⟨0, 0, []⟩, 20, 20⟩] 7 = none
    ∧ restore exampleEnv [⟨2, 8, [("debts", some [])], "1.0.0", 20, 0, ⟨0, 0, []⟩, 20, 20⟩] 7
      = (⟨404, false, some "No backup found for this user", none, none, none, none, none,
          none, none, none⟩,
        [⟨2, 8, [("debts", some [])], "1.0.0", 20, 0, ⟨0, 0, []⟩, 20, 20⟩]) :=
  ⟨by decide,
    restore_not_found exampleEnv
      [⟨2, 8, [("debts", some [])], "1.0.0", 20, 0, ⟨0, 0, []⟩, 20, 20⟩] 7 (by decide)⟩

/-- C12 (defect): `status(u)` leaves the store unchanged; when `u` has no
snapshot it answers `success = true`, `hasBackup = false` and
`lastBackupTime = null`; when `u` has a stored snapshot none of whose boxes is
`null` it answers `success = true`, `hasBackup = true` and that snapshot's
`lastBackupTime` and `version`. The `stats` it answers are not those of the
stored data: they are computed from the hydrated document, so they count
fifteen boxes and, per box, the internal fields of the `Map` instance,
whatever the boxes hold. After the backup of the end-to-end scenario the
stored data has one item, and `status` reports 60 items in the example
environment. After a backup that stores `null` for the box `goals`, `status`
answers with status 500. -/
theorem status_reports_snapshot (env : Env) (s : Store) (u : UserId) :
    (status env s u).2 = s
    ∧ (findOne s u = none →
        (status env s u).1
          = ⟨200, true, none, none, none, none, some none, none, none, none, some false⟩)
    ∧ (∀ doc, findOne s u = some doc → (∀ n, n ∈ schemaBoxNames → doc.box n ≠ none) →
        (status env s u).1
          = ⟨200, true, none, none,
              some ⟨15, (schemaBoxNames.map fun n => (env.mapInternals n).length).sum,
                schemaBoxNames.map fun n => (n, (env.mapInternals n).length)⟩,
              none, some (some doc.lastBackupTime), none, some doc.version, none, some true⟩)
    ∧ ((findOne (backup exampleEnv [] 7 (.obj [("goals", .obj [("g1", .obj [("amount", .num 100)])])])
          1700000000000 (some "1.0.0") 1 1700000000500).2 7).map
            (fun doc => (calculateBackupStats doc.jsonData).toOption.map
              (fun st => (st.totalBoxes, st.totalItems)))
        = some (some (15, 1)))
    ∧ ((status exampleEnv
          (backup exampleEnv [] 7 (.obj [("goals", .obj [("g1", .obj [("amount", .num 100)])])])
            1700000000000 (some "1.0.0") 1 1700000000500).2 7).1.stats.map
            (fun st => (st.totalBoxes, st.totalItems))
        = some (15, 60))
    ∧ (backup env [] 7 (.obj [("goals", .null)]) 10 (some "1.0.0") 1 11).1.success = false
    ∧ (status env (backup env [] 7 (.obj [("goals", .null)]) 10 (some "1.0.0") 1 11).2 7).1.status
        = 500
    ∧ (status env (backup env [] 7 (.obj [("goals", .null)]) 10 (some "1.0.0") 1 11).2
        7).1.success = false := by
  refine ⟨status_snd env s u, ?_, ?_, ?_, ?_, rfl, ?_, ?_⟩
  · intro h
    unfold status
    rw [h]
  · intro doc hdoc hbox
    unfold status
    rw [hdoc]
    dsimp only
    rw [calculateBackupStats_hydratedData env doc hbox]
  · rw [backup_scenario_store]
    decide
  · rw [backup_scenario_store]
    decide
  · rw [backup_null_box_store env]
    rfl
  · rw [backup_null_box_store env]
    rfl

/-- Witness of C12: user 7 has a stored snapshot whose box `goals` holds one
item, user 8 has none. -/
theorem status_reports_snapshot_witness :
    findOne [⟨1, 7, [("goals", some [("g1", .num 100)])], "1.0.0", 10, 0, ⟨0, 0, []⟩,
        10, 10⟩] 8 = none
    ∧ (status exampleEnv [⟨1, 7, [("goals", some [("g1", .num 100)])], "1.0.0", 10, 0,
        ⟨0, 0, []⟩, 10, 10⟩] 8).1.hasBackup = some false
    ∧ (∀ n, n ∈ schemaBoxNames →
        UserBackup.box ⟨1, 7, [("goals", some [("g1", .num 100)])], "1.0.0", 10, 0,
          ⟨0, 0, []⟩, 10, 10⟩ n ≠ none)
    ∧ (status exampleEnv [⟨1, 7, [("goals", some [("g1", .num 100)])], "1.0.0", 10, 0,
          ⟨0, 0, []⟩, 10, 10⟩] 7).1
        = ⟨200, true, none, none,
            some ⟨15, (schemaBoxNames.map fun n => (exampleEnv.mapInternals n).length).sum,
              schemaBoxNames.map fun n => (n, (exampleEnv.mapInternals n).length)⟩,
            none, some (some 10), none, some "1.0.0", none, some true⟩ :=
  ⟨by decide,
    congrArg Response.hasBackup
      ((status_reports_snapshot exampleEnv [⟨1, 7, [("goals", some [("g1", .num 100)])],
        "1.0.0", 10, 0, ⟨0, 0, []⟩, 10, 10⟩] 8).2.1 (by decide)),
    by decide,
    (status_reports_snapshot exampleEnv [⟨1, 7, [("goals", some [("g1", .num 100)])],
      "1.0.0", 10, 0, ⟨0, 0, []⟩, 10, 10⟩] 7).2.2.1
      ⟨1, 7, [("goals", some [("g1", .num 100)])], "1.0.0", 10, 0, ⟨0, 0, []⟩, 10, 10⟩
      (by decide) (by decide)⟩

/-- C13: in a store with at most one snapshot per user, `deleteBackup(u)`
returns success whether or not `u` has a snapshot, afterwards `u` has no
snapshot, and a second `deleteBackup(u)` returns success again and leaves the
store as the first one left it. -/
theorem deleteBackup_twice (s : Store) (u : UserId) (h : atMostOnePerUser s) :
    (deleteBackup s u).1.success = true
    ∧ (deleteBackup s u).1.status = 200
    ∧ findOne (deleteBackup s u).2 u = none
    ∧ (deleteBackup (deleteBackup s u).2 u).1.success = true
    ∧ (deleteBackup (deleteBackup s u).2 u).1.status = 200
    ∧ (deleteBackup (deleteBackup s u).2 u).2 = (deleteBackup s u).2 := by
  have hnone : findOne (findOneAndDelete s u) u = none := findOne_findOneAndDelete s u h
  refine ⟨rfl, rfl, hnone, rfl, rfl, ?_⟩
  exact findOneAndDelete_of_none _ u hnone

/-- Witness of C13: users 7 and 8 each have one snapshot; deleting the backup
of user 7 twice leaves the snapshot of user 8 alone in the store. -/
theorem deleteBackup_twice_witness :
    atMostOnePerUser [⟨1, 7, [("goals", some [])], "1.0.0", 10, 0, ⟨0, 0, []⟩, 10, 10⟩,
      ⟨2, 8, [("debts", some [])], "1.0.0", 20, 0, ⟨0, 0, []⟩, 20, 20⟩]
    ∧ (deleteBackup (deleteBackup
        [⟨1, 7, [("goals", some [])], "1.0.0", 10, 0, ⟨0, 0, []⟩, 10, 10⟩,
          ⟨2, 8, [("debts", some [])], "1.0.0", 20, 0, ⟨0, 0, []⟩, 20, 20⟩] 7).2 7).2
      = [⟨2, 8, [("debts", some [])], "1.0.0", 20, 0, ⟨0, 0, []⟩, 20, 20⟩] :=
  ⟨atMostOnePerUser_of_nodup _ (by decide),
    ((deleteBackup_twice
      [⟨1, 7, [("goals", some [])], "1.0.0", 10, 0, ⟨0, 0, []⟩, 10, 10⟩,
        ⟨2, 8, [("debts", some [])], "1.0.0", 20, 0, ⟨0, 0, []⟩, 20, 20⟩] 7
      (atMostOnePerUser_of_nodup _ (by decide))).2.2.2.2.2).trans (by decide)⟩

/-- C14 (defect): on data with the empty box `boxA` and the null box `boxB`
the stats calculator throws the `TypeError` of `Object.keys(null)` and the
backup handler answers 500, although the empty box alone is counted with zero
items and the `pre('save')` hook, with its guard, tolerates the null box. -/
theorem calculateBackupStats_throws_on_null_box (env : Env) :
    calculateBackupStats (.obj [("boxA", .obj []), ("boxB", .null)])
      = .error nullishToObjectError
    ∧ calculateBackupStats (.obj [("boxA", .obj [])]) = .ok ⟨1, 0, [("boxA", 0)]⟩
    ∧ preSaveLoop [("boxA", .obj []), ("boxB", .null)] ⟨0, 0, []⟩
      = .ok ⟨1, 0, [("boxA", 0)]⟩
    ∧ (backup env [] 7 (.obj [("boxA", .obj []), ("boxB", .null)]) 10 (some "1.0.0") 1 11).1
      = failureResponse "Backup failed" nullishToObjectError :=
  ⟨by decide, by decide, by decide, rfl⟩

/-- C19 (counterexample): for `boxA` with two items and the empty `boxB`, the
stats calculator reports `totalBoxes = 2`, while only one box is non-empty. -/
theorem totalBoxes_counts_empty_box :
    nonEmptyBoxCount [("boxA", .obj [("k1", .num 1), ("k2", .num 2)]), ("boxB", .obj [])] = 1
    ∧ ∃ st, calculateBackupStats
          (.obj [("boxA", .obj [("k1", .num 1), ("k2", .num 2)]), ("boxB", .obj [])]) = .ok st
        ∧ st.totalBoxes = 2
        ∧ st.totalBoxes
          ≠ nonEmptyBoxCount
              [("boxA", .obj [("k1", .num 1), ("k2", .num 2)]), ("boxB", .obj [])] :=
  ⟨by decide, ⟨⟨2, 2, [("boxA", 2), ("boxB", 0)]⟩, by decide, rfl, by decide⟩⟩

/-- C19 (amended): for every snapshot `data`, the `totalBoxes` value that the
stats calculator `calculateBackupStats` reports is the count of all top-level
boxes of `data`: the non-empty boxes and the boxes with zero items
together. -/
theorem totalBoxes_counts_every_box (boxes : Props JsValue)
    (h : isSnapshot (.obj boxes) = true) :
    ∃ st, calculateBackupStats (.obj boxes) = .ok st
      ∧ st.totalBoxes = boxes.length
      ∧ st.totalBoxes = nonEmptyBoxCount boxes + emptyBoxCount boxes :=
  ⟨_, calculateBackupStats_on_snapshot boxes h, rfl, (nonEmpty_add_empty_boxCount boxes).symm⟩

/-- Witness of C19 (amended): the snapshot with `boxA` of two items and the
empty `boxB` has `totalBoxes = 2`. -/
theorem totalBoxes_counts_every_box_witness :
    isSnapshot (.obj [("boxA", .obj [("k1", .num 1), ("k2", .num 2)]), ("boxB", .obj [])])
      = true
    ∧ ∃ st, calculateBackupStats
          (.obj [("boxA", .obj [("k1", .num 1), ("k2", .num 2)]), ("boxB", .obj [])]) = .ok st
        ∧ st.totalBoxes = 2
        ∧ st.totalBoxes
          = nonEmptyBoxCount
              [("boxA", .obj [("k1", .num 1), ("k2", .num 2)]), ("boxB", .obj [])]
            + emptyBoxCount
              [("boxA", .obj [("k1", .num 1), ("k2", .num 2)]), ("boxB", .obj [])] :=
  ⟨by decide,
    totalBoxes_counts_every_box
      [("boxA", .obj [("k1", .num 1), ("k2", .num 2)]), ("boxB", .obj [])] (by decide)⟩
/-- C20: for every user, prior store and data `d`, two backups in a row with
the same `d` (whatever their timestamps and versions) answer with the same
outcome and the same stats, namely `calculateBackupStats(d)` when the update
passes the cast of the schema and none when it is refused, and the stored
data of the user after the second call is the stored data after the first. -/
theorem backup_twice_same_data (s : Store) (u : UserId) (d : JsValue) (t1 t2 : Date)
    (v1 v2 : Option String) (id1 id2 : Nat) (now1 now2 : Date) :
    (backup env s u d t1 v1 id1 now1).1.stats
        = (match castUpdateData env d with
          | .error _ => none
          | .ok _ => (calculateBackupStats d).toOption)
    ∧ (backup env (backup env s u d t1 v1 id1 now1).2 u d t2 v2 id2 now2).1.stats
        = (backup env s u d t1 v1 id1 now1).1.stats
    ∧ (backup env (backup env s u d t1 v1 id1 now1).2 u d t2 v2 id2 now2).1.success
        = (backup env s u d t1 v1 id1 now1).1.success
    ∧ (findOne (backup env (backup env s u d t1 v1 id1 now1).2 u d t2 v2 id2 now2).2 u).map
          (fun doc => doc.data)
        = (findOne (backup env s u d t1 v1 id1 now1).2 u).map (fun doc => doc.data)
    ∧ (backup env (backup env s u d t1 v1 id1 now1).2 u d t2 v2 id2 now2).2.length
        = (backup env s u d t1 v1 id1 now1).2.length := by
  cases hc : castUpdateData env d with
  | error e =>
    rw [backup_of_cast_error env s u d t1 v1 id1 now1 e hc,
      backup_of_cast_error env s u d t2 v2 id2 now2 e hc]
    exact ⟨rfl, rfl, rfl, rfl, rfl⟩
  | ok boxes =>
    obtain ⟨a1, a2, a3⟩ := backup_of_cast_ok env s u d t1 v1 id1 now1 boxes hc
    obtain ⟨b1, b2, b3⟩ :=
      backup_of_cast_ok env (backup env s u d t1 v1 id1 now1).2 u d t2 v2 id2 now2 boxes hc
    have hf1 := backup_stored env s u d t1 v1 id1 now1 boxes hc
    have hf2 := backup_stored env (backup env s u d t1 v1 id1 now1).2 u d t2 v2 id2 now2 boxes hc
    refine ⟨a2, by rw [b2, a2], by rw [b3, a3], ?_, ?_⟩
    · rw [hf2, hf1]
      cases boxes <;> rfl
    · rcases backup_cases env (backup env s u d t1 v1 id1 now1).2 u d t2 v2 id2 now2 with h | ⟨doc3, h⟩
      · rw [h.2]
      · exact (h.2.2.2.2 (by rw [hf1]; exact fun e => by cases e)).1

/-- C16 (counterexample): a selective sync without `boxNames`, a selective
sync whose `boxNames` is no array, a backup whose `data` is `null` and a
selective sync whose `data` is `null` are each answered with status 500 and
the fixed message of the handler, not with a 4xx status. -/
theorem malformed_sync_input_gets_500 :
    ((selectiveSync exampleEnv [] 7 (.obj [("goals", .obj [])]) .undefined 1 10).1.status = 500
      ∧ (selectiveSync exampleEnv [] 7 (.obj [("goals", .obj [])]) .undefined 1 10).1.message
        = some "Selective sync failed"
      ∧ Response.isClientError
          (selectiveSync exampleEnv [] 7 (.obj [("goals", .obj [])]) .undefined 1 10).1 = false)
    ∧ ((selectiveSync exampleEnv [] 7 (.obj [("goals", .obj [])]) .notArray 1 10).1.status = 500
      ∧ Response.isClientError
          (selectiveSync exampleEnv [] 7 (.obj [("goals", .obj [])]) .notArray 1 10).1 = false)
    ∧ ((backup exampleEnv [] 7 .null 10 (some "1.0.0") 1 11).1.status = 500
      ∧ (backup exampleEnv [] 7 .null 10 (some "1.0.0") 1 11).1.message = some "Backup failed"
      ∧ Response.isClientError (backup exampleEnv [] 7 .null 10 (some "1.0.0") 1 11).1 = false)
    ∧ ((selectiveSync exampleEnv [] 7 .null (.names ["goals"]) 1 10).1.status = 500
      ∧ (selectiveSync exampleEnv [] 7 .null (.names ["goals"]) 1 10).1.message
        = some "Selective sync failed"
      ∧ Response.isClientError (selectiveSync exampleEnv [] 7 .null (.names ["goals"]) 1 10).1
        = false) := by
  decide

/-- C16 (amended): every selective sync whose `boxNames` is missing, `null` or
not an array, every backup whose `data` is `null` or missing, and every
selective sync whose `data` is `null` or missing while `boxNames` names at
least one box, is answered by the `catch` block of its handler: status 500,
`success = false`, the handler's fixed message and the message of the thrown
error; the selective sync leaves the store unchanged. No sync operation
answers with a 4xx status, except `restore` with 404 for a user without a
snapshot. -/
theorem malformed_input_is_server_failure (env : Env) (s : Store)
    (u : UserId) (data : JsValue) (t : Date) (ver : Option String) (n : String)
    (names : List String) (newId : Nat) (now : Date) (r : Request) :
    (∃ e, selectiveSync env s u data .undefined newId now
        = (failureResponse "Selective sync failed" e, s))
    ∧ (∃ e, selectiveSync env s u data .null newId now
        = (failureResponse "Selective sync failed" e, s))
    ∧ (∃ e, selectiveSync env s u data .notArray newId now
        = (failureResponse "Selective sync failed" e, s))
    ∧ (∃ e, (backup env s u .null t ver newId now).1 = failureResponse "Backup failed" e)
    ∧ (∃ e, (backup env s u .undefined t ver newId now).1 = failureResponse "Backup failed" e)
    ∧ (∃ e, selectiveSync env s u .null (.names (n :: names)) newId now
        = (failureResponse "Selective sync failed" e, s))
    ∧ (∃ e, selectiveSync env s u .undefined (.names (n :: names)) newId now
        = (failureResponse "Selective sync failed" e, s))
    ∧ (∀ msg e, (failureResponse msg e).status = 500
        ∧ (failureResponse msg e).success = false
        ∧ (failureResponse msg e).message = some msg
        ∧ (failureResponse msg e).error = some e)
    ∧ (Response.isClientError (handle env s r).1 = false
        ∨ ((handle env s r).1.status = 404 ∧ r = .restore r.user
            ∧ findOne s r.user = none)) := by
  refine ⟨⟨_, rfl⟩, ⟨_, rfl⟩, ⟨_, rfl⟩, ⟨_, rfl⟩, ⟨_, rfl⟩,
    ⟨nullishReadError "null" n, ?_⟩, ⟨nullishReadError "undefined" n, ?_⟩,
    fun _ _ => ⟨rfl, rfl, rfl, rfl⟩, ?_⟩
  · simp only [selectiveSync, forEachBoxName, selectiveLoop, JsValue.getProp]
  · simp only [selectiveSync, forEachBoxName, selectiveLoop, JsValue.getProp]
  · rcases handle_response_shape env s r with h | h | h
    · left
      simp [Response.isClientError, h.2]
    · left
      simp [Response.isClientError, h.2.1]
    · exact Or.inr ⟨h.2.1, h.2.2.2.2.1, h.2.2.2.2.2⟩

/-- C17 (counterexample): the not-found response of `restore` has
`success = false` and a message, but no `error` field. -/
theorem notFound_response_lacks_error_field :
    (restore exampleEnv [] 7).1.success = false
    ∧ (restore exampleEnv [] 7).1.message = some "No backup found for this user"
    ∧ (restore exampleEnv [] 7).1.error = none := by
  decide

/-- C17 (amended): for each of the six sync operations, every input and every
store, a response with `success = false` carries a message; it carries an
`error` field when it comes from a `catch` block (status 500), and it is the
not-found response of `restore` (status 404, for a user without a snapshot)
otherwise, which carries a message and no `error` field. -/
theorem failure_response_shape (env : Env) (s : Store) (r : Request)
    (h : (handle env s r).1.success = false) :
    (handle env s r).1.message.isSome = true
    ∧ (((handle env s r).1.status = 500
          ∧ (handle env s r).1.error.isSome = true)
        ∨ ((handle env s r).1.status = 404
          ∧ (handle env s r).1.error = none
          ∧ r = .restore r.user ∧ findOne s r.user = none)) := by
  rcases handle_response_shape env s r with h1 | h1 | h1
  · rw [h1.1] at h
    cases h
  · exact ⟨h1.2.2.1, Or.inl ⟨h1.2.1, h1.2.2.2⟩⟩
  · refine ⟨?_, Or.inr ⟨h1.2.1, h1.2.2.2.1, h1.2.2.2.2.1, h1.2.2.2.2.2⟩⟩
    rw [h1.2.2.1]
    rfl

/-- Witness of C17 (amended): a backup whose data holds a null box fails in
its `catch` block, with status 500, a message and an error. -/
theorem failure_response_shape_witness :
    (handle exampleEnv []
      (Request.backup 7 (.obj [("boxB", .null)]) 10 (some "1.0.0") 1 11)).1.success = false
    ∧ (handle exampleEnv []
      (Request.backup 7 (.obj [("boxB", .null)]) 10 (some "1.0.0") 1 11)).1.message.isSome
        = true
    ∧ (handle exampleEnv []
      (Request.backup 7 (.obj [("boxB", .null)]) 10 (some "1.0.0") 1 11)).1.error
        = some nullishToObjectError :=
  ⟨by decide,
    (failure_response_shape exampleEnv []
      (Request.backup 7 (.obj [("boxB", .null)]) 10 (some "1.0.0") 1 11) (by decide)).1,
    by decide⟩

/-- C18 (counterexample): user 7 has no snapshot in a store that holds one of
user 8, and `restore` answers with `success = false` and status 404. -/
theorem restore_without_backup_is_failure :
    findOne [⟨2, 8, [("debts", some [])], "1.0.0", 20, 0, ⟨0, 0, []⟩, 20, 20⟩] 7 = none
    ∧ (restore exampleEnv
        [⟨2, 8, [("debts", some [])], "1.0.0", 20, 0, ⟨0, 0, []⟩, 20, 20⟩] 7).1.success
      ≠ true
    ∧ (restore exampleEnv
        [⟨2, 8, [("debts", some [])], "1.0.0", 20, 0, ⟨0, 0, []⟩, 20, 20⟩] 7).1.status
      = 404 := by
  decide

/-- C18 (amended): for every user with no stored snapshot, `restore` answers
with a failure response, `success = false` with status 404, whose message
`No backup found for this user` is the no-backup indicator; the operation that
reports a missing snapshot in a success response is `status`
(`success = true`, `hasBackup = false`). -/
theorem restore_without_backup_is_404 (env : Env) (s : Store) (u : UserId)
    (h : findOne s u = none) :
    (restore env s u).1.success = false
    ∧ (restore env s u).1.status = 404
    ∧ (restore env s u).1.message = some "No backup found for this user"
    ∧ (restore env s u).1.hasBackup = none
    ∧ (status env s u).1.success = true
    ∧ (status env s u).1.status = 200
    ∧ (status env s u).1.hasBackup = some false := by
  unfold restore status
  rw [h]
  exact ⟨rfl, rfl, rfl, rfl, rfl, rfl, rfl⟩

/-- Witness of C18 (amended): the empty store and user 7. -/
theorem restore_without_backup_is_404_witness :
    findOne [] 7 = none
    ∧ (restore exampleEnv [] 7).1.success = false
    ∧ (restore exampleEnv [] 7).1.status = 404
    ∧ (status exampleEnv [] 7).1.hasBackup = some false :=
  ⟨by decide, (restore_without_backup_is_404 exampleEnv [] 7 (by decide)).1,
    (restore_without_backup_is_404 exampleEnv [] 7 (by decide)).2.1,
    (restore_without_backup_is_404 exampleEnv [] 7 (by decide)).2.2.2.2.2.2⟩
/-! ## Properties of the merge, of failures and of the hook -/

/-- C21: for every local and cloud value and every `preferCloud` flag, the
result of `mergeData` is the same for any two values of `lastSyncTime` and of
`cloudLastSync`, and so are the response and the store of `smartSync` for any
two values of `lastSyncTime`. -/
theorem mergeData_ignores_timestamps (env : Env) (localData cloudData preferCloud : JsValue)
    (t1 t2 c1 c2 : Option Nat) (s : Store) (u : UserId) (lst1 lst2 : Option Date)
    (newId : Nat) (now : Date) :
    mergeData localData cloudData ⟨t1, c1, preferCloud⟩
      = mergeData localData cloudData ⟨t2, c2, preferCloud⟩
    ∧ smartSync env s u localData lst1 preferCloud newId now
      = smartSync env s u localData lst2 preferCloud newId now :=
  ⟨rfl, rfl⟩

/-- C28: for every pair of objects `a` and `b` (in particular snapshots),
`mergeData(a, b)` with cloud preferred and `mergeData(b, a)` with local
preferred return objects with the same box names and, under every box name,
the same box: they are equal as box-to-item mappings. -/
theorem mergeData_swap (a b : Props JsValue) (t1 t2 c1 c2 : Option Nat) :
    ∃ m1 m2, mergeData (.obj a) (.obj b) ⟨t1, c1, .bool true⟩ = .ok (.obj m1)
      ∧ mergeData (.obj b) (.obj a) ⟨t2, c2, .bool false⟩ = .ok (.obj m2)
      ∧ (∀ x, x ∈ objKeys m1 ↔ x ∈ objKeys m2)
      ∧ (∀ x, objGet m1 x = objGet m2 x)
      ∧ (∀ x k, itemOf m1 x k = itemOf m2 x k) := by
  have hget : ∀ x, objGet (mergedBoxes a b (preferCloudOf ⟨t1, c1, .bool true⟩)) x
      = objGet (mergedBoxes b a (preferCloudOf ⟨t2, c2, .bool false⟩)) x := by
    intro x
    rw [objGet_mergedBoxes, objGet_mergedBoxes]
    by_cases h1 : x ∈ objKeys a <;> by_cases h2 : x ∈ objKeys b <;>
      by_cases h3 : x = "__proto__" <;>
      simp [h1, h2, h3, mergedBoxOf, preferCloudOf, JsValue.truthy]
  refine ⟨_, _, mergeData_obj a b _, mergeData_obj b a _, ?_, hget, ?_⟩
  · intro x
    rw [mem_objKeys_mergedBoxes, mem_objKeys_mergedBoxes]
    constructor
    · exact fun h => ⟨h.1.symm, h.2⟩
    · exact fun h => ⟨h.1.symm, h.2⟩
  · intro x k
    unfold itemOf
    rw [hget x]

/-- C26 (defect): a backup whose data holds `null` for the schema box `goals`
is answered with `success = false`, yet the write has been applied: user 7 had
no snapshot and has one afterwards, whose box `goals` is `null`, and for user 8
the stored box, the version and `lastBackupTime` have been replaced. -/
theorem failed_backup_leaves_write (env : Env) :
    (backup env [] 7 (.obj [("goals", .null)]) 10 (some "1.0.0") 1 11).1
      = failureResponse "Backup failed" nullishToObjectError
    ∧ findOne [] 7 = none
    ∧ findOne (backup env [] 7 (.obj [("goals", .null)]) 10 (some "1.0.0") 1 11).2 7
      = some ⟨1, 7, schemaBoxNames.map (fun n => (n, if n = "goals" then none else some [])),
          "1.0.0", 10, 0, ⟨0, 0, []⟩, 11, 11⟩
    ∧ (backup env [⟨2, 8, [("goals", some [("a", .num 1)])], "1.0.0", 20, 0, ⟨0, 0, []⟩, 20, 20⟩]
        8 (.obj [("goals", .null)]) 30 (some "2.0.0") 3 31).1.success = false
    ∧ storedBox [⟨2, 8, [("goals", some [("a", .num 1)])], "1.0.0", 20, 0, ⟨0, 0, []⟩, 20,
        20⟩] 8 "goals" = some (some [("a", .num 1)])
    ∧ findOne (backup env
        [⟨2, 8, [("goals", some [("a", .num 1)])], "1.0.0", 20, 0, ⟨0, 0, []⟩, 20, 20⟩]
        8 (.obj [("goals", .null)]) 30 (some "2.0.0") 3 31).2 8
      = some ⟨2, 8, schemaBoxNames.map (fun n => (n, if n = "goals" then none else some [])),
          "2.0.0", 30, 0, ⟨0, 0, []⟩, 20, 31⟩ := by
  refine ⟨rfl, rfl, ?_, rfl, by decide, rfl⟩
  rw [backup_null_box_store env]
  rfl

/-- C29 (defect): the loop of the `pre('save')` hook is the loop of
`calculateBackupStats` run on the entries whose value is a non-null object,
but the hook runs it on `this.data.toObject()`, whose boxes are native maps
without enumerable keys, so the hook stores `totalItems = 0` on every
document. A selective sync of `goals: (g1: 100)` into the empty store saves a
document whose box `goals` holds the item and whose stats count fifteen boxes
and no item, where `calculateBackupStats` of the data sent counts one box and
one item and of the stored data fifteen boxes and one item. -/
theorem preSave_stats_differ_from_calculateBackupStats :
    (∀ (entries : Props JsValue) (st0 : Stats),
        preSaveLoop entries st0
          = calculateBackupStatsLoop (entries.filter fun kv => isNonNullObject kv.2) st0)
    ∧ (∀ (env : Env) (doc : UserBackup) (now : Date),
        ∃ saved, preSave env doc now = .ok saved ∧ saved.stats.totalItems = 0)
    ∧ (selectiveSync exampleEnv [] 7 (.obj [("goals", .obj [("g1", .num 100)])])
        (.names ["goals"]) 1 10).1.success = true
    ∧ (findOne (selectiveSync exampleEnv [] 7 (.obj [("goals", .obj [("g1", .num 100)])])
        (.names ["goals"]) 1 10).2 7).map
          (fun d => (d.box "goals", d.stats.totalBoxes, d.stats.totalItems))
      = some (some [("g1", .num 100)], 15, 0)
    ∧ calculateBackupStats (.obj [("goals", .obj [("g1", .num 100)])])
      = .ok ⟨1, 1, [("goals", 1)]⟩
    ∧ (findOne (selectiveSync exampleEnv [] 7 (.obj [("goals", .obj [("g1", .num 100)])])
        (.names ["goals"]) 1 10).2 7).map
          (fun d => (calculateBackupStats d.jsonData).toOption.map
            (fun st => (st.totalBoxes, st.totalItems)))
      = some (some (15, 1)) := by
  have hs : (selectiveSync exampleEnv [] 7 (.obj [("goals", .obj [("g1", .num 100)])])
      (.names ["goals"]) 1 10).2
      = [⟨1, 7, schemaBoxNames.map (fun n => (n, if n = "goals" then
          some [("g1", JsValue.num 100)] else some [])), "1.0.0", 10, 0,
          ⟨15, 0, schemaBoxNames.map (fun n => (n, 0))⟩, 10, 10⟩] := by decide
  rw [hs]
  exact ⟨preSaveLoop_eq_filter, preSave_totalItems, by decide, by decide, by decide,
    by decide⟩

/-- C27 (defect): for every local snapshot `l`, cloud snapshot `c` and
`preferCloud` flag `p`, `mergeData(l, mergeData(l, c, p), p)` returns exactly
what `mergeData(l, c, p)` returns. Two smart syncs in a row do not return the
same `mergedData`: the first one, into the empty store, returns the merge and
stores it, and the second one merges with the hydrated document, is refused by
the database layer and is answered with status 500 and no `mergedData`; it
leaves the store as it was. -/
theorem mergeData_idempotent (l c : Props JsValue) (p : JsValue) (t1 t2 : Option Nat)
    (hl : isSnapshot (.obj l) = true) (hc : isSnapshot (.obj c) = true) :
    (∃ m, mergeData (.obj l) (.obj c) ⟨t1, t2, p⟩ = .ok m
      ∧ mergeData (.obj l) m ⟨t1, t2, p⟩ = .ok m)
    ∧ (smartSync exampleEnv [] 7 (.obj [("goals", .obj [("g2", .num 2)])]) none (.bool false)
        1 10).1.mergedData = some (.obj [("goals", .obj [("g2", .num 2)])])
    ∧ (smartSync exampleEnv
        (smartSync exampleEnv [] 7 (.obj [("goals", .obj [("g2", .num 2)])]) none
          (.bool false) 1 10).2
        7 (.obj [("goals", .obj [("g2", .num 2)])]) none (.bool false) 2 20).1
      = failureResponse "Smart sync failed" .database
    ∧ (smartSync exampleEnv
        (smartSync exampleEnv [] 7 (.obj [("goals", .obj [("g2", .num 2)])]) none
          (.bool false) 1 10).2
        7 (.obj [("goals", .obj [("g2", .num 2)])]) none (.bool false) 2 20).2
      = (smartSync exampleEnv [] 7 (.obj [("goals", .obj [("g2", .num 2)])]) none
          (.bool false) 1 10).2 := by
  have hs : (smartSync exampleEnv [] 7 (.obj [("goals", .obj [("g2", .num 2)])]) none
      (.bool false) 1 10).2
      = [⟨1, 7, schemaBoxNames.map (fun n => (n, if n = "goals" then
          some [("g2", JsValue.num 2)] else some [])), "1.0.0", 10, 0, ⟨0, 0, []⟩, 10,
          10⟩] := by decide
  refine ⟨⟨_, mergeData_obj l c ⟨t1, t2, p⟩, ?_⟩, by decide, ?_, ?_⟩
  · rw [mergeData_obj, mergedBoxes_again l c _ hl hc]
  · rw [hs]
    decide
  · rw [hs]
    decide

/-- Witness of C27: the local snapshot `boxA: (k1: "L"), boxB: (x: 1)` and the
cloud snapshot `boxA: (k1: "C", k2: "C2")`, merged with cloud preferred. -/
theorem mergeData_idempotent_witness :
    isSnapshot (.obj [("boxA", .obj [("k1", .str "L")]), ("boxB", .obj [("x", .num 1)])]) = true
    ∧ isSnapshot (.obj [("boxA", .obj [("k1", .str "C"), ("k2", .str "C2")])]) = true
    ∧ ∃ m, mergeData
          (.obj [("boxA", .obj [("k1", .str "L")]), ("boxB", .obj [("x", .num 1)])])
          (.obj [("boxA", .obj [("k1", .str "C"), ("k2", .str "C2")])])
          ⟨none, none, .bool true⟩ = .ok m
        ∧ mergeData
          (.obj [("boxA", .obj [("k1", .str "L")]), ("boxB", .obj [("x", .num 1)])]) m
          ⟨none, none, .bool true⟩ = .ok m :=
  ⟨by decide, by decide,
    (mergeData_idempotent
      [("boxA", .obj [("k1", .str "L")]), ("boxB", .obj [("x", .num 1)])]
      [("boxA", .obj [("k1", .str "C"), ("k2", .str "C2")])]
      (.bool true) none none (by decide) (by decide)).1⟩
/-! ## Services, usage and rate limits -/

/-- C22 (defect): for a service with `usageLimit.free = 10` and
`usageLimit.premium = null`, `getUsageLimit('premium')` returns 10, not `null`,
and `hasRemainingUsage` denies a premium user whose `usageCount` is 10 (it
still admits one whose `usageCount` is 9). -/
theorem getUsageLimit_null_falls_back_to_free :
    getUsageLimit ⟨true, "premium", ⟨some 10, none⟩⟩ "premium" = .num 10
    ∧ hasRemainingUsage ⟨true, "premium", ⟨some 10, none⟩⟩ (some ⟨10, none, []⟩) "premium"
      = false
    ∧ hasRemainingUsage ⟨true, "premium", ⟨some 10, none⟩⟩ (some ⟨9, none, []⟩) "premium"
      = true
    ∧ getUsageLimit ⟨true, "premium", ⟨none, none⟩⟩ "premium" = .null
    ∧ hasRemainingUsage ⟨true, "premium", ⟨none, none⟩⟩ (some ⟨10, none, []⟩) "premium"
      = true := by
  decide

/-- C24: `isAccessibleFor` returns false for an inactive service; for an active
service it returns true for tier `free` and for tier `both` whatever the
subscription type, true for tier `premium` exactly when the subscription type
is `premium`, and false for any other tier value. -/
theorem isAccessibleFor_spec (svc : Service) (subscriptionType : String) :
    (svc.isActive = false → isAccessibleFor svc subscriptionType = false)
    ∧ (svc.isActive = true → svc.subscriptionTier = "free" →
        isAccessibleFor svc subscriptionType = true)
    ∧ (svc.isActive = true → svc.subscriptionTier = "both" →
        isAccessibleFor svc subscriptionType = true)
    ∧ (svc.isActive = true → svc.subscriptionTier = "premium" →
        (isAccessibleFor svc subscriptionType = true ↔ subscriptionType = "premium"))
    ∧ (svc.isActive = true → svc.subscriptionTier ≠ "free" →
        svc.subscriptionTier ≠ "premium" → svc.subscriptionTier ≠ "both" →
        isAccessibleFor svc subscriptionType = false) := by
  refine ⟨?_, ?_, ?_, ?_, ?_⟩
  · intro h
    simp [isAccessibleFor, h]
  · intro h ht
    simp [isAccessibleFor, h, ht]
  · intro h ht
    simp [isAccessibleFor, h, ht]
  · intro h ht
    simp [isAccessibleFor, h, ht]
  · intro h h1 h2 h3
    simp [isAccessibleFor, h, h1, h2, h3]

/-- Witness of C24: an active `premium` service is accessible for a premium
subscription and not for a free one; inactive, it is accessible for neither. -/
theorem isAccessibleFor_spec_witness :
    isAccessibleFor ⟨true, "premium", ⟨some 10, none⟩⟩ "premium" = true
    ∧ isAccessibleFor ⟨true, "premium", ⟨some 10, none⟩⟩ "free" = false
    ∧ isAccessibleFor ⟨false, "premium", ⟨some 10, none⟩⟩ "premium" = false :=
  ⟨((isAccessibleFor_spec ⟨true, "premium", ⟨some 10, none⟩⟩ "premium").2.2.2.1 rfl rfl).2 rfl,
    by decide,
    (isAccessibleFor_spec ⟨false, "premium", ⟨some 10, none⟩⟩ "premium").1 rfl⟩

/-- C25 (defect): `rateLimiter('settings', 5, 10)` and
`rateLimiter('general', 5, 10)`, the calls of the two bulk routes, do not
return a limiter of 5 requests per 10 minutes: the first is the predefined
`settings` limiter, 10 requests per 10 minutes, and the second the predefined
`general` limiter, 100 requests per 15 minutes. For every type that is neither
one of the four predefined ones nor the name of a property that the table
inherits from `Object.prototype`, the limiter returned is configured with the
given `max` and a window of the given number of minutes; for the name of an
inherited property, such as `toString`, the value returned is that property
and no limiter. -/
theorem rateLimiter_config (limiterType : String) (maxRequests windowMinutes : Nat) :
    (limiterType ∉ objKeys rateLimiters → limiterType ∉ objectPrototypeNames →
        rateLimiter limiterType maxRequests windowMinutes
          = .configured ⟨windowMinutes * 60 * 1000, maxRequests, limiterType⟩)
    ∧ rateLimiter "general" maxRequests windowMinutes
      = .configured ⟨15 * 60 * 1000, 100, "general"⟩
    ∧ rateLimiter "usage" maxRequests windowMinutes
      = .configured ⟨15 * 60 * 1000, 50, "usage:serviceId"⟩
    ∧ rateLimiter "stats" maxRequests windowMinutes = .configured ⟨5 * 60 * 1000, 20, "stats"⟩
    ∧ rateLimiter "settings" maxRequests windowMinutes
      = .configured ⟨10 * 60 * 1000, 10, "settings"⟩
    ∧ rateLimiter "settings" 5 10 = .configured ⟨600000, 10, "settings"⟩
    ∧ rateLimiter "settings" 5 10 ≠ .configured ⟨10 * 60 * 1000, 5, "settings"⟩
    ∧ rateLimiter "general" 5 10 = .configured ⟨900000, 100, "general"⟩
    ∧ rateLimiter "general" 5 10 ≠ .configured ⟨10 * 60 * 1000, 5, "general"⟩
    ∧ rateLimiter "toString" maxRequests windowMinutes = .inherited "toString" := by
  refine ⟨?_, rfl, rfl, rfl, rfl, by decide, by decide, by decide, by decide, rfl⟩
  intro h1 h2
  have hget : objGet rateLimiters limiterType = none := (objGet_eq_none_iff _ _).2 h1
  simp only [rateLimiter, rateLimitersIndex, hget, h2, if_false, createRateLimiter]

/-- Witness of C25: the type `bulk` is neither predefined nor inherited, so
`rateLimiter('bulk', 5, 10)` allows 5 requests per 10 minutes. -/
theorem rateLimiter_config_witness :
    "bulk" ∉ objKeys rateLimiters ∧ "bulk" ∉ objectPrototypeNames
    ∧ rateLimiter "bulk" 5 10 = .configured ⟨10 * 60 * 1000, 5, "bulk"⟩ :=
  ⟨by decide, by decide, (rateLimiter_config "bulk" 5 10).1 (by decide) (by decide)⟩

/-- C23 (counterexample): a record whose history has exactly 100 entries
(dated 0 to 99). After `incrementUsage` the history has 100 entries and starts
with the entry dated 1: the oldest entry is gone, so the history is not the
last 100 entries of the old history followed by the new entry, which would be
101 entries. -/
theorem incrementUsage_drops_oldest_of_100 :
    ((List.range 100).map fun i => (⟨i, "a", .obj []⟩ : UsageEntry)).length = 100
    ∧ (incrementUsage ⟨100, none, (List.range 100).map fun i => ⟨i, "a", .obj []⟩⟩
        (some "x") none 500 500).usageHistory.length = 100
    ∧ (incrementUsage ⟨100, none, (List.range 100).map fun i => ⟨i, "a", .obj []⟩⟩
        (some "x") none 500 500).usageHistory.head? = some ⟨1, "a", .obj []⟩
    ∧ (sliceLast 100 ((List.range 100).map fun i => (⟨i, "a", .obj []⟩ : UsageEntry))
        ++ [usageEntry (some "x") none 500]).length = 101
    ∧ (incrementUsage ⟨100, none, (List.range 100).map fun i => ⟨i, "a", .obj []⟩⟩
        (some "x") none 500 500).usageHistory
      ≠ sliceLast 100 ((List.range 100).map fun i => (⟨i, "a", .obj []⟩ : UsageEntry))
        ++ [usageEntry (some "x") none 500] := by
  have hlen : ((List.range 100).map fun i => (⟨i, "a", .obj []⟩ : UsageEntry)).length = 100 := by
    simp
  have hhist := incrementUsage_history
    ⟨100, none, (List.range 100).map fun i => ⟨i, "a", .obj []⟩⟩ (some "x") none 500 500
  have hlen2 : (incrementUsage ⟨100, none, (List.range 100).map fun i => ⟨i, "a", .obj []⟩⟩
      (some "x") none 500 500).usageHistory.length = 100 := by
    rw [hhist]
    simp [sliceLast]
  have hlen3 : (sliceLast 100 ((List.range 100).map fun i => (⟨i, "a", .obj []⟩ : UsageEntry))
      ++ [usageEntry (some "x") none 500]).length = 101 := by
    simp [sliceLast]
  refine ⟨hlen, hlen2, ?_, hlen3, ?_⟩
  · rw [hhist]
    decide
  · intro e
    have := congrArg List.length e
    rw [hlen2, hlen3] at this
    omega

/-- C23 (amended): for every user-service record with usage history `h` and
every action, after `incrementUsage(action, details)` the `usageCount` is one
more than before, the last history entry is the new entry carrying that
action (`general` when omitted), and the history has at most 100 entries,
namely the last 99 of `h` followed by the new entry, in their original order. -/
theorem incrementUsage_spec (us : UserService) (action : Option String)
    (details : Option JsValue) (now entryDate : Date) :
    (incrementUsage us action details now entryDate).usageCount = us.usageCount + 1
    ∧ (incrementUsage us action details now entryDate).usageHistory.getLast?
        = some (usageEntry action details entryDate)
    ∧ (usageEntry action details entryDate).action = action.getD "general"
    ∧ (incrementUsage us action details now entryDate).usageHistory.length ≤ 100
    ∧ (incrementUsage us action details now entryDate).usageHistory
        = sliceLast 99 us.usageHistory ++ [usageEntry action details entryDate] := by
  have hhist := incrementUsage_history us action details now entryDate
  refine ⟨rfl, ?_, rfl, ?_, hhist⟩
  · rw [hhist]
    simp
  · rw [hhist]
    simp only [sliceLast, List.length_append, List.length_drop, List.length_singleton]
    omega

/-- C30: when the name was modified, the `pre('save')` hook stores the slug
expression of the name; for every service name that slug consists only of
the characters `a-z`, `0-9` and `-`, neither starts nor ends with `-`, has no
two `-` in a row, and, the builtin `toLowerCase` leaving strings over
`[a-z0-9-]` as they are, deriving a slug from the slug returns the slug. -/
theorem slugOf_spec (toLowerCase : List Char → List Char) (name old : List Char) :
    servicePreSave toLowerCase true name old = slugOf toLowerCase name
    ∧ (∀ ch ∈ slugOf toLowerCase name, isSlugAlnum ch = true ∨ ch = '-')
    ∧ (slugOf toLowerCase name).head? ≠ some '-'
    ∧ (slugOf toLowerCase name).getLast? ≠ some '-'
    ∧ List.Chain' (fun x y => ¬ (x = '-' ∧ y = '-')) (slugOf toLowerCase name)
    ∧ ((∀ s : List Char, (∀ ch ∈ s, isSlugAlnum ch = true ∨ ch = '-') → toLowerCase s = s) →
        slugOf toLowerCase (slugOf toLowerCase name) = slugOf toLowerCase name) := by
  have hch : ∀ ch ∈ slugOf toLowerCase name, isSlugAlnum ch = true ∨ ch = '-' :=
    fun ch h => replaceNonAlnumRuns_chars false _ ch ((stripDashes_part _).subset h)
  have hchain : List.Chain' (fun x y => ¬ (x = '-' ∧ y = '-')) (slugOf toLowerCase name) :=
    List.Chain'.infix (replaceNonAlnumRuns_chain false _).1 (stripDashes_part _)
  refine ⟨rfl, hch, stripDashes_head _, stripDashes_getLast _, hchain, ?_⟩
  intro hlow
  show stripDashes (replaceNonAlnumRuns false (toLowerCase (slugOf toLowerCase name))) = _
  rw [hlow _ hch, replaceNonAlnumRuns_of_slug false _ hch hchain (by intro h; cases h)]
  exact stripDashes_of_slug _ (stripDashes_head _) (stripDashes_getLast _)

/-- Witness of C30: with ASCII lowering, the name `Hi, You!` has the slug
`hi-you`, and the slug of `hi-you` is `hi-you`. -/
theorem slugOf_spec_witness :
    (∀ s : List Char, (∀ ch ∈ s, isSlugAlnum ch = true ∨ ch = '-') →
        List.map Char.toLower s = s)
    ∧ slugOf (List.map Char.toLower) ['H', 'i', ',', ' ', 'Y', 'o', 'u', '!']
        = ['h', 'i', '-', 'y', 'o', 'u']
    ∧ slugOf (List.map Char.toLower)
        (slugOf (List.map Char.toLower) ['H', 'i', ',', ' ', 'Y', 'o', 'u', '!'])
        = slugOf (List.map Char.toLower) ['H', 'i', ',', ' ', 'Y', 'o', 'u', '!'] :=
  ⟨map_toLower_of_slug, by decide,
    (slugOf_spec (List.map Char.toLower) ['H', 'i', ',', ' ', 'Y', 'o', 'u', '!']
      []).2.2.2.2.2 map_toLower_of_slug⟩

end Manereja
